import Mathlib

/-!
# Backup export / import engine of the deployer service

A shallow embedding of `internal/service/backup_service.go`.

* Entity records carry exactly the fields the service reads or writes.
* `json.RawMessage` items are represented by the outcome of `json.Unmarshal`
  into the entity type of the collection that holds them.
* The entity store is an explicit state: four tables plus the trace of the
  accesses issued so far.  The behaviour of the store that the service cannot
  control (operations that error out, the default creation time) is an `Env`.
-/

namespace Deployer

/-! ## Data model -/

/-- Row of the `deployment_targets` table (`ent.DeploymentTarget`). -/
structure DeploymentTarget where
  ID : String
  TenantID : Option Nat
  Name : String
  Description : String
  AutoDeployOnRenewal : Bool
  CertificateFilters : String
  CreateBy : Option Nat
  UpdateBy : Option Nat
  CreateTime : Option Nat
deriving DecidableEq, Repr

/-- Row of the `target_configurations` table (`ent.TargetConfiguration`). -/
structure TargetConfiguration where
  ID : String
  TenantID : Option Nat
  Name : String
  Description : String
  ProviderType : String
  CredentialsEncrypted : String
  Config : String
  Status : String
  StatusMessage : String
  LastDeploymentAt : Option Nat
  CreateBy : Option Nat
  UpdateBy : Option Nat
  CreateTime : Option Nat
deriving DecidableEq, Repr

/-- Row of the `deployment_jobs` table (`ent.DeploymentJob`). -/
structure DeploymentJob where
  ID : String
  TenantID : Option Nat
  DeploymentTargetID : Option String
  TargetConfigurationID : Option String
  ParentJobID : Option String
  CertificateID : String
  CertificateSerial : String
  Status : String
  StatusMessage : String
  Progress : Int
  RetryCount : Int
  MaxRetries : Int
  TriggeredBy : String
  Result : String
  StartedAt : Option Nat
  CreateBy : Option Nat
  CreateTime : Option Nat
deriving DecidableEq, Repr

/-- Row of the `deployment_history` table (`ent.DeploymentHistory`); it has no
tenant column, the tenant is the one of the job `JobID` points to. -/
structure DeploymentHistory where
  ID : Int
  JobID : String
  Action : String
  Result : String
  Message : String
  DurationMs : Int
  Details : String
  CreateTime : Option Nat
deriving DecidableEq, Repr

/-- A `json.RawMessage` held in a collection of `α` records: the outcome of
`json.Unmarshal` of the item into `α` (the error text when it does not decode). -/
abbrev RawMessage (α : Type) := Except String α

/-- The Go constant `backupModule`. -/
def backupModule : String := "deployer"

/-- The Go constant `backupVersion`. -/
def backupVersion : String := "1.0"

/-- The Go struct `backupEntities`. -/
structure backupEntities where
  DeploymentTargets : List (RawMessage DeploymentTarget)
  TargetConfigurations : List (RawMessage TargetConfiguration)
  DeploymentJobs : List (RawMessage DeploymentJob)
  DeploymentHistory : List (RawMessage DeploymentHistory)

/-- The Go struct `backupData` (the envelope). -/
structure backupData where
  Module : String
  Version : String
  ExportedAt : Nat
  TenantID : Nat
  FullBackup : Bool
  Data : backupEntities

/-- What the request context tells about the caller:
`grpcx.GetTenantIDFromContext` and `grpcx.IsPlatformAdmin`. -/
structure Caller where
  TenantID : Nat
  IsPlatformAdmin : Bool
deriving DecidableEq, Repr

/-- The enum `deployerV1.RestoreMode`; the service only tests for `RESTORE_MODE_SKIP`. -/
inductive RestoreMode where
  | RESTORE_MODE_SKIP
  | RESTORE_MODE_OVERWRITE
deriving DecidableEq, Repr

/-- The message `deployerV1.EntityImportResult`. -/
structure EntityImportResult where
  EntityType : String
  Total : Nat
  Created : Nat
  Updated : Nat
  Skipped : Nat
  Failed : Nat
deriving DecidableEq, Repr

/-- The message `deployerV1.ImportBackupRequest`: `Data` is the outcome of
`json.Unmarshal(req.GetData(), &backup)`. -/
structure ImportBackupRequest where
  Data : Except String backupData
  Mode : RestoreMode

/-- The message `deployerV1.ImportBackupResponse`. -/
structure ImportBackupResponse where
  Success : Bool
  Results : List EntityImportResult
  Warnings : List String
deriving DecidableEq, Repr

/-- The message `deployerV1.ExportBackupRequest`; `TenantId` is an optional field. -/
structure ExportBackupRequest where
  TenantId : Option Nat
deriving DecidableEq, Repr

/-- The message `deployerV1.ExportBackupResponse`; `Data` is the envelope whose
JSON encoding the response carries. -/
structure ExportBackupResponse where
  Data : backupData
  Module : String
  Version : String
  ExportedAt : Nat
  TenantId : Nat
  EntityCounts : List (String × Nat)

/-! ## The entity store -/

/-- The four entity kinds, named as in the envelope. -/
inductive EntityKind where
  | deploymentTargets
  | targetConfigurations
  | deploymentJobs
  | deploymentHistory
deriving DecidableEq, Repr

/-- The kinds of access the import issues against the store. -/
inductive Access where
  | get
  | create
  | update
deriving DecidableEq, Repr

/-- One store access of the trace. -/
structure Op where
  kind : EntityKind
  access : Access
deriving DecidableEq, Repr

/-- The entity store: the four tables and the trace of accesses issued so far. -/
structure Store where
  targets : List DeploymentTarget
  configs : List TargetConfiguration
  jobs : List DeploymentJob
  history : List DeploymentHistory
  log : List Op
deriving DecidableEq, Repr

/-- Behaviour of the store outside the control of the service.  The import
oracles are indexed by the number of accesses issued before the one at hand;
`true` means that this access returns an error. -/
structure Env where
  getFails : Nat → Bool
  createFails : Nat → Bool
  updateFails : Nat → Bool
  createTimeDefault : Nat → Option Nat
  queryFails : EntityKind → Bool
  marshalFails : EntityKind → Nat → Bool

/-- Append one access to the trace. -/
def Store.record (s : Store) (k : EntityKind) (a : Access) : Store :=
  { s with log := s.log ++ [⟨k, a⟩] }

/-- The ent builder method `SetNillableX(v)`: it sets the field when the given
pointer is not nil and leaves the field as it is otherwise. -/
def setNillable {α : Type} (v : Option α) (cur : Option α) : Option α :=
  match v with
  | some x => some x
  | none => cur

/-- Row lookup by primary key. -/
def findByID {α κ : Type} [DecidableEq κ] (key : α → κ) (rows : List α) (id : κ) : Option α :=
  rows.find? (fun r => decide (key r = id))

/-- Whether a row with this primary key is in the table. -/
def hasID {α κ : Type} [DecidableEq κ] (key : α → κ) (rows : List α) (id : κ) : Bool :=
  rows.any (fun r => decide (key r = id))

/-- Apply a mutation to the row with this primary key. -/
def updateByID {α κ : Type} [DecidableEq κ] (key : α → κ) (rows : List α) (id : κ)
    (f : α → α) : List α :=
  rows.map (fun r => if key r = id then f r else r)

/-- The call `client.DeploymentTarget.Get(ctx, id)` with its error dropped:
the row, or nil when it is not found or the lookup fails. -/
def getDeploymentTarget (env : Env) (s : Store) (id : String) :
    Option DeploymentTarget × Store :=
  let s1 := s.record .deploymentTargets .get
  if env.getFails s.log.length then (none, s1)
  else (findByID DeploymentTarget.ID s.targets id, s1)

/-- The call `client.DeploymentTarget.Create()...Save(ctx)` for the built row. -/
def createDeploymentTarget (env : Env) (s : Store) (r : DeploymentTarget) :
    Except String Unit × Store :=
  let s1 := s.record .deploymentTargets .create
  if env.createFails s.log.length then (.error "store error", s1)
  else if hasID DeploymentTarget.ID s.targets r.ID then (.error "constraint failed", s1)
  else (.ok (), { s1 with targets := s1.targets ++ [r] })

/-- The call `client.DeploymentTarget.UpdateOneID(id)...Save(ctx)`, the chain of
setters being the mutation `f`. -/
def updateOneDeploymentTarget (env : Env) (s : Store) (id : String)
    (f : DeploymentTarget → DeploymentTarget) : Except String Unit × Store :=
  let s1 := s.record .deploymentTargets .update
  if env.updateFails s.log.length then (.error "store error", s1)
  else if hasID DeploymentTarget.ID s.targets id then
    (.ok (), { s1 with targets := updateByID DeploymentTarget.ID s1.targets id f })
  else (.error "not found", s1)

/-- The call `client.TargetConfiguration.Get(ctx, id)` with its error dropped. -/
def getTargetConfiguration (env : Env) (s : Store) (id : String) :
    Option TargetConfiguration × Store :=
  let s1 := s.record .targetConfigurations .get
  if env.getFails s.log.length then (none, s1)
  else (findByID TargetConfiguration.ID s.configs id, s1)

/-- The call `client.TargetConfiguration.Create()...Save(ctx)` for the built row. -/
def createTargetConfiguration (env : Env) (s : Store) (r : TargetConfiguration) :
    Except String Unit × Store :=
  let s1 := s.record .targetConfigurations .create
  if env.createFails s.log.length then (.error "store error", s1)
  else if hasID TargetConfiguration.ID s.configs r.ID then (.error "constraint failed", s1)
  else (.ok (), { s1 with configs := s1.configs ++ [r] })

/-- The call `client.TargetConfiguration.UpdateOneID(id)...Save(ctx)`. -/
def updateOneTargetConfiguration (env : Env) (s : Store) (id : String)
    (f : TargetConfiguration → TargetConfiguration) : Except String Unit × Store :=
  let s1 := s.record .targetConfigurations .update
  if env.updateFails s.log.length then (.error "store error", s1)
  else if hasID TargetConfiguration.ID s.configs id then
    (.ok (), { s1 with configs := updateByID TargetConfiguration.ID s1.configs id f })
  else (.error "not found", s1)

/-- The call `client.DeploymentJob.Get(ctx, id)` with its error dropped. -/
def getDeploymentJob (env : Env) (s : Store) (id : String) :
    Option DeploymentJob × Store :=
  let s1 := s.record .deploymentJobs .get
  if env.getFails s.log.length then (none, s1)
  else (findByID DeploymentJob.ID s.jobs id, s1)

/-- The call `client.DeploymentJob.Create()...Save(ctx)` for the built row. -/
def createDeploymentJob (env : Env) (s : Store) (r : DeploymentJob) :
    Except String Unit × Store :=
  let s1 := s.record .deploymentJobs .create
  if env.createFails s.log.length then (.error "store error", s1)
  else if hasID DeploymentJob.ID s.jobs r.ID then (.error "constraint failed", s1)
  else (.ok (), { s1 with jobs := s1.jobs ++ [r] })

/-- The call `client.DeploymentJob.UpdateOneID(id)...Save(ctx)`. -/
def updateOneDeploymentJob (env : Env) (s : Store) (id : String)
    (f : DeploymentJob → DeploymentJob) : Except String Unit × Store :=
  let s1 := s.record .deploymentJobs .update
  if env.updateFails s.log.length then (.error "store error", s1)
  else if hasID DeploymentJob.ID s.jobs id then
    (.ok (), { s1 with jobs := updateByID DeploymentJob.ID s1.jobs id f })
  else (.error "not found", s1)

/-- The call `client.DeploymentHistory.Get(ctx, id)` with its error dropped. -/
def getDeploymentHistory (env : Env) (s : Store) (id : Int) :
    Option DeploymentHistory × Store :=
  let s1 := s.record .deploymentHistory .get
  if env.getFails s.log.length then (none, s1)
  else (findByID DeploymentHistory.ID s.history id, s1)

/-- The call `client.DeploymentHistory.Create()...Save(ctx)` for the built row. -/
def createDeploymentHistory (env : Env) (s : Store) (r : DeploymentHistory) :
    Except String Unit × Store :=
  let s1 := s.record .deploymentHistory .create
  if env.createFails s.log.length then (.error "store error", s1)
  else if hasID DeploymentHistory.ID s.history r.ID then (.error "constraint failed", s1)
  else (.ok (), { s1 with history := s1.history ++ [r] })

/-- The call `client.DeploymentHistory.UpdateOneID(id)...Save(ctx)`. -/
def updateOneDeploymentHistory (env : Env) (s : Store) (id : Int)
    (f : DeploymentHistory → DeploymentHistory) : Except String Unit × Store :=
  let s1 := s.record .deploymentHistory .update
  if env.updateFails s.log.length then (.error "store error", s1)
  else if hasID DeploymentHistory.ID s.history id then
    (.ok (), { s1 with history := updateByID DeploymentHistory.ID s1.history id f })
  else (.error "not found", s1)

/-! ## Import handlers -/

/-- The loop state of an import handler: the counters, the warnings and the store. -/
structure ImportState where
  result : EntityImportResult
  warnings : List String
  store : Store
deriving DecidableEq, Repr

/-- The statements `warnings = append(warnings, w); result.Failed++; continue`. -/
def ImportState.fail (st : ImportState) (s : Store) (w : String) : ImportState :=
  { result := { st.result with Failed := st.result.Failed + 1 },
    warnings := st.warnings ++ [w], store := s }

/-- The statements `result.Skipped++; continue`. -/
def ImportState.skipped (st : ImportState) (s : Store) : ImportState :=
  { st with result := { st.result with Skipped := st.result.Skipped + 1 }, store := s }

/-- The statement `result.Updated++`. -/
def ImportState.updated (st : ImportState) (s : Store) : ImportState :=
  { st with result := { st.result with Updated := st.result.Updated + 1 }, store := s }

/-- The statement `result.Created++`. -/
def ImportState.created (st : ImportState) (s : Store) : ImportState :=
  { st with result := { st.result with Created := st.result.Created + 1 }, store := s }

/-- The initial state `result := &EntityImportResult{EntityType: name, Total: len(items)}`. -/
def ImportState.init (name : String) (total : Nat) (s : Store) : ImportState :=
  { result := { EntityType := name, Total := total, Created := 0, Updated := 0,
                Skipped := 0, Failed := 0 },
    warnings := [], store := s }

/-- The statements `tid := tenantID; if full && e.TenantID != nil { tid = *e.TenantID }`. -/
def resolveTid (tenantID : Nat) (full : Bool) (embedded : Option Nat) : Nat :=
  match full, embedded with
  | true, some t => t
  | _, _ => tenantID

/-- The setters of the `DeploymentTarget` update builder applied to the stored row. -/
def updateDeploymentTargetFields (e old : DeploymentTarget) : DeploymentTarget :=
  { old with
    Name := e.Name
    Description := e.Description
    AutoDeployOnRenewal := e.AutoDeployOnRenewal
    CertificateFilters := e.CertificateFilters
    CreateBy := setNillable e.CreateBy old.CreateBy
    UpdateBy := setNillable e.UpdateBy old.UpdateBy }

/-- The row built by the `DeploymentTarget` create builder; `dflt` is the creation
time the store gives a row that comes without one. -/
def newDeploymentTarget (dflt : Option Nat) (e : DeploymentTarget) (tid : Nat) :
    DeploymentTarget :=
  { ID := e.ID
    TenantID := setNillable (some tid) none
    Name := e.Name
    Description := e.Description
    AutoDeployOnRenewal := e.AutoDeployOnRenewal
    CertificateFilters := e.CertificateFilters
    CreateBy := setNillable e.CreateBy none
    UpdateBy := setNillable e.UpdateBy none
    CreateTime := setNillable e.CreateTime dflt }

/-- One iteration of the loop of `importDeploymentTargets`. -/
def importDeploymentTargetsStep (env : Env) (tenantID : Nat) (full : Bool) (mode : RestoreMode)
    (st : ImportState) (raw : RawMessage DeploymentTarget) : ImportState :=
  match raw with
  | .error err => st.fail st.store ("deploymentTargets: unmarshal error: " ++ err)
  | .ok e =>
    let tid := resolveTid tenantID full e.TenantID
    match getDeploymentTarget env st.store e.ID with
    | (some _, s1) =>
      if mode = RestoreMode.RESTORE_MODE_SKIP then st.skipped s1
      else
        match updateOneDeploymentTarget env s1 e.ID (updateDeploymentTargetFields e) with
        | (.error err, s2) => st.fail s2 ("deploymentTargets: update " ++ e.ID ++ ": " ++ err)
        | (.ok _, s2) => st.updated s2
    | (none, s1) =>
      match createDeploymentTarget env s1
          (newDeploymentTarget (env.createTimeDefault s1.log.length) e tid) with
      | (.error err, s2) => st.fail s2 ("deploymentTargets: create " ++ e.ID ++ ": " ++ err)
      | (.ok _, s2) => st.created s2

/-- The Go method `importDeploymentTargets`. -/
def importDeploymentTargets (env : Env) (s : Store) (items : List (RawMessage DeploymentTarget))
    (tenantID : Nat) (full : Bool) (mode : RestoreMode) : ImportState :=
  items.foldl (importDeploymentTargetsStep env tenantID full mode)
    (ImportState.init "deploymentTargets" items.length s)

/-- The setters of the `TargetConfiguration` update builder applied to the stored row. -/
def updateTargetConfigurationFields (e old : TargetConfiguration) : TargetConfiguration :=
  { old with
    Name := e.Name
    Description := e.Description
    ProviderType := e.ProviderType
    CredentialsEncrypted := e.CredentialsEncrypted
    Config := e.Config
    Status := e.Status
    StatusMessage := e.StatusMessage
    LastDeploymentAt := setNillable e.LastDeploymentAt old.LastDeploymentAt
    CreateBy := setNillable e.CreateBy old.CreateBy
    UpdateBy := setNillable e.UpdateBy old.UpdateBy }

/-- The row built by the `TargetConfiguration` create builder. -/
def newTargetConfiguration (dflt : Option Nat) (e : TargetConfiguration) (tid : Nat) :
    TargetConfiguration :=
  { ID := e.ID
    TenantID := setNillable (some tid) none
    Name := e.Name
    Description := e.Description
    ProviderType := e.ProviderType
    CredentialsEncrypted := e.CredentialsEncrypted
    Config := e.Config
    Status := e.Status
    StatusMessage := e.StatusMessage
    LastDeploymentAt := setNillable e.LastDeploymentAt none
    CreateBy := setNillable e.CreateBy none
    UpdateBy := setNillable e.UpdateBy none
    CreateTime := setNillable e.CreateTime dflt }

/-- One iteration of the loop of `importTargetConfigurations`. -/
def importTargetConfigurationsStep (env : Env) (tenantID : Nat) (full : Bool)
    (mode : RestoreMode) (st : ImportState) (raw : RawMessage TargetConfiguration) :
    ImportState :=
  match raw with
  | .error err => st.fail st.store ("targetConfigurations: unmarshal error: " ++ err)
  | .ok e =>
    let tid := resolveTid tenantID full e.TenantID
    match getTargetConfiguration env st.store e.ID with
    | (some _, s1) =>
      if mode = RestoreMode.RESTORE_MODE_SKIP then st.skipped s1
      else
        match updateOneTargetConfiguration env s1 e.ID (updateTargetConfigurationFields e) with
        | (.error err, s2) => st.fail s2 ("targetConfigurations: update " ++ e.ID ++ ": " ++ err)
        | (.ok _, s2) => st.updated s2
    | (none, s1) =>
      match createTargetConfiguration env s1
          (newTargetConfiguration (env.createTimeDefault s1.log.length) e tid) with
      | (.error err, s2) => st.fail s2 ("targetConfigurations: create " ++ e.ID ++ ": " ++ err)
      | (.ok _, s2) => st.created s2

/-- The Go method `importTargetConfigurations`. -/
def importTargetConfigurations (env : Env) (s : Store)
    (items : List (RawMessage TargetConfiguration)) (tenantID : Nat) (full : Bool)
    (mode : RestoreMode) : ImportState :=
  items.foldl (importTargetConfigurationsStep env tenantID full mode)
    (ImportState.init "targetConfigurations" items.length s)

/-- The setters of the `DeploymentJob` update builder applied to the stored row. -/
def updateDeploymentJobFields (e old : DeploymentJob) : DeploymentJob :=
  { old with
    DeploymentTargetID := setNillable e.DeploymentTargetID old.DeploymentTargetID
    TargetConfigurationID := setNillable e.TargetConfigurationID old.TargetConfigurationID
    ParentJobID := setNillable e.ParentJobID old.ParentJobID
    CertificateID := e.CertificateID
    CertificateSerial := e.CertificateSerial
    Status := e.Status
    StatusMessage := e.StatusMessage
    Progress := e.Progress
    RetryCount := e.RetryCount
    MaxRetries := e.MaxRetries
    TriggeredBy := e.TriggeredBy
    Result := e.Result
    StartedAt := setNillable e.StartedAt old.StartedAt
    CreateBy := setNillable e.CreateBy old.CreateBy }

/-- The row built by the `DeploymentJob` create builder. -/
def newDeploymentJob (dflt : Option Nat) (e : DeploymentJob) (tid : Nat) : DeploymentJob :=
  { ID := e.ID
    TenantID := setNillable (some tid) none
    DeploymentTargetID := setNillable e.DeploymentTargetID none
    TargetConfigurationID := setNillable e.TargetConfigurationID none
    ParentJobID := setNillable e.ParentJobID none
    CertificateID := e.CertificateID
    CertificateSerial := e.CertificateSerial
    Status := e.Status
    StatusMessage := e.StatusMessage
    Progress := e.Progress
    RetryCount := e.RetryCount
    MaxRetries := e.MaxRetries
    TriggeredBy := e.TriggeredBy
    Result := e.Result
    StartedAt := setNillable e.StartedAt none
    CreateBy := setNillable e.CreateBy none
    CreateTime := setNillable e.CreateTime dflt }

/-- One iteration of the loop of `importDeploymentJobs`. -/
def importDeploymentJobsStep (env : Env) (tenantID : Nat) (full : Bool) (mode : RestoreMode)
    (st : ImportState) (raw : RawMessage DeploymentJob) : ImportState :=
  match raw with
  | .error err => st.fail st.store ("deploymentJobs: unmarshal error: " ++ err)
  | .ok e =>
    let tid := resolveTid tenantID full e.TenantID
    match getDeploymentJob env st.store e.ID with
    | (some _, s1) =>
      if mode = RestoreMode.RESTORE_MODE_SKIP then st.skipped s1
      else
        match updateOneDeploymentJob env s1 e.ID (updateDeploymentJobFields e) with
        | (.error err, s2) => st.fail s2 ("deploymentJobs: update " ++ e.ID ++ ": " ++ err)
        | (.ok _, s2) => st.updated s2
    | (none, s1) =>
      match createDeploymentJob env s1
          (newDeploymentJob (env.createTimeDefault s1.log.length) e tid) with
      | (.error err, s2) => st.fail s2 ("deploymentJobs: create " ++ e.ID ++ ": " ++ err)
      | (.ok _, s2) => st.created s2

/-- The Go method `importDeploymentJobs`. -/
def importDeploymentJobs (env : Env) (s : Store) (items : List (RawMessage DeploymentJob))
    (tenantID : Nat) (full : Bool) (mode : RestoreMode) : ImportState :=
  items.foldl (importDeploymentJobsStep env tenantID full mode)
    (ImportState.init "deploymentJobs" items.length s)

/-- The setters of the `DeploymentHistory` update builder applied to the stored row. -/
def updateDeploymentHistoryFields (e old : DeploymentHistory) : DeploymentHistory :=
  { old with
    JobID := e.JobID
    Action := e.Action
    Result := e.Result
    Message := e.Message
    DurationMs := e.DurationMs
    Details := e.Details }

/-- The row built by the `DeploymentHistory` create builder. -/
def newDeploymentHistory (dflt : Option Nat) (e : DeploymentHistory) : DeploymentHistory :=
  { ID := e.ID
    JobID := e.JobID
    Action := e.Action
    Result := e.Result
    Message := e.Message
    DurationMs := e.DurationMs
    Details := e.Details
    CreateTime := setNillable e.CreateTime dflt }

/-- One iteration of the loop of `importDeploymentHistory`; the handler takes
`tenantID` and `full` and uses neither. -/
def importDeploymentHistoryStep (env : Env) (_tenantID : Nat) (_full : Bool)
    (mode : RestoreMode) (st : ImportState) (raw : RawMessage DeploymentHistory) :
    ImportState :=
  match raw with
  | .error err => st.fail st.store ("deploymentHistory: unmarshal error: " ++ err)
  | .ok e =>
    match getDeploymentHistory env st.store e.ID with
    | (some _, s1) =>
      if mode = RestoreMode.RESTORE_MODE_SKIP then st.skipped s1
      else
        match updateOneDeploymentHistory env s1 e.ID (updateDeploymentHistoryFields e) with
        | (.error err, s2) =>
          st.fail s2 ("deploymentHistory: update " ++ toString e.ID ++ ": " ++ err)
        | (.ok _, s2) => st.updated s2
    | (none, s1) =>
      match createDeploymentHistory env s1
          (newDeploymentHistory (env.createTimeDefault s1.log.length) e) with
      | (.error err, s2) =>
        st.fail s2 ("deploymentHistory: create " ++ toString e.ID ++ ": " ++ err)
      | (.ok _, s2) => st.created s2

/-- The Go method `importDeploymentHistory`. -/
def importDeploymentHistory (env : Env) (s : Store)
    (items : List (RawMessage DeploymentHistory)) (tenantID : Nat) (full : Bool)
    (mode : RestoreMode) : ImportState :=
  items.foldl (importDeploymentHistoryStep env tenantID full mode)
    (ImportState.init "deploymentHistory" items.length s)

/-! ## ImportBackup -/

/-- One entry of the table `importFuncs` joined with `dataMap`: the name of the
kind, the number of items of the kind in the envelope, and the handler applied
to those items. -/
structure ImportFunc where
  name : String
  count : Nat
  fn : Store → ImportState

/-- The table `importFuncs` for an envelope, in the order of the source. -/
def importFuncs (env : Env) (backup : backupData) (tenantID : Nat) (mode : RestoreMode) :
    List ImportFunc :=
  [ { name := "deploymentTargets", count := backup.Data.DeploymentTargets.length,
      fn := fun s => importDeploymentTargets env s backup.Data.DeploymentTargets tenantID
        backup.FullBackup mode },
    { name := "targetConfigurations", count := backup.Data.TargetConfigurations.length,
      fn := fun s => importTargetConfigurations env s backup.Data.TargetConfigurations tenantID
        backup.FullBackup mode },
    { name := "deploymentJobs", count := backup.Data.DeploymentJobs.length,
      fn := fun s => importDeploymentJobs env s backup.Data.DeploymentJobs tenantID
        backup.FullBackup mode },
    { name := "deploymentHistory", count := backup.Data.DeploymentHistory.length,
      fn := fun s => importDeploymentHistory env s backup.Data.DeploymentHistory tenantID
        backup.FullBackup mode } ]

/-- The accumulators of the loop of `ImportBackup`. -/
structure ImportAcc where
  results : List EntityImportResult
  warnings : List String
  store : Store
deriving DecidableEq, Repr

/-- One iteration of `for _, imp := range importFuncs`. -/
def runImportFunc (acc : ImportAcc) (imp : ImportFunc) : ImportAcc :=
  if imp.count = 0 then acc
  else
    let st := imp.fn acc.store
    { results := acc.results ++ [st.result], warnings := acc.warnings ++ st.warnings,
      store := st.store }

/-- The statements that choose the tenant handed to the handlers. -/
def importTenant (caller : Caller) (backup : backupData) : Nat :=
  if !caller.IsPlatformAdmin || !backup.FullBackup then caller.TenantID else 0

/-- The Go method `ImportBackup`: the response or the error, and the store afterwards. -/
def ImportBackup (env : Env) (caller : Caller) (req : ImportBackupRequest) (s : Store) :
    Except String ImportBackupResponse × Store :=
  match req.Data with
  | .error err => (.error ("invalid backup data: " ++ err), s)
  | .ok backup =>
    if backup.Module ≠ backupModule then
      (.error ("backup module mismatch: expected " ++ backupModule ++ ", got " ++ backup.Module), s)
    else if backup.Version ≠ backupVersion then
      (.error ("backup version mismatch: expected " ++ backupVersion ++ ", got "
        ++ backup.Version), s)
    else if backup.FullBackup && !caller.IsPlatformAdmin then
      (.error "only platform admins can restore full backups", s)
    else
      let tenantID := importTenant caller backup
      let acc := (importFuncs env backup tenantID req.Mode).foldl runImportFunc
        { results := [], warnings := [], store := s }
      (.ok { Success := true, Results := acc.results, Warnings := acc.warnings }, acc.store)

/-! ## ExportBackup -/

/-- The Go function `marshalEntities`: every entity is serialised on its own and
the first failure aborts; `fails i` tells whether `json.Marshal` fails on the
entity at index `i`. -/
def marshalEntitiesFrom {α : Type} (fails : Nat → Bool) (i : Nat) :
    List α → Except String (List (RawMessage α))
  | [] => .ok []
  | e :: rest =>
    if fails i then .error "json: marshal error"
    else
      match marshalEntitiesFrom fails (i + 1) rest with
      | .error err => .error err
      | .ok out => .ok (Except.ok e :: out)

/-- The Go function `marshalEntities`. -/
def marshalEntities {α : Type} (fails : Nat → Bool) (entities : List α) :
    Except String (List (RawMessage α)) :=
  marshalEntitiesFrom fails 0 entities

/-- The Go method `exportDeploymentTargets`. -/
def exportDeploymentTargets (env : Env) (s : Store) (tenantID : Nat) (full : Bool) :
    Except String (List (RawMessage DeploymentTarget)) :=
  let entities := if !full then s.targets.filter (fun r => decide (r.TenantID = some tenantID))
    else s.targets
  if env.queryFails .deploymentTargets then .error "query error"
  else marshalEntities (env.marshalFails .deploymentTargets) entities

/-- The Go method `exportTargetConfigurations`. -/
def exportTargetConfigurations (env : Env) (s : Store) (tenantID : Nat) (full : Bool) :
    Except String (List (RawMessage TargetConfiguration)) :=
  let entities := if !full then s.configs.filter (fun r => decide (r.TenantID = some tenantID))
    else s.configs
  if env.queryFails .targetConfigurations then .error "query error"
  else marshalEntities (env.marshalFails .targetConfigurations) entities

/-- The Go method `exportDeploymentJobs`. -/
def exportDeploymentJobs (env : Env) (s : Store) (tenantID : Nat) (full : Bool) :
    Except String (List (RawMessage DeploymentJob)) :=
  let entities := if !full then s.jobs.filter (fun r => decide (r.TenantID = some tenantID))
    else s.jobs
  if env.queryFails .deploymentJobs then .error "query error"
  else marshalEntities (env.marshalFails .deploymentJobs) entities

/-- The predicate `deploymenthistory.HasJobWith(deploymentjob.TenantID(tenantID))`:
the job the history row points to exists and has this tenant. -/
def hasJobWithTenant (s : Store) (tenantID : Nat) (h : DeploymentHistory) : Bool :=
  s.jobs.any (fun j => decide (j.ID = h.JobID) && decide (j.TenantID = some tenantID))

/-- The Go method `exportDeploymentHistory`. -/
def exportDeploymentHistory (env : Env) (s : Store) (tenantID : Nat) (full : Bool) :
    Except String (List (RawMessage DeploymentHistory)) :=
  let entities := if !full then s.history.filter (hasJobWithTenant s tenantID) else s.history
  if env.queryFails .deploymentHistory then .error "query error"
  else marshalEntities (env.marshalFails .deploymentHistory) entities

/-- The scope resolution at the head of `ExportBackup`: the tenant and the
`full` flag handed to the export helpers. -/
def exportScope (caller : Caller) (req : ExportBackupRequest) : Nat × Bool :=
  if caller.IsPlatformAdmin && req.TenantId.isSome && decide (req.TenantId = some 0) then
    (0, true)
  else if req.TenantId.isSome && decide (req.TenantId ≠ some 0) then
    if caller.IsPlatformAdmin then (req.TenantId.getD 0, false) else (caller.TenantID, false)
  else (caller.TenantID, false)

/-- The Go method `ExportBackup`; `now` is the reading of `time.Now()`. -/
def ExportBackup (env : Env) (caller : Caller) (req : ExportBackupRequest) (now : Nat)
    (s : Store) : Except String ExportBackupResponse :=
  let tenantID := (exportScope caller req).1
  let full := (exportScope caller req).2
  match exportDeploymentTargets env s tenantID full with
  | .error err => .error ("export deployment targets: " ++ err)
  | .ok deploymentTargets =>
    match exportTargetConfigurations env s tenantID full with
    | .error err => .error ("export target configurations: " ++ err)
    | .ok targetConfigurations =>
      match exportDeploymentJobs env s tenantID full with
      | .error err => .error ("export deployment jobs: " ++ err)
      | .ok deploymentJobs =>
        match exportDeploymentHistory env s tenantID full with
        | .error err => .error ("export deployment history: " ++ err)
        | .ok deploymentHistory =>
          let backup : backupData :=
            { Module := backupModule, Version := backupVersion, ExportedAt := now,
              TenantID := tenantID, FullBackup := full,
              Data := { DeploymentTargets := deploymentTargets,
                        TargetConfigurations := targetConfigurations,
                        DeploymentJobs := deploymentJobs,
                        DeploymentHistory := deploymentHistory } }
          .ok { Data := backup, Module := backupModule, Version := backupVersion,
                ExportedAt := now, TenantId := tenantID,
                EntityCounts :=
                  [("deploymentTargets", deploymentTargets.length),
                   ("targetConfigurations", targetConfigurations.length),
                   ("deploymentJobs", deploymentJobs.length),
                   ("deploymentHistory", deploymentHistory.length)] }


/-! ## Predicates used to state the properties -/

/-- Every row that a lookup by identifier finds in `rows` is still found in
`rows'` under that identifier, and is related by `same` to what it was. -/
def rowsKept {α κ : Type} [DecidableEq κ] (key : α → κ) (same : α → α → Prop)
    (rows rows' : List α) : Prop :=
  ∀ id old, findByID key rows id = some old →
    ∃ new, findByID key rows' id = some new ∧ same old new

/-- Two versions of a target with the same identifier, tenant and creation time. -/
def sameDeploymentTarget (a b : DeploymentTarget) : Prop :=
  b.ID = a.ID ∧ b.TenantID = a.TenantID ∧ b.CreateTime = a.CreateTime

/-- Two versions of a configuration with the same identifier, tenant and creation time. -/
def sameTargetConfiguration (a b : TargetConfiguration) : Prop :=
  b.ID = a.ID ∧ b.TenantID = a.TenantID ∧ b.CreateTime = a.CreateTime

/-- Two versions of a job with the same identifier, tenant and creation time. -/
def sameDeploymentJob (a b : DeploymentJob) : Prop :=
  b.ID = a.ID ∧ b.TenantID = a.TenantID ∧ b.CreateTime = a.CreateTime

/-- Two versions of a history row with the same identifier and creation time. -/
def sameDeploymentHistory (a b : DeploymentHistory) : Prop :=
  b.ID = a.ID ∧ b.CreateTime = a.CreateTime

/-- The rows of `s` are all still in `s'` with their identity columns untouched. -/
def keepsIdentity (s s' : Store) : Prop :=
  rowsKept DeploymentTarget.ID sameDeploymentTarget s.targets s'.targets ∧
  rowsKept TargetConfiguration.ID sameTargetConfiguration s.configs s'.configs ∧
  rowsKept DeploymentJob.ID sameDeploymentJob s.jobs s'.jobs ∧
  rowsKept DeploymentHistory.ID sameDeploymentHistory s.history s'.history

/-- The records of a collection that decode, in order. -/
def decodedItems {α : Type} (items : List (RawMessage α)) : List α :=
  items.filterMap (fun r => match r with
    | .ok e => some e
    | .error _ => none)

/-- The number of items of a collection that do not decode. -/
def undecodableCount {α : Type} (items : List (RawMessage α)) : Nat :=
  items.countP (fun r => match r with
    | .ok _ => false
    | .error _ => true)

/-- The state the target handler returns when `ImportBackup` runs the handler
table on an envelope from the store `s`. -/
def afterTargets (env : Env) (backup : backupData) (tenantID : Nat) (mode : RestoreMode)
    (s : Store) : ImportState :=
  importDeploymentTargets env s backup.Data.DeploymentTargets tenantID backup.FullBackup mode

/-- The state the configuration handler returns, run after the target handler. -/
def afterConfigurations (env : Env) (backup : backupData) (tenantID : Nat)
    (mode : RestoreMode) (s : Store) : ImportState :=
  importTargetConfigurations env (afterTargets env backup tenantID mode s).store
    backup.Data.TargetConfigurations tenantID backup.FullBackup mode

/-- The state the job handler returns, run after the configuration handler. -/
def afterJobs (env : Env) (backup : backupData) (tenantID : Nat) (mode : RestoreMode)
    (s : Store) : ImportState :=
  importDeploymentJobs env (afterConfigurations env backup tenantID mode s).store
    backup.Data.DeploymentJobs tenantID backup.FullBackup mode

/-- The state the history handler returns, run after the job handler. -/
def afterHistory (env : Env) (backup : backupData) (tenantID : Nat) (mode : RestoreMode)
    (s : Store) : ImportState :=
  importDeploymentHistory env (afterJobs env backup tenantID mode s).store
    backup.Data.DeploymentHistory tenantID backup.FullBackup mode

/-- What a kind contributes to the results of `ImportBackup`: nothing when its
collection is empty, the result of its handler otherwise. -/
def resultEntry (count : Nat) (st : ImportState) : List EntityImportResult :=
  if count = 0 then [] else [st.result]

/-- The store invariant behind "identifiers are unique": in every table no two
rows share an identifier (the identifier is the primary key). -/
def Store.uniqueIDs (s : Store) : Prop :=
  (s.targets.map DeploymentTarget.ID).Nodup ∧
  (s.configs.map TargetConfiguration.ID).Nodup ∧
  (s.jobs.map DeploymentJob.ID).Nodup ∧
  (s.history.map DeploymentHistory.ID).Nodup

/-! ## Sample inputs -/

/-- A store environment in which no access fails and rows get no default creation time. -/
def okEnv : Env :=
  { getFails := fun _ => false, createFails := fun _ => false, updateFails := fun _ => false,
    createTimeDefault := fun _ => none, queryFails := fun _ => false,
    marshalFails := fun _ _ => false }

/-- A deployment target with the given identifier and tenant. -/
def mkTarget (id : String) (tenant : Option Nat) (name : String) : DeploymentTarget :=
  { ID := id, TenantID := tenant, Name := name, Description := "", AutoDeployOnRenewal := false,
    CertificateFilters := "", CreateBy := none, UpdateBy := none, CreateTime := none }

/-- A target configuration with the given identifier and tenant. -/
def mkConfig (id : String) (tenant : Option Nat) (name : String) : TargetConfiguration :=
  { ID := id, TenantID := tenant, Name := name, Description := "", ProviderType := "",
    CredentialsEncrypted := "", Config := "", Status := "", StatusMessage := "",
    LastDeploymentAt := none, CreateBy := none, UpdateBy := none, CreateTime := none }

/-- A deployment job with the given identifier, tenant and target reference. -/
def mkJob (id : String) (tenant : Option Nat) (target : Option String) : DeploymentJob :=
  { ID := id, TenantID := tenant, DeploymentTargetID := target, TargetConfigurationID := none,
    ParentJobID := none, CertificateID := "", CertificateSerial := "", Status := "",
    StatusMessage := "", Progress := 0, RetryCount := 0, MaxRetries := 0, TriggeredBy := "",
    Result := "", StartedAt := none, CreateBy := none, CreateTime := none }

/-- A history row with the given identifier and parent job. -/
def mkHistory (id : Int) (job : String) : DeploymentHistory :=
  { ID := id, JobID := job, Action := "", Result := "", Message := "", DurationMs := 0,
    Details := "", CreateTime := none }

/-- The store without rows and without accesses. -/
def emptyStore : Store :=
  { targets := [], configs := [], jobs := [], history := [], log := [] }

/-- A store holding rows of tenants 1 and 2 for every kind. -/
def twoTenantStore : Store :=
  { targets := [mkTarget "t1" (some 1) "one", mkTarget "t2" (some 2) "two"],
    configs := [mkConfig "c1" (some 1) "one", mkConfig "c2" (some 2) "two"],
    jobs := [mkJob "j1" (some 1) (some "t1"), mkJob "j2" (some 2) (some "t2")],
    history := [mkHistory 1 "j1", mkHistory 2 "j2"],
    log := [] }

/-- An envelope with the given header and collections. -/
def mkBackup (module version : String) (tenant : Nat) (full : Bool) (data : backupEntities) :
    backupData :=
  { Module := module, Version := version, ExportedAt := 0, TenantID := tenant,
    FullBackup := full, Data := data }

/-- The collections of an envelope that holds nothing. -/
def noEntities : backupEntities :=
  { DeploymentTargets := [], TargetConfigurations := [], DeploymentJobs := [],
    DeploymentHistory := [] }

/-- Ten target items, the fourth of which does not decode. -/
def tenTargetItems : List (RawMessage DeploymentTarget) :=
  [.ok (mkTarget "a0" (some 1) "n0"), .ok (mkTarget "a1" (some 1) "n1"),
   .ok (mkTarget "a2" (some 2) "n2"), .error "unexpected end of JSON input",
   .ok (mkTarget "a4" none "n4"), .ok (mkTarget "a5" (some 1) "n5"),
   .ok (mkTarget "a6" (some 1) "n6"), .ok (mkTarget "a7" (some 1) "n7"),
   .ok (mkTarget "a8" (some 1) "n8"), .ok (mkTarget "a9" (some 1) "n9")]

/-- A tenant-scoped envelope holding the ten target items and one job. -/
def tenTargetBackup : backupData :=
  mkBackup "deployer" "1.0" 1 false
    { noEntities with
      DeploymentTargets := tenTargetItems
      DeploymentJobs := [.ok (mkJob "j9" (some 1) (some "a0"))] }

/-- A tenant-scoped envelope whose two target records carry the same identifier. -/
def duplicateTargetBackup : backupData :=
  mkBackup "deployer" "1.0" 1 false
    { noEntities with
      DeploymentTargets := [.ok (mkTarget "a" (some 1) "first"),
                            .ok (mkTarget "a" (some 1) "second")] }

/-- A tenant-scoped envelope with two targets and one job, all well formed. -/
def smallBackup : backupData :=
  mkBackup "deployer" "1.0" 1 false
    { noEntities with
      DeploymentTargets := [.ok (mkTarget "a" (some 1) "first"),
                            .ok (mkTarget "b" (some 1) "second")]
      DeploymentJobs := [.ok (mkJob "j" (some 1) (some "a"))] }

/-- A store environment in which every lookup returns an error and nothing else fails. -/
def failingLookupEnv : Env :=
  { okEnv with getFails := fun _ => true }

/-! # Theorems -/

/-! ## Export: scope resolution and tenant isolation -/

theorem exportScope_admin_zero (caller : Caller) (req : ExportBackupRequest)
    (ha : caller.IsPlatformAdmin = true) (hr : req.TenantId = some 0) :
    exportScope caller req = (0, true) := by
  simp [exportScope, ha, hr]

theorem exportScope_admin_nonzero (caller : Caller) (req : ExportBackupRequest) (r : Nat)
    (ha : caller.IsPlatformAdmin = true) (hr : req.TenantId = some r) (hne : r ≠ 0) :
    exportScope caller req = (r, false) := by
  simp [exportScope, ha, hr, hne]

theorem exportScope_otherwise (caller : Caller) (req : ExportBackupRequest)
    (h : caller.IsPlatformAdmin = false ∨ req.TenantId = none) :
    exportScope caller req = (caller.TenantID, false) := by
  rcases h with h | h
  · simp [exportScope, h]
  · simp [exportScope, h]

theorem marshalEntitiesFrom_ok {α : Type} (fails : Nat → Bool) :
    ∀ (entities : List α) (i : Nat) (out : List (RawMessage α)),
      marshalEntitiesFrom fails i entities = .ok out → out = entities.map Except.ok := by
  intro entities
  induction entities with
  | nil =>
    intro i out h
    simp only [marshalEntitiesFrom, Except.ok.injEq] at h
    simp [← h]
  | cons e rest ih =>
    intro i out h
    simp only [marshalEntitiesFrom] at h
    split at h
    · cases h
    · split at h
      · cases h
      · rename_i out1 hrest
        simp only [Except.ok.injEq] at h
        rw [← h, ih (i + 1) out1 hrest]
        rfl

theorem marshalEntitiesFrom_total {α : Type} (fails : Nat → Bool) (hf : ∀ i, fails i = false) :
    ∀ (entities : List α) (i : Nat),
      marshalEntitiesFrom fails i entities = .ok (entities.map Except.ok) := by
  intro entities
  induction entities with
  | nil => intro i; rfl
  | cons e rest ih =>
    intro i
    simp [marshalEntitiesFrom, hf i, ih (i + 1)]

/-- What a successful `ExportBackup` returns, read off the code: the resolved
scope in the header and the four queried collections, each row serialised. -/
theorem ExportBackup_ok (env : Env) (caller : Caller) (req : ExportBackupRequest) (now : Nat)
    (s : Store) (resp : ExportBackupResponse)
    (h : ExportBackup env caller req now s = .ok resp) :
    resp.TenantId = (exportScope caller req).1 ∧
    resp.Data.TenantID = (exportScope caller req).1 ∧
    resp.Data.FullBackup = (exportScope caller req).2 ∧
    exportDeploymentTargets env s (exportScope caller req).1 (exportScope caller req).2
      = .ok resp.Data.Data.DeploymentTargets ∧
    exportTargetConfigurations env s (exportScope caller req).1 (exportScope caller req).2
      = .ok resp.Data.Data.TargetConfigurations ∧
    exportDeploymentJobs env s (exportScope caller req).1 (exportScope caller req).2
      = .ok resp.Data.Data.DeploymentJobs ∧
    exportDeploymentHistory env s (exportScope caller req).1 (exportScope caller req).2
      = .ok resp.Data.Data.DeploymentHistory := by
  unfold ExportBackup at h
  simp only at h
  split at h
  · cases h
  · rename_i dt hdt
    split at h
    · cases h
    · rename_i tc htc
      split at h
      · cases h
      · rename_i dj hdj
        split at h
        · cases h
        · rename_i dh hdh
          simp only [Except.ok.injEq] at h
          subst h
          exact ⟨rfl, rfl, rfl, hdt, htc, hdj, hdh⟩

theorem ExportBackup_total (env : Env) (caller : Caller) (req : ExportBackupRequest) (now : Nat)
    (s : Store) (hq : ∀ k, env.queryFails k = false) (hm : ∀ k i, env.marshalFails k i = false) :
    ∃ resp, ExportBackup env caller req now s = .ok resp := by
  simp [ExportBackup, exportDeploymentTargets, exportTargetConfigurations, exportDeploymentJobs,
    exportDeploymentHistory, marshalEntities, hq, marshalEntitiesFrom_total _ (hm _)]

/-- C1. `ExportBackup` resolves its scope from the caller and the optional
requested tenant: a platform admin asking for tenant 0 gets the full export
(full = true, tenant 0); a platform admin asking for a nonzero tenant gets that
tenant; every other request (a non-admin with any override, an admin without
one) gets the caller's own tenant with full = false.  The envelope and the
response of every export that returns carry exactly that scope. -/
theorem ExportBackup_scope (env : Env) (caller : Caller) (req : ExportBackupRequest) (now : Nat)
    (s : Store) :
    (caller.IsPlatformAdmin = true → req.TenantId = some 0 →
      exportScope caller req = (0, true)) ∧
    (∀ r, caller.IsPlatformAdmin = true → req.TenantId = some r → r ≠ 0 →
      exportScope caller req = (r, false)) ∧
    (caller.IsPlatformAdmin = false ∨ req.TenantId = none →
      exportScope caller req = (caller.TenantID, false)) ∧
    (∀ resp, ExportBackup env caller req now s = .ok resp →
      resp.TenantId = (exportScope caller req).1 ∧
      resp.Data.TenantID = (exportScope caller req).1 ∧
      resp.Data.FullBackup = (exportScope caller req).2) := by
  refine ⟨exportScope_admin_zero caller req, fun r => exportScope_admin_nonzero caller req r,
    exportScope_otherwise caller req, ?_⟩
  intro resp h
  have hk := ExportBackup_ok env caller req now s resp h
  exact ⟨hk.1, hk.2.1, hk.2.2.1⟩

/-- C5. For every non-admin caller with tenant T, every requested override and
every store: the export returns whenever no query and no serialisation fails,
and an envelope it returns has tenantId = T, fullBackup = false, only
DeploymentTarget, TargetConfiguration and DeploymentJob rows of the store whose
tenant is T, and only DeploymentHistory rows of the store whose job is a job of
tenant T. -/
theorem ExportBackup_tenant_isolation (env : Env) (caller : Caller) (req : ExportBackupRequest)
    (now : Nat) (s : Store) (hna : caller.IsPlatformAdmin = false) :
    ((∀ k, env.queryFails k = false) → (∀ k i, env.marshalFails k i = false) →
      ∃ resp, ExportBackup env caller req now s = .ok resp) ∧
    (∀ resp, ExportBackup env caller req now s = .ok resp →
      resp.TenantId = caller.TenantID ∧ resp.Data.TenantID = caller.TenantID ∧
      resp.Data.FullBackup = false ∧
      (∀ raw ∈ resp.Data.Data.DeploymentTargets,
        ∃ e, raw = .ok e ∧ e ∈ s.targets ∧ e.TenantID = some caller.TenantID) ∧
      (∀ raw ∈ resp.Data.Data.TargetConfigurations,
        ∃ e, raw = .ok e ∧ e ∈ s.configs ∧ e.TenantID = some caller.TenantID) ∧
      (∀ raw ∈ resp.Data.Data.DeploymentJobs,
        ∃ e, raw = .ok e ∧ e ∈ s.jobs ∧ e.TenantID = some caller.TenantID) ∧
      (∀ raw ∈ resp.Data.Data.DeploymentHistory,
        ∃ e, raw = .ok e ∧ e ∈ s.history ∧
          ∃ j ∈ s.jobs, j.ID = e.JobID ∧ j.TenantID = some caller.TenantID)) := by
  refine ⟨ExportBackup_total env caller req now s, ?_⟩
  intro resp h
  obtain ⟨h1, h2, h3, ht, hc, hj, hh⟩ := ExportBackup_ok env caller req now s resp h
  have hs : exportScope caller req = (caller.TenantID, false) :=
    exportScope_otherwise caller req (Or.inl hna)
  rw [hs] at h1 h2 h3 ht hc hj hh
  refine ⟨h1, h2, h3, ?_, ?_, ?_, ?_⟩
  · intro raw hraw
    simp only [exportDeploymentTargets, marshalEntities] at ht
    split at ht
    · cases ht
    · have := marshalEntitiesFrom_ok _ _ _ _ ht
      rw [this] at hraw
      simp only [Bool.not_false, if_true, List.mem_map, List.mem_filter,
        decide_eq_true_eq] at hraw
      obtain ⟨e, ⟨he, hten⟩, rfl⟩ := hraw
      exact ⟨e, rfl, he, hten⟩
  · intro raw hraw
    simp only [exportTargetConfigurations, marshalEntities] at hc
    split at hc
    · cases hc
    · have := marshalEntitiesFrom_ok _ _ _ _ hc
      rw [this] at hraw
      simp only [Bool.not_false, if_true, List.mem_map, List.mem_filter,
        decide_eq_true_eq] at hraw
      obtain ⟨e, ⟨he, hten⟩, rfl⟩ := hraw
      exact ⟨e, rfl, he, hten⟩
  · intro raw hraw
    simp only [exportDeploymentJobs, marshalEntities] at hj
    split at hj
    · cases hj
    · have := marshalEntitiesFrom_ok _ _ _ _ hj
      rw [this] at hraw
      simp only [Bool.not_false, if_true, List.mem_map, List.mem_filter,
        decide_eq_true_eq] at hraw
      obtain ⟨e, ⟨he, hten⟩, rfl⟩ := hraw
      exact ⟨e, rfl, he, hten⟩
  · intro raw hraw
    simp only [exportDeploymentHistory, marshalEntities] at hh
    split at hh
    · cases hh
    · have := marshalEntitiesFrom_ok _ _ _ _ hh
      rw [this] at hraw
      simp only [Bool.not_false, if_true, List.mem_map, List.mem_filter, hasJobWithTenant,
        List.any_eq_true, Bool.and_eq_true, decide_eq_true_eq] at hraw
      obtain ⟨e, ⟨he, j, hjm, hjid, hjt⟩, rfl⟩ := hraw
      exact ⟨e, rfl, he, j, hjm, hjid, hjt⟩

/-- Witness of C5: a non-admin of tenant 1 asking for tenant 2 on a store that
holds rows of both tenants. -/
theorem ExportBackup_tenant_isolation_witness :
    (∃ resp, ExportBackup okEnv ⟨1, false⟩ ⟨some 2⟩ 0 twoTenantStore = .ok resp) ∧
    (∀ resp, ExportBackup okEnv ⟨1, false⟩ ⟨some 2⟩ 0 twoTenantStore = .ok resp →
      resp.Data.TenantID = 1 ∧ resp.Data.FullBackup = false ∧
      resp.Data.Data.DeploymentTargets = [.ok (mkTarget "t1" (some 1) "one")]) := by
  have h := ExportBackup_tenant_isolation okEnv ⟨1, false⟩ ⟨some 2⟩ 0 twoTenantStore rfl
  refine ⟨h.1 (fun _ => rfl) (fun _ _ => rfl), ?_⟩
  intro resp hr
  refine ⟨(h.2 resp hr).2.1, (h.2 resp hr).2.2.1, ?_⟩
  have hk := (ExportBackup_ok okEnv ⟨1, false⟩ ⟨some 2⟩ 0 twoTenantStore resp hr).2.2.2.1
  have hd : exportDeploymentTargets okEnv twoTenantStore
      (exportScope ⟨1, false⟩ ⟨some 2⟩).1 (exportScope ⟨1, false⟩ ⟨some 2⟩).2
      = .ok [.ok (mkTarget "t1" (some 1) "one")] := rfl
  rw [hd] at hk
  exact (Except.ok.inj hk).symm

/-! ## Import: structural checks -/

/-- C2. `ImportBackup` returns an error exactly when a structural check fails:
the envelope does not decode, its module is not "deployer", its version is not
"1.0", or it is a full backup and the caller is not a platform admin.  Every
other request returns a response with success = true, whatever the records in
it and whatever the store does with them. -/
theorem ImportBackup_error_iff (env : Env) (caller : Caller) (req : ImportBackupRequest)
    (s : Store) :
    ((∃ err, (ImportBackup env caller req s).1 = .error err) ↔
      ((∃ err, req.Data = .error err) ∨
        ∃ b, req.Data = .ok b ∧ (b.Module ≠ "deployer" ∨ b.Version ≠ "1.0" ∨
          (b.FullBackup = true ∧ caller.IsPlatformAdmin = false)))) ∧
    (¬ ((∃ err, req.Data = .error err) ∨
        ∃ b, req.Data = .ok b ∧ (b.Module ≠ "deployer" ∨ b.Version ≠ "1.0" ∨
          (b.FullBackup = true ∧ caller.IsPlatformAdmin = false))) →
      ∃ resp, (ImportBackup env caller req s).1 = .ok resp ∧ resp.Success = true) := by
  unfold ImportBackup
  cases hd : req.Data with
  | error err => simp
  | ok b =>
    by_cases hm : b.Module = "deployer"
    · by_cases hv : b.Version = "1.0"
      · by_cases hf : b.FullBackup = true ∧ caller.IsPlatformAdmin = false
        · simp [hm, hv, hf.1, hf.2, backupModule, backupVersion]
        · have hf2 : ¬ ((b.FullBackup && !caller.IsPlatformAdmin) = true) := by
            simpa using hf
          simp [hm, hv, hf2, backupModule, backupVersion]
          simpa using hf
      · simp [hm, hv, backupModule, backupVersion]
    · simp [hm, backupModule]

/-- C3. Whenever `ImportBackup` returns an error the store is exactly what it
was: no table changes and the trace of accesses gains no lookup, create or
update. -/
theorem ImportBackup_error_store (env : Env) (caller : Caller) (req : ImportBackupRequest)
    (s : Store) (err : String) (h : (ImportBackup env caller req s).1 = .error err) :
    (ImportBackup env caller req s).2 = s := by
  unfold ImportBackup at h ⊢
  split
  · rfl
  · split
    · rfl
    · split
      · rfl
      · split
        · rfl
        · rename_i b hd hm hv hf
          simp [hd, hm, hv, hf] at h

/-- Witness of C3: a non-admin presents a full backup holding a target; the
request is refused and the store, trace included, is untouched. -/
theorem ImportBackup_error_store_witness :
    (ImportBackup okEnv ⟨1, false⟩
      ⟨.ok (mkBackup "deployer" "1.0" 0 true
        { noEntities with DeploymentTargets := [.ok (mkTarget "t9" (some 2) "x")] }),
        .RESTORE_MODE_OVERWRITE⟩ twoTenantStore).1
      = .error "only platform admins can restore full backups" ∧
    (ImportBackup okEnv ⟨1, false⟩
      ⟨.ok (mkBackup "deployer" "1.0" 0 true
        { noEntities with DeploymentTargets := [.ok (mkTarget "t9" (some 2) "x")] }),
        .RESTORE_MODE_OVERWRITE⟩ twoTenantStore).2 = twoTenantStore :=
  ⟨rfl, ImportBackup_error_store okEnv ⟨1, false⟩ _ twoTenantStore
    "only platform admins can restore full backups" rfl⟩

/-! ## Tables: lookup, insertion, update in place -/

theorem setNillable_none {α : Type} (v : Option α) : setNillable v none = v := by
  cases v <;> rfl

theorem hasID_eq_isSome {α κ : Type} [DecidableEq κ] (key : α → κ) (rows : List α) (id : κ) :
    hasID key rows id = (findByID key rows id).isSome := by
  induction rows with
  | nil => rfl
  | cons r rest ih =>
    by_cases h : key r = id
    · simp [hasID, findByID, List.find?, h]
    · simp only [hasID, findByID] at ih
      simp [hasID, findByID, List.find?, h, ih]

theorem findByID_none_of_hasID {α κ : Type} [DecidableEq κ] (key : α → κ) (rows : List α)
    (id : κ) (h : hasID key rows id = false) : findByID key rows id = none := by
  have hs := hasID_eq_isSome key rows id
  rw [h] at hs
  cases hf : findByID key rows id with
  | none => rfl
  | some x => rw [hf] at hs; cases hs

theorem hasID_of_findByID {α κ : Type} [DecidableEq κ] (key : α → κ) (rows : List α)
    (id : κ) (r : α) (h : findByID key rows id = some r) : hasID key rows id = true := by
  rw [hasID_eq_isSome, h]; rfl

theorem hasID_append {α κ : Type} [DecidableEq κ] (key : α → κ) (rows : List α) (x : α)
    (id : κ) : hasID key (rows ++ [x]) id = (hasID key rows id || decide (key x = id)) := by
  simp [hasID]

theorem findByID_append {α κ : Type} [DecidableEq κ] (key : α → κ) (rows : List α) (id : κ)
    (r x : α) (h : findByID key rows id = some r) : findByID key (rows ++ [x]) id = some r := by
  unfold findByID at h ⊢
  rw [List.find?_append, h]
  rfl

theorem findByID_updateByID {α κ : Type} [DecidableEq κ] (key : α → κ) (f : α → α)
    (hf : ∀ r, key (f r) = key r) (rows : List α) (id id2 : κ) :
    findByID key (updateByID key rows id f) id2
      = (findByID key rows id2).map (fun r => if key r = id then f r else r) := by
  induction rows with
  | nil => rfl
  | cons r rest ih =>
    have hk : key (if key r = id then f r else r) = key r := by
      split
      · exact hf r
      · rfl
    simp only [findByID, updateByID] at ih
    simp only [findByID, updateByID, List.map_cons, List.find?_cons, hk]
    by_cases h2 : key r = id2
    · simp [h2]
    · simp only [h2, decide_False]
      exact ih

/-! ## The branches of one loop iteration, per entity kind -/

theorem importDeploymentTargetsStep_skip (env : Env) (tenantID : Nat) (full : Bool)
    (st : ImportState) (e old : DeploymentTarget)
    (hget : env.getFails st.store.log.length = false)
    (hfound : findByID DeploymentTarget.ID st.store.targets e.ID = some old) :
    importDeploymentTargetsStep env tenantID full .RESTORE_MODE_SKIP st (.ok e)
      = st.skipped (st.store.record .deploymentTargets .get) := by
  simp [importDeploymentTargetsStep, getDeploymentTarget, hget, hfound]

theorem importDeploymentTargetsStep_update (env : Env) (tenantID : Nat) (full : Bool)
    (st : ImportState) (e old : DeploymentTarget)
    (hget : env.getFails st.store.log.length = false)
    (hfound : findByID DeploymentTarget.ID st.store.targets e.ID = some old)
    (hupd : env.updateFails (st.store.log.length + 1) = false) :
    importDeploymentTargetsStep env tenantID full .RESTORE_MODE_OVERWRITE st (.ok e)
      = st.updated
          { ((st.store.record .deploymentTargets .get).record .deploymentTargets .update) with
            targets := updateByID DeploymentTarget.ID st.store.targets e.ID (updateDeploymentTargetFields e) } := by
  have hh := hasID_of_findByID DeploymentTarget.ID st.store.targets e.ID old hfound
  simp [importDeploymentTargetsStep, getDeploymentTarget, updateOneDeploymentTarget, hget, hfound, hupd, hh, Store.record]

theorem importDeploymentTargetsStep_create (env : Env) (tenantID : Nat) (full : Bool)
    (mode : RestoreMode) (st : ImportState) (e : DeploymentTarget)
    (habs : hasID DeploymentTarget.ID st.store.targets e.ID = false)
    (hcr : env.createFails (st.store.log.length + 1) = false) :
    importDeploymentTargetsStep env tenantID full mode st (.ok e)
      = st.created
          { ((st.store.record .deploymentTargets .get).record .deploymentTargets .create) with
            targets := st.store.targets ++
              [newDeploymentTarget (env.createTimeDefault (st.store.log.length + 1)) e (resolveTid tenantID full e.TenantID)] } := by
  have hn := findByID_none_of_hasID DeploymentTarget.ID st.store.targets e.ID habs
  have hg : getDeploymentTarget env st.store e.ID = (none, st.store.record .deploymentTargets .get) := by
    unfold getDeploymentTarget
    split
    · rfl
    · rw [hn]
  have hid : ∀ d, (newDeploymentTarget d e (resolveTid tenantID full e.TenantID)).ID = e.ID := fun _ => rfl
  simp [importDeploymentTargetsStep, hg, createDeploymentTarget, hcr, habs, hid, Store.record]

theorem importTargetConfigurationsStep_skip (env : Env) (tenantID : Nat) (full : Bool)
    (st : ImportState) (e old : TargetConfiguration)
    (hget : env.getFails st.store.log.length = false)
    (hfound : findByID TargetConfiguration.ID st.store.configs e.ID = some old) :
    importTargetConfigurationsStep env tenantID full .RESTORE_MODE_SKIP st (.ok e)
      = st.skipped (st.store.record .targetConfigurations .get) := by
  simp [importTargetConfigurationsStep, getTargetConfiguration, hget, hfound]

theorem importTargetConfigurationsStep_update (env : Env) (tenantID : Nat) (full : Bool)
    (st : ImportState) (e old : TargetConfiguration)
    (hget : env.getFails st.store.log.length = false)
    (hfound : findByID TargetConfiguration.ID st.store.configs e.ID = some old)
    (hupd : env.updateFails (st.store.log.length + 1) = false) :
    importTargetConfigurationsStep env tenantID full .RESTORE_MODE_OVERWRITE st (.ok e)
      = st.updated
          { ((st.store.record .targetConfigurations .get).record .targetConfigurations .update) with
            configs := updateByID TargetConfiguration.ID st.store.configs e.ID (updateTargetConfigurationFields e) } := by
  have hh := hasID_of_findByID TargetConfiguration.ID st.store.configs e.ID old hfound
  simp [importTargetConfigurationsStep, getTargetConfiguration, updateOneTargetConfiguration, hget, hfound, hupd, hh, Store.record]

theorem importTargetConfigurationsStep_create (env : Env) (tenantID : Nat) (full : Bool)
    (mode : RestoreMode) (st : ImportState) (e : TargetConfiguration)
    (habs : hasID TargetConfiguration.ID st.store.configs e.ID = false)
    (hcr : env.createFails (st.store.log.length + 1) = false) :
    importTargetConfigurationsStep env tenantID full mode st (.ok e)
      = st.created
          { ((st.store.record .targetConfigurations .get).record .targetConfigurations .create) with
            configs := st.store.configs ++
              [newTargetConfiguration (env.createTimeDefault (st.store.log.length + 1)) e (resolveTid tenantID full e.TenantID)] } := by
  have hn := findByID_none_of_hasID TargetConfiguration.ID st.store.configs e.ID habs
  have hg : getTargetConfiguration env st.store e.ID = (none, st.store.record .targetConfigurations .get) := by
    unfold getTargetConfiguration
    split
    · rfl
    · rw [hn]
  have hid : ∀ d, (newTargetConfiguration d e (resolveTid tenantID full e.TenantID)).ID = e.ID := fun _ => rfl
  simp [importTargetConfigurationsStep, hg, createTargetConfiguration, hcr, habs, hid, Store.record]

theorem importDeploymentJobsStep_skip (env : Env) (tenantID : Nat) (full : Bool)
    (st : ImportState) (e old : DeploymentJob)
    (hget : env.getFails st.store.log.length = false)
    (hfound : findByID DeploymentJob.ID st.store.jobs e.ID = some old) :
    importDeploymentJobsStep env tenantID full .RESTORE_MODE_SKIP st (.ok e)
      = st.skipped (st.store.record .deploymentJobs .get) := by
  simp [importDeploymentJobsStep, getDeploymentJob, hget, hfound]

theorem importDeploymentJobsStep_update (env : Env) (tenantID : Nat) (full : Bool)
    (st : ImportState) (e old : DeploymentJob)
    (hget : env.getFails st.store.log.length = false)
    (hfound : findByID DeploymentJob.ID st.store.jobs e.ID = some old)
    (hupd : env.updateFails (st.store.log.length + 1) = false) :
    importDeploymentJobsStep env tenantID full .RESTORE_MODE_OVERWRITE st (.ok e)
      = st.updated
          { ((st.store.record .deploymentJobs .get).record .deploymentJobs .update) with
            jobs := updateByID DeploymentJob.ID st.store.jobs e.ID (updateDeploymentJobFields e) } := by
  have hh := hasID_of_findByID DeploymentJob.ID st.store.jobs e.ID old hfound
  simp [importDeploymentJobsStep, getDeploymentJob, updateOneDeploymentJob, hget, hfound, hupd, hh, Store.record]

theorem importDeploymentJobsStep_create (env : Env) (tenantID : Nat) (full : Bool)
    (mode : RestoreMode) (st : ImportState) (e : DeploymentJob)
    (habs : hasID DeploymentJob.ID st.store.jobs e.ID = false)
    (hcr : env.createFails (st.store.log.length + 1) = false) :
    importDeploymentJobsStep env tenantID full mode st (.ok e)
      = st.created
          { ((st.store.record .deploymentJobs .get).record .deploymentJobs .create) with
            jobs := st.store.jobs ++
              [newDeploymentJob (env.createTimeDefault (st.store.log.length + 1)) e (resolveTid tenantID full e.TenantID)] } := by
  have hn := findByID_none_of_hasID DeploymentJob.ID st.store.jobs e.ID habs
  have hg : getDeploymentJob env st.store e.ID = (none, st.store.record .deploymentJobs .get) := by
    unfold getDeploymentJob
    split
    · rfl
    · rw [hn]
  have hid : ∀ d, (newDeploymentJob d e (resolveTid tenantID full e.TenantID)).ID = e.ID := fun _ => rfl
  simp [importDeploymentJobsStep, hg, createDeploymentJob, hcr, habs, hid, Store.record]

theorem importDeploymentHistoryStep_skip (env : Env) (tenantID : Nat) (full : Bool)
    (st : ImportState) (e old : DeploymentHistory)
    (hget : env.getFails st.store.log.length = false)
    (hfound : findByID DeploymentHistory.ID st.store.history e.ID = some old) :
    importDeploymentHistoryStep env tenantID full .RESTORE_MODE_SKIP st (.ok e)
      = st.skipped (st.store.record .deploymentHistory .get) := by
  simp [importDeploymentHistoryStep, getDeploymentHistory, hget, hfound]

theorem importDeploymentHistoryStep_update (env : Env) (tenantID : Nat) (full : Bool)
    (st : ImportState) (e old : DeploymentHistory)
    (hget : env.getFails st.store.log.length = false)
    (hfound : findByID DeploymentHistory.ID st.store.history e.ID = some old)
    (hupd : env.updateFails (st.store.log.length + 1) = false) :
    importDeploymentHistoryStep env tenantID full .RESTORE_MODE_OVERWRITE st (.ok e)
      = st.updated
          { ((st.store.record .deploymentHistory .get).record .deploymentHistory .update) with
            history := updateByID DeploymentHistory.ID st.store.history e.ID (updateDeploymentHistoryFields e) } := by
  have hh := hasID_of_findByID DeploymentHistory.ID st.store.history e.ID old hfound
  simp [importDeploymentHistoryStep, getDeploymentHistory, updateOneDeploymentHistory, hget, hfound, hupd, hh, Store.record]

theorem importDeploymentHistoryStep_create (env : Env) (tenantID : Nat) (full : Bool)
    (mode : RestoreMode) (st : ImportState) (e : DeploymentHistory)
    (habs : hasID DeploymentHistory.ID st.store.history e.ID = false)
    (hcr : env.createFails (st.store.log.length + 1) = false) :
    importDeploymentHistoryStep env tenantID full mode st (.ok e)
      = st.created
          { ((st.store.record .deploymentHistory .get).record .deploymentHistory .create) with
            history := st.store.history ++
              [newDeploymentHistory (env.createTimeDefault (st.store.log.length + 1)) e] } := by
  have hn := findByID_none_of_hasID DeploymentHistory.ID st.store.history e.ID habs
  have hg : getDeploymentHistory env st.store e.ID = (none, st.store.record .deploymentHistory .get) := by
    unfold getDeploymentHistory
    split
    · rfl
    · rw [hn]
  have hid : ∀ d, (newDeploymentHistory d e).ID = e.ID := fun _ => rfl
  simp [importDeploymentHistoryStep, hg, createDeploymentHistory, hcr, habs, hid, Store.record]

theorem findByID_of_hasID {α κ : Type} [DecidableEq κ] (key : α → κ) (rows : List α)
    (id : κ) (h : hasID key rows id = true) : ∃ r, findByID key rows id = some r := by
  rw [hasID_eq_isSome] at h
  exact Option.isSome_iff_exists.mp h

/-! ## Import: the found-and-skip branch -/

/-- C7 (amended). For every entity kind: when the incoming record decodes, its
identifier is in the store and the lookup returns it, and the merge mode is
skip, the loop iteration counts the record as Skipped and nothing else, appends
no warning, leaves the four tables as they are, and issues a single store
access, the lookup: no create and no update. -/
theorem importStep_skip_existing (env : Env) (tenantID : Nat) (full : Bool) (st : ImportState) :
    (∀ e : DeploymentTarget, env.getFails st.store.log.length = false →
      hasID DeploymentTarget.ID st.store.targets e.ID = true →
      importDeploymentTargetsStep env tenantID full .RESTORE_MODE_SKIP st (.ok e) =
        { result := { st.result with Skipped := st.result.Skipped + 1 },
          warnings := st.warnings,
          store := { st.store with log := st.store.log ++ [⟨.deploymentTargets, .get⟩] } }) ∧
    (∀ e : TargetConfiguration, env.getFails st.store.log.length = false →
      hasID TargetConfiguration.ID st.store.configs e.ID = true →
      importTargetConfigurationsStep env tenantID full .RESTORE_MODE_SKIP st (.ok e) =
        { result := { st.result with Skipped := st.result.Skipped + 1 },
          warnings := st.warnings,
          store := { st.store with log := st.store.log ++ [⟨.targetConfigurations, .get⟩] } }) ∧
    (∀ e : DeploymentJob, env.getFails st.store.log.length = false →
      hasID DeploymentJob.ID st.store.jobs e.ID = true →
      importDeploymentJobsStep env tenantID full .RESTORE_MODE_SKIP st (.ok e) =
        { result := { st.result with Skipped := st.result.Skipped + 1 },
          warnings := st.warnings,
          store := { st.store with log := st.store.log ++ [⟨.deploymentJobs, .get⟩] } }) ∧
    (∀ e : DeploymentHistory, env.getFails st.store.log.length = false →
      hasID DeploymentHistory.ID st.store.history e.ID = true →
      importDeploymentHistoryStep env tenantID full .RESTORE_MODE_SKIP st (.ok e) =
        { result := { st.result with Skipped := st.result.Skipped + 1 },
          warnings := st.warnings,
          store := { st.store with log := st.store.log ++ [⟨.deploymentHistory, .get⟩] } }) := by
  refine ⟨?_, ?_, ?_, ?_⟩
  · intro e hget hex
    obtain ⟨old, hold⟩ := findByID_of_hasID _ _ _ hex
    rw [importDeploymentTargetsStep_skip env tenantID full st e old hget hold]
    rfl
  · intro e hget hex
    obtain ⟨old, hold⟩ := findByID_of_hasID _ _ _ hex
    rw [importTargetConfigurationsStep_skip env tenantID full st e old hget hold]
    rfl
  · intro e hget hex
    obtain ⟨old, hold⟩ := findByID_of_hasID _ _ _ hex
    rw [importDeploymentJobsStep_skip env tenantID full st e old hget hold]
    rfl
  · intro e hget hex
    obtain ⟨old, hold⟩ := findByID_of_hasID _ _ _ hex
    rw [importDeploymentHistoryStep_skip env tenantID full st e old hget hold]
    rfl

/-- Witness of C7: tenant 1 presents, in skip mode, a target whose identifier is
the one of a stored target. -/
theorem importStep_skip_existing_witness :
    importDeploymentTargetsStep okEnv 1 false .RESTORE_MODE_SKIP
        (ImportState.init "deploymentTargets" 1 twoTenantStore)
        (.ok (mkTarget "t2" (some 1) "renamed")) =
      { result := { EntityType := "deploymentTargets", Total := 1, Created := 0, Updated := 0,
                    Skipped := 1, Failed := 0 },
        warnings := [],
        store := { twoTenantStore with log := [⟨.deploymentTargets, .get⟩] } } :=
  (importStep_skip_existing okEnv 1 false
    (ImportState.init "deploymentTargets" 1 twoTenantStore)).1
    (mkTarget "t2" (some 1) "renamed") rfl rfl

/-- C7 as stated fails: target t2 is in the store, tenant 2 presents a target with
that identifier in skip mode, and the lookup returns an error.  The code drops
the error and takes the record for absent: it issues a create, which the store
rejects, counts the record as Failed, not as Skipped, and appends a warning. -/
theorem ImportBackup_skip_lookup_error :
    hasID DeploymentTarget.ID twoTenantStore.targets "t2" = true ∧
    (ImportBackup failingLookupEnv ⟨2, false⟩
      ⟨.ok (mkBackup "deployer" "1.0" 2 false
        { noEntities with DeploymentTargets := [.ok (mkTarget "t2" (some 2) "two")] }),
        .RESTORE_MODE_SKIP⟩ twoTenantStore).1
      = .ok (ImportBackupResponse.mk true
          [EntityImportResult.mk "deploymentTargets" 1 0 0 0 1]
          ["deploymentTargets: create t2: constraint failed"]) ∧
    (ImportBackup failingLookupEnv ⟨2, false⟩
      ⟨.ok (mkBackup "deployer" "1.0" 2 false
        { noEntities with DeploymentTargets := [.ok (mkTarget "t2" (some 2) "two")] }),
        .RESTORE_MODE_SKIP⟩ twoTenantStore).2.log
      = [⟨.deploymentTargets, .get⟩, ⟨.deploymentTargets, .create⟩] :=
  ⟨rfl, rfl, rfl⟩

/-! ## Import: the create branch -/

theorem setNillable_orElse {α : Type} (v d : Option α) : setNillable v d = (v <|> d) := by
  cases v <;> rfl

theorem resolveTid_importTenant (caller : Caller) (backup : backupData)
    (hauth : backup.FullBackup = true → caller.IsPlatformAdmin = true) (t : Option Nat) :
    resolveTid (importTenant caller backup) backup.FullBackup t
      = if backup.FullBackup then t.getD 0 else caller.TenantID := by
  cases hf : backup.FullBackup with
  | false => simp [resolveTid, importTenant, hf]
  | true =>
    have ha := hauth hf
    cases t <;> simp [resolveTid, importTenant, hf, ha]

theorem newDeploymentTarget_eq (d : Option Nat) (e : DeploymentTarget) (tid : Nat) :
    newDeploymentTarget d e tid = { e with TenantID := some tid, CreateTime := (e.CreateTime <|> d) } := by
  cases e
  simp [newDeploymentTarget, setNillable_none, setNillable_orElse]

theorem newTargetConfiguration_eq (d : Option Nat) (e : TargetConfiguration) (tid : Nat) :
    newTargetConfiguration d e tid = { e with TenantID := some tid, CreateTime := (e.CreateTime <|> d) } := by
  cases e
  simp [newTargetConfiguration, setNillable_none, setNillable_orElse]

theorem newDeploymentJob_eq (d : Option Nat) (e : DeploymentJob) (tid : Nat) :
    newDeploymentJob d e tid = { e with TenantID := some tid, CreateTime := (e.CreateTime <|> d) } := by
  cases e
  simp [newDeploymentJob, setNillable_none, setNillable_orElse]

/-- C6 (amended). For every DeploymentTarget, TargetConfiguration or
DeploymentJob record that decodes and whose identifier is not in the store,
when the store accepts the create, the loop iteration appends exactly one row
and counts Created: the row is the incoming record with its identifier and all
its fields, its creation time when it has one (the store default otherwise),
and as tenant: in a full restore the tenant embedded in the record, or 0 when
the record embeds none; in every other restore the caller's own tenant. -/
theorem importStep_create_resolved (env : Env) (caller : Caller) (backup : backupData)
    (mode : RestoreMode) (st : ImportState)
    (hauth : backup.FullBackup = true → caller.IsPlatformAdmin = true) :
    (∀ e : DeploymentTarget, hasID DeploymentTarget.ID st.store.targets e.ID = false →
      env.createFails (st.store.log.length + 1) = false →
      importDeploymentTargetsStep env (importTenant caller backup) backup.FullBackup mode st (.ok e) =
        { result := { st.result with Created := st.result.Created + 1 },
          warnings := st.warnings,
          store := { st.store with
            targets := st.store.targets ++
              [{ e with
                 TenantID := some (if backup.FullBackup then e.TenantID.getD 0
                   else caller.TenantID)
                 CreateTime := (e.CreateTime <|> env.createTimeDefault (st.store.log.length + 1)) }]
            log := st.store.log ++ [⟨.deploymentTargets, .get⟩, ⟨.deploymentTargets, .create⟩] } }) ∧
    (∀ e : TargetConfiguration, hasID TargetConfiguration.ID st.store.configs e.ID = false →
      env.createFails (st.store.log.length + 1) = false →
      importTargetConfigurationsStep env (importTenant caller backup) backup.FullBackup mode st (.ok e) =
        { result := { st.result with Created := st.result.Created + 1 },
          warnings := st.warnings,
          store := { st.store with
            configs := st.store.configs ++
              [{ e with
                 TenantID := some (if backup.FullBackup then e.TenantID.getD 0
                   else caller.TenantID)
                 CreateTime := (e.CreateTime <|> env.createTimeDefault (st.store.log.length + 1)) }]
            log := st.store.log ++ [⟨.targetConfigurations, .get⟩, ⟨.targetConfigurations, .create⟩] } }) ∧
    (∀ e : DeploymentJob, hasID DeploymentJob.ID st.store.jobs e.ID = false →
      env.createFails (st.store.log.length + 1) = false →
      importDeploymentJobsStep env (importTenant caller backup) backup.FullBackup mode st (.ok e) =
        { result := { st.result with Created := st.result.Created + 1 },
          warnings := st.warnings,
          store := { st.store with
            jobs := st.store.jobs ++
              [{ e with
                 TenantID := some (if backup.FullBackup then e.TenantID.getD 0
                   else caller.TenantID)
                 CreateTime := (e.CreateTime <|> env.createTimeDefault (st.store.log.length + 1)) }]
            log := st.store.log ++ [⟨.deploymentJobs, .get⟩, ⟨.deploymentJobs, .create⟩] } }) := by
  refine ⟨?_, ?_, ?_⟩
  · intro e habs hcr
    rw [importDeploymentTargetsStep_create env _ _ mode st e habs hcr, newDeploymentTarget_eq,
      resolveTid_importTenant caller backup hauth]
    simp [ImportState.created, Store.record]
  · intro e habs hcr
    rw [importTargetConfigurationsStep_create env _ _ mode st e habs hcr, newTargetConfiguration_eq,
      resolveTid_importTenant caller backup hauth]
    simp [ImportState.created, Store.record]
  · intro e habs hcr
    rw [importDeploymentJobsStep_create env _ _ mode st e habs hcr, newDeploymentJob_eq,
      resolveTid_importTenant caller backup hauth]
    simp [ImportState.created, Store.record]

/-- Witness of C6: a platform admin restores a full backup holding a target of
tenant 7 into a store that does not hold its identifier. -/
theorem importStep_create_resolved_witness :
    importDeploymentTargetsStep okEnv
        (importTenant ⟨5, true⟩ (mkBackup "deployer" "1.0" 0 true noEntities)) true
        .RESTORE_MODE_OVERWRITE (ImportState.init "deploymentTargets" 1 twoTenantStore)
        (.ok (mkTarget "t9" (some 7) "nine")) =
      { result := { EntityType := "deploymentTargets", Total := 1, Created := 1, Updated := 0,
                    Skipped := 0, Failed := 0 },
        warnings := [],
        store := { twoTenantStore with
          targets := twoTenantStore.targets ++ [mkTarget "t9" (some 7) "nine"]
          log := [⟨.deploymentTargets, .get⟩, ⟨.deploymentTargets, .create⟩] } } :=
  (importStep_create_resolved okEnv ⟨5, true⟩ (mkBackup "deployer" "1.0" 0 true noEntities)
    .RESTORE_MODE_OVERWRITE (ImportState.init "deploymentTargets" 1 twoTenantStore)
    (fun _ => rfl)).1 (mkTarget "t9" (some 7) "nine") rfl rfl

/-- C6 as stated fails: a platform admin restores a full backup whose target
embeds no tenant; the row is created with tenant 0, which is not the tenant
embedded in the record (it has none). -/
theorem ImportBackup_full_restore_without_tenant :
    (ImportBackup okEnv ⟨5, true⟩
      ⟨.ok (mkBackup "deployer" "1.0" 0 true
        { noEntities with DeploymentTargets := [.ok (mkTarget "t9" none "nine")] }),
        .RESTORE_MODE_OVERWRITE⟩ emptyStore).1
      = .ok { Success := true,
              Results := [{ EntityType := "deploymentTargets", Total := 1, Created := 1,
                            Updated := 0, Skipped := 0, Failed := 0 }],
              Warnings := [] } ∧
    (ImportBackup okEnv ⟨5, true⟩
      ⟨.ok (mkBackup "deployer" "1.0" 0 true
        { noEntities with DeploymentTargets := [.ok (mkTarget "t9" none "nine")] }),
        .RESTORE_MODE_OVERWRITE⟩ emptyStore).2.targets = [mkTarget "t9" (some 0) "nine"] ∧
    (mkTarget "t9" (some 0) "nine").TenantID ≠ (mkTarget "t9" none "nine").TenantID :=
  ⟨rfl, rfl, by decide⟩

/-! ## Import: the found-and-overwrite branch -/

theorem findByID_key {α κ : Type} [DecidableEq κ] (key : α → κ) (rows : List α) (id : κ) (r : α)
    (h : findByID key rows id = some r) : key r = id := by
  unfold findByID at h
  have h1 := List.find?_some h
  simpa using h1

theorem findByID_updateByID_self {α κ : Type} [DecidableEq κ] (key : α → κ) (f : α → α)
    (hf : ∀ r, key (f r) = key r) (rows : List α) (id : κ) (old : α)
    (h : findByID key rows id = some old) :
    findByID key (updateByID key rows id f) id = some (f old) := by
  rw [findByID_updateByID key f hf, h]
  simp [findByID_key key rows id old h]

theorem updateDeploymentTargetFields_eq (e old : DeploymentTarget) :
    updateDeploymentTargetFields e old =
            { old with
              Name := e.Name
              Description := e.Description
              AutoDeployOnRenewal := e.AutoDeployOnRenewal
              CertificateFilters := e.CertificateFilters
              CreateBy := (e.CreateBy <|> old.CreateBy)
              UpdateBy := (e.UpdateBy <|> old.UpdateBy) } := by
  simp [updateDeploymentTargetFields, setNillable_orElse]

theorem updateTargetConfigurationFields_eq (e old : TargetConfiguration) :
    updateTargetConfigurationFields e old =
            { old with
              Name := e.Name
              Description := e.Description
              ProviderType := e.ProviderType
              CredentialsEncrypted := e.CredentialsEncrypted
              Config := e.Config
              Status := e.Status
              StatusMessage := e.StatusMessage
              LastDeploymentAt := (e.LastDeploymentAt <|> old.LastDeploymentAt)
              CreateBy := (e.CreateBy <|> old.CreateBy)
              UpdateBy := (e.UpdateBy <|> old.UpdateBy) } := by
  simp [updateTargetConfigurationFields, setNillable_orElse]

theorem updateDeploymentJobFields_eq (e old : DeploymentJob) :
    updateDeploymentJobFields e old =
            { old with
              CertificateID := e.CertificateID
              CertificateSerial := e.CertificateSerial
              Status := e.Status
              StatusMessage := e.StatusMessage
              Progress := e.Progress
              RetryCount := e.RetryCount
              MaxRetries := e.MaxRetries
              TriggeredBy := e.TriggeredBy
              Result := e.Result
              DeploymentTargetID := (e.DeploymentTargetID <|> old.DeploymentTargetID)
              TargetConfigurationID := (e.TargetConfigurationID <|> old.TargetConfigurationID)
              ParentJobID := (e.ParentJobID <|> old.ParentJobID)
              StartedAt := (e.StartedAt <|> old.StartedAt)
              CreateBy := (e.CreateBy <|> old.CreateBy) } := by
  simp [updateDeploymentJobFields, setNillable_orElse]

theorem updateDeploymentHistoryFields_eq (e old : DeploymentHistory) :
    updateDeploymentHistoryFields e old =
            { old with
              JobID := e.JobID
              Action := e.Action
              Result := e.Result
              Message := e.Message
              DurationMs := e.DurationMs
              Details := e.Details } := by
  simp [updateDeploymentHistoryFields, setNillable_orElse]

/-- C8 (amended). For every entity kind: when the incoming record decodes, the
lookup returns the stored record with its identifier, the merge mode is
overwrite and the store accepts the update, the loop iteration counts Updated
and nothing else, appends no warning, and the stored record afterwards is the
old one with every non-optional mutable field taken from the incoming record
and every optional field taken from the incoming record when it is present
there; an optional field that is absent in the incoming record keeps its
stored value. -/
theorem importStep_overwrite_existing (env : Env) (tenantID : Nat) (full : Bool)
    (st : ImportState) (hget : env.getFails st.store.log.length = false)
    (hupd : env.updateFails (st.store.log.length + 1) = false) :
    (∀ e old : DeploymentTarget, findByID DeploymentTarget.ID st.store.targets e.ID = some old →
      (importDeploymentTargetsStep env tenantID full .RESTORE_MODE_OVERWRITE st (.ok e)).result
        = { st.result with Updated := st.result.Updated + 1 } ∧
      (importDeploymentTargetsStep env tenantID full .RESTORE_MODE_OVERWRITE st (.ok e)).warnings
        = st.warnings ∧
      findByID DeploymentTarget.ID
          (importDeploymentTargetsStep env tenantID full .RESTORE_MODE_OVERWRITE st (.ok e)).store.targets e.ID
        = some
            { old with
              Name := e.Name
              Description := e.Description
              AutoDeployOnRenewal := e.AutoDeployOnRenewal
              CertificateFilters := e.CertificateFilters
              CreateBy := (e.CreateBy <|> old.CreateBy)
              UpdateBy := (e.UpdateBy <|> old.UpdateBy) }) ∧
    (∀ e old : TargetConfiguration, findByID TargetConfiguration.ID st.store.configs e.ID = some old →
      (importTargetConfigurationsStep env tenantID full .RESTORE_MODE_OVERWRITE st (.ok e)).result
        = { st.result with Updated := st.result.Updated + 1 } ∧
      (importTargetConfigurationsStep env tenantID full .RESTORE_MODE_OVERWRITE st (.ok e)).warnings
        = st.warnings ∧
      findByID TargetConfiguration.ID
          (importTargetConfigurationsStep env tenantID full .RESTORE_MODE_OVERWRITE st (.ok e)).store.configs e.ID
        = some
            { old with
              Name := e.Name
              Description := e.Description
              ProviderType := e.ProviderType
              CredentialsEncrypted := e.CredentialsEncrypted
              Config := e.Config
              Status := e.Status
              StatusMessage := e.StatusMessage
              LastDeploymentAt := (e.LastDeploymentAt <|> old.LastDeploymentAt)
              CreateBy := (e.CreateBy <|> old.CreateBy)
              UpdateBy := (e.UpdateBy <|> old.UpdateBy) }) ∧
    (∀ e old : DeploymentJob, findByID DeploymentJob.ID st.store.jobs e.ID = some old →
      (importDeploymentJobsStep env tenantID full .RESTORE_MODE_OVERWRITE st (.ok e)).result
        = { st.result with Updated := st.result.Updated + 1 } ∧
      (importDeploymentJobsStep env tenantID full .RESTORE_MODE_OVERWRITE st (.ok e)).warnings
        = st.warnings ∧
      findByID DeploymentJob.ID
          (importDeploymentJobsStep env tenantID full .RESTORE_MODE_OVERWRITE st (.ok e)).store.jobs e.ID
        = some
            { old with
              CertificateID := e.CertificateID
              CertificateSerial := e.CertificateSerial
              Status := e.Status
              StatusMessage := e.StatusMessage
              Progress := e.Progress
              RetryCount := e.RetryCount
              MaxRetries := e.MaxRetries
              TriggeredBy := e.TriggeredBy
              Result := e.Result
              DeploymentTargetID := (e.DeploymentTargetID <|> old.DeploymentTargetID)
              TargetConfigurationID := (e.TargetConfigurationID <|> old.TargetConfigurationID)
              ParentJobID := (e.ParentJobID <|> old.ParentJobID)
              StartedAt := (e.StartedAt <|> old.StartedAt)
              CreateBy := (e.CreateBy <|> old.CreateBy) }) ∧
    (∀ e old : DeploymentHistory, findByID DeploymentHistory.ID st.store.history e.ID = some old →
      (importDeploymentHistoryStep env tenantID full .RESTORE_MODE_OVERWRITE st (.ok e)).result
        = { st.result with Updated := st.result.Updated + 1 } ∧
      (importDeploymentHistoryStep env tenantID full .RESTORE_MODE_OVERWRITE st (.ok e)).warnings
        = st.warnings ∧
      findByID DeploymentHistory.ID
          (importDeploymentHistoryStep env tenantID full .RESTORE_MODE_OVERWRITE st (.ok e)).store.history e.ID
        = some
            { old with
              JobID := e.JobID
              Action := e.Action
              Result := e.Result
              Message := e.Message
              DurationMs := e.DurationMs
              Details := e.Details }) := by
  refine ⟨?_, ?_, ?_, ?_⟩
  · intro e old hfound
    rw [importDeploymentTargetsStep_update env tenantID full st e old hget hfound hupd]
    refine ⟨rfl, rfl, ?_⟩
    simp only [ImportState.updated]
    rw [findByID_updateByID_self DeploymentTarget.ID (updateDeploymentTargetFields e) (fun _ => rfl) _ _ old hfound,
      updateDeploymentTargetFields_eq]
  · intro e old hfound
    rw [importTargetConfigurationsStep_update env tenantID full st e old hget hfound hupd]
    refine ⟨rfl, rfl, ?_⟩
    simp only [ImportState.updated]
    rw [findByID_updateByID_self TargetConfiguration.ID (updateTargetConfigurationFields e) (fun _ => rfl) _ _ old hfound,
      updateTargetConfigurationFields_eq]
  · intro e old hfound
    rw [importDeploymentJobsStep_update env tenantID full st e old hget hfound hupd]
    refine ⟨rfl, rfl, ?_⟩
    simp only [ImportState.updated]
    rw [findByID_updateByID_self DeploymentJob.ID (updateDeploymentJobFields e) (fun _ => rfl) _ _ old hfound,
      updateDeploymentJobFields_eq]
  · intro e old hfound
    rw [importDeploymentHistoryStep_update env tenantID full st e old hget hfound hupd]
    refine ⟨rfl, rfl, ?_⟩
    simp only [ImportState.updated]
    rw [findByID_updateByID_self DeploymentHistory.ID (updateDeploymentHistoryFields e) (fun _ => rfl) _ _ old hfound,
      updateDeploymentHistoryFields_eq]

/-- Witness of C8: tenant 1 overwrites its stored job with a record that names
another target. -/
theorem importStep_overwrite_existing_witness :
    findByID DeploymentJob.ID
        (importDeploymentJobsStep okEnv 1 false .RESTORE_MODE_OVERWRITE
          (ImportState.init "deploymentJobs" 1 twoTenantStore)
          (.ok (mkJob "j1" (some 1) (some "t7")))).store.jobs "j1"
      = some (mkJob "j1" (some 1) (some "t7")) :=
  ((importStep_overwrite_existing okEnv 1 false
    (ImportState.init "deploymentJobs" 1 twoTenantStore) rfl rfl).2.2.1
    (mkJob "j1" (some 1) (some "t7")) (mkJob "j1" (some 1) (some "t1")) rfl).2.2

/-- C8 as stated fails: the stored job references target t1, the incoming
record for the same job carries no target reference, the overwrite is counted
as Updated, and the stored job still references t1 afterwards. -/
theorem ImportBackup_overwrite_keeps_absent_optional :
    (ImportBackup okEnv ⟨1, false⟩
      ⟨.ok (mkBackup "deployer" "1.0" 1 false
        { noEntities with DeploymentJobs := [.ok (mkJob "j1" (some 1) none)] }),
        .RESTORE_MODE_OVERWRITE⟩ twoTenantStore).1
      = .ok { Success := true,
              Results := [{ EntityType := "deploymentJobs", Total := 1, Created := 0,
                            Updated := 1, Skipped := 0, Failed := 0 }],
              Warnings := [] } ∧
    (mkJob "j1" (some 1) none).DeploymentTargetID = none ∧
    (findByID DeploymentJob.ID
      (ImportBackup okEnv ⟨1, false⟩
        ⟨.ok (mkBackup "deployer" "1.0" 1 false
          { noEntities with DeploymentJobs := [.ok (mkJob "j1" (some 1) none)] }),
          .RESTORE_MODE_OVERWRITE⟩ twoTenantStore).2.jobs "j1").map
        (fun j => j.DeploymentTargetID) = some (some "t1") :=
  ⟨rfl, rfl, rfl⟩

/-! ## What one loop iteration can do to the store -/

theorem rowsKept_refl {α κ : Type} [DecidableEq κ] (key : α → κ) (same : α → α → Prop)
    (hr : ∀ a, same a a) (rows : List α) : rowsKept key same rows rows :=
  fun _ old h => ⟨old, h, hr old⟩

theorem rowsKept_trans {α κ : Type} [DecidableEq κ] (key : α → κ) (same : α → α → Prop)
    (ht : ∀ a b c, same a b → same b c → same a c) (r1 r2 r3 : List α)
    (h12 : rowsKept key same r1 r2) (h23 : rowsKept key same r2 r3) :
    rowsKept key same r1 r3 := by
  intro id old h
  obtain ⟨mid, hmid, hs1⟩ := h12 id old h
  obtain ⟨new, hnew, hs2⟩ := h23 id mid hmid
  exact ⟨new, hnew, ht _ _ _ hs1 hs2⟩

theorem rowsKept_append {α κ : Type} [DecidableEq κ] (key : α → κ) (same : α → α → Prop)
    (hr : ∀ a, same a a) (rows : List α) (x : α) : rowsKept key same rows (rows ++ [x]) :=
  fun id old h => ⟨old, findByID_append key rows id old x h, hr old⟩

theorem rowsKept_updateByID {α κ : Type} [DecidableEq κ] (key : α → κ) (same : α → α → Prop)
    (hr : ∀ a, same a a) (f : α → α) (hk : ∀ r, key (f r) = key r) (hs : ∀ r, same r (f r))
    (rows : List α) (id : κ) : rowsKept key same rows (updateByID key rows id f) := by
  intro id2 old h
  refine ⟨if key old = id then f old else old, ?_, ?_⟩
  · rw [findByID_updateByID key f hk, h]
    rfl
  · split
    · exact hs old
    · exact hr old

theorem keepsIdentity_refl (s : Store) : keepsIdentity s s :=
  ⟨rowsKept_refl _ _ (fun _ => ⟨rfl, rfl, rfl⟩) _, rowsKept_refl _ _ (fun _ => ⟨rfl, rfl, rfl⟩) _,
   rowsKept_refl _ _ (fun _ => ⟨rfl, rfl, rfl⟩) _, rowsKept_refl _ _ (fun _ => ⟨rfl, rfl⟩) _⟩

theorem keepsIdentity_trans (s1 s2 s3 : Store) (h12 : keepsIdentity s1 s2)
    (h23 : keepsIdentity s2 s3) : keepsIdentity s1 s3 := by
  obtain ⟨a1, a2, a3, a4⟩ := h12
  obtain ⟨b1, b2, b3, b4⟩ := h23
  refine ⟨rowsKept_trans _ _ ?_ _ _ _ a1 b1, rowsKept_trans _ _ ?_ _ _ _ a2 b2,
    rowsKept_trans _ _ ?_ _ _ _ a3 b3, rowsKept_trans _ _ ?_ _ _ _ a4 b4⟩
  · rintro a b c ⟨h1, h2, h3⟩ ⟨k1, k2, k3⟩
    exact ⟨k1.trans h1, k2.trans h2, k3.trans h3⟩
  · rintro a b c ⟨h1, h2, h3⟩ ⟨k1, k2, k3⟩
    exact ⟨k1.trans h1, k2.trans h2, k3.trans h3⟩
  · rintro a b c ⟨h1, h2, h3⟩ ⟨k1, k2, k3⟩
    exact ⟨k1.trans h1, k2.trans h2, k3.trans h3⟩
  · rintro a b c ⟨h1, h2⟩ ⟨k1, k2⟩
    exact ⟨k1.trans h1, k2.trans h2⟩

theorem foldl_preserves {σ β : Type} (f : σ → β → σ) (P : σ → Prop)
    (hstep : ∀ st x, P st → P (f st x)) : ∀ (xs : List β) (st : σ), P st → P (xs.foldl f st) := by
  intro xs
  induction xs with
  | nil => intro st h; exact h
  | cons x rest ih => intro st h; exact ih (f st x) (hstep st x h)

theorem getDeploymentTarget_store (env : Env) (s : Store) (id : String) :
    (getDeploymentTarget env s id).2 = s.record .deploymentTargets .get := by
  unfold getDeploymentTarget
  split <;> rfl

theorem createDeploymentTarget_store (env : Env) (s : Store) (r : DeploymentTarget) :
    (createDeploymentTarget env s r).2 = s.record .deploymentTargets .create ∨
    (createDeploymentTarget env s r).2 = { s.record .deploymentTargets .create with targets := s.targets ++ [r] } := by
  unfold createDeploymentTarget
  split
  · exact Or.inl rfl
  · split
    · exact Or.inl rfl
    · exact Or.inr rfl

theorem updateOneDeploymentTarget_store (env : Env) (s : Store) (id : String) (f : DeploymentTarget → DeploymentTarget) :
    (updateOneDeploymentTarget env s id f).2 = s.record .deploymentTargets .update ∨
    (updateOneDeploymentTarget env s id f).2
      = { s.record .deploymentTargets .update with targets := updateByID DeploymentTarget.ID s.targets id f } := by
  unfold updateOneDeploymentTarget
  split
  · exact Or.inl rfl
  · split
    · exact Or.inr rfl
    · exact Or.inl rfl

/-- One iteration of the `deploymentTargets` loop leaves the other three tables alone and
either leaves its own table alone, appends one row to it, or updates rows in
place through the update builder. -/
theorem importDeploymentTargetsStep_store (env : Env) (tenantID : Nat) (full : Bool)
    (mode : RestoreMode) (st : ImportState) (raw : RawMessage DeploymentTarget) :
    (importDeploymentTargetsStep env tenantID full mode st raw).store.configs = st.store.configs ∧
    (importDeploymentTargetsStep env tenantID full mode st raw).store.jobs = st.store.jobs ∧
    (importDeploymentTargetsStep env tenantID full mode st raw).store.history = st.store.history ∧
    ((importDeploymentTargetsStep env tenantID full mode st raw).store.targets = st.store.targets ∨
     (∃ x, (importDeploymentTargetsStep env tenantID full mode st raw).store.targets = st.store.targets ++ [x]) ∨
     (∃ e, (importDeploymentTargetsStep env tenantID full mode st raw).store.targets
        = updateByID DeploymentTarget.ID st.store.targets e.ID (updateDeploymentTargetFields e))) := by
  cases raw with
  | error err => simp [importDeploymentTargetsStep, ImportState.fail]
  | ok e =>
    have hg := getDeploymentTarget_store env st.store e.ID
    cases hget : getDeploymentTarget env st.store e.ID with
    | mk ex s1 =>
      rw [hget] at hg
      simp only at hg
      subst hg
      cases ex with
      | some old =>
        cases mode with
        | RESTORE_MODE_SKIP =>
          simp [importDeploymentTargetsStep, hget, ImportState.skipped, Store.record]
        | RESTORE_MODE_OVERWRITE =>
          have hu := updateOneDeploymentTarget_store env (st.store.record .deploymentTargets .get) e.ID
            (updateDeploymentTargetFields e)
          cases hupd : updateOneDeploymentTarget env (st.store.record .deploymentTargets .get) e.ID
              (updateDeploymentTargetFields e) with
          | mk r s2 =>
            rw [hupd] at hu
            simp only at hu
            have hshape : s2.configs = st.store.configs ∧ s2.jobs = st.store.jobs ∧
                s2.history = st.store.history ∧
                (s2.targets = st.store.targets ∨
                 s2.targets = updateByID DeploymentTarget.ID st.store.targets e.ID (updateDeploymentTargetFields e)) := by
              rcases hu with hu | hu <;> subst hu <;> simp [Store.record]
            obtain ⟨h1, h2, h3, h4⟩ := hshape
            have h4b : s2.targets = st.store.targets ∨
                (∃ x, s2.targets = st.store.targets ++ [x]) ∨
                (∃ e, s2.targets = updateByID DeploymentTarget.ID st.store.targets e.ID
                  (updateDeploymentTargetFields e)) := by
              rcases h4 with h4 | h4
              · exact Or.inl h4
              · exact Or.inr (Or.inr ⟨e, h4⟩)
            cases r <;>
              simpa [importDeploymentTargetsStep, hget, hupd, ImportState.updated, ImportState.fail]
                using ⟨h1, h2, h3, h4b⟩
      | none =>
        have hu := createDeploymentTarget_store env (st.store.record .deploymentTargets .get)
          (newDeploymentTarget (env.createTimeDefault (st.store.record .deploymentTargets .get).log.length)
            e (resolveTid tenantID full e.TenantID))
        cases hcr : createDeploymentTarget env (st.store.record .deploymentTargets .get)
          (newDeploymentTarget (env.createTimeDefault (st.store.record .deploymentTargets .get).log.length)
            e (resolveTid tenantID full e.TenantID)) with
        | mk r s2 =>
          rw [hcr] at hu
          simp only at hu
          have hshape : s2.configs = st.store.configs ∧ s2.jobs = st.store.jobs ∧
              s2.history = st.store.history ∧
              (s2.targets = st.store.targets ∨
               (∃ x, s2.targets = st.store.targets ++ [x]) ∨
               (∃ e, s2.targets = updateByID DeploymentTarget.ID st.store.targets e.ID
                  (updateDeploymentTargetFields e))) := by
            rcases hu with hu | hu <;> subst hu <;> simp [Store.record]
          cases r <;>
            simpa [importDeploymentTargetsStep, hget, hcr, ImportState.created, ImportState.fail]
              using hshape

theorem getTargetConfiguration_store (env : Env) (s : Store) (id : String) :
    (getTargetConfiguration env s id).2 = s.record .targetConfigurations .get := by
  unfold getTargetConfiguration
  split <;> rfl

theorem createTargetConfiguration_store (env : Env) (s : Store) (r : TargetConfiguration) :
    (createTargetConfiguration env s r).2 = s.record .targetConfigurations .create ∨
    (createTargetConfiguration env s r).2 = { s.record .targetConfigurations .create with configs := s.configs ++ [r] } := by
  unfold createTargetConfiguration
  split
  · exact Or.inl rfl
  · split
    · exact Or.inl rfl
    · exact Or.inr rfl

theorem updateOneTargetConfiguration_store (env : Env) (s : Store) (id : String) (f : TargetConfiguration → TargetConfiguration) :
    (updateOneTargetConfiguration env s id f).2 = s.record .targetConfigurations .update ∨
    (updateOneTargetConfiguration env s id f).2
      = { s.record .targetConfigurations .update with configs := updateByID TargetConfiguration.ID s.configs id f } := by
  unfold updateOneTargetConfiguration
  split
  · exact Or.inl rfl
  · split
    · exact Or.inr rfl
    · exact Or.inl rfl

/-- One iteration of the `targetConfigurations` loop leaves the other three tables alone and
either leaves its own table alone, appends one row to it, or updates rows in
place through the update builder. -/
theorem importTargetConfigurationsStep_store (env : Env) (tenantID : Nat) (full : Bool)
    (mode : RestoreMode) (st : ImportState) (raw : RawMessage TargetConfiguration) :
    (importTargetConfigurationsStep env tenantID full mode st raw).store.targets = st.store.targets ∧
    (importTargetConfigurationsStep env tenantID full mode st raw).store.jobs = st.store.jobs ∧
    (importTargetConfigurationsStep env tenantID full mode st raw).store.history = st.store.history ∧
    ((importTargetConfigurationsStep env tenantID full mode st raw).store.configs = st.store.configs ∨
     (∃ x, (importTargetConfigurationsStep env tenantID full mode st raw).store.configs = st.store.configs ++ [x]) ∨
     (∃ e, (importTargetConfigurationsStep env tenantID full mode st raw).store.configs
        = updateByID TargetConfiguration.ID st.store.configs e.ID (updateTargetConfigurationFields e))) := by
  cases raw with
  | error err => simp [importTargetConfigurationsStep, ImportState.fail]
  | ok e =>
    have hg := getTargetConfiguration_store env st.store e.ID
    cases hget : getTargetConfiguration env st.store e.ID with
    | mk ex s1 =>
      rw [hget] at hg
      simp only at hg
      subst hg
      cases ex with
      | some old =>
        cases mode with
        | RESTORE_MODE_SKIP =>
          simp [importTargetConfigurationsStep, hget, ImportState.skipped, Store.record]
        | RESTORE_MODE_OVERWRITE =>
          have hu := updateOneTargetConfiguration_store env (st.store.record .targetConfigurations .get) e.ID
            (updateTargetConfigurationFields e)
          cases hupd : updateOneTargetConfiguration env (st.store.record .targetConfigurations .get) e.ID
              (updateTargetConfigurationFields e) with
          | mk r s2 =>
            rw [hupd] at hu
            simp only at hu
            have hshape : s2.targets = st.store.targets ∧ s2.jobs = st.store.jobs ∧
                s2.history = st.store.history ∧
                (s2.configs = st.store.configs ∨
                 s2.configs = updateByID TargetConfiguration.ID st.store.configs e.ID (updateTargetConfigurationFields e)) := by
              rcases hu with hu | hu <;> subst hu <;> simp [Store.record]
            obtain ⟨h1, h2, h3, h4⟩ := hshape
            have h4b : s2.configs = st.store.configs ∨
                (∃ x, s2.configs = st.store.configs ++ [x]) ∨
                (∃ e, s2.configs = updateByID TargetConfiguration.ID st.store.configs e.ID
                  (updateTargetConfigurationFields e)) := by
              rcases h4 with h4 | h4
              · exact Or.inl h4
              · exact Or.inr (Or.inr ⟨e, h4⟩)
            cases r <;>
              simpa [importTargetConfigurationsStep, hget, hupd, ImportState.updated, ImportState.fail]
                using ⟨h1, h2, h3, h4b⟩
      | none =>
        have hu := createTargetConfiguration_store env (st.store.record .targetConfigurations .get)
          (newTargetConfiguration (env.createTimeDefault (st.store.record .targetConfigurations .get).log.length)
            e (resolveTid tenantID full e.TenantID))
        cases hcr : createTargetConfiguration env (st.store.record .targetConfigurations .get)
          (newTargetConfiguration (env.createTimeDefault (st.store.record .targetConfigurations .get).log.length)
            e (resolveTid tenantID full e.TenantID)) with
        | mk r s2 =>
          rw [hcr] at hu
          simp only at hu
          have hshape : s2.targets = st.store.targets ∧ s2.jobs = st.store.jobs ∧
              s2.history = st.store.history ∧
              (s2.configs = st.store.configs ∨
               (∃ x, s2.configs = st.store.configs ++ [x]) ∨
               (∃ e, s2.configs = updateByID TargetConfiguration.ID st.store.configs e.ID
                  (updateTargetConfigurationFields e))) := by
            rcases hu with hu | hu <;> subst hu <;> simp [Store.record]
          cases r <;>
            simpa [importTargetConfigurationsStep, hget, hcr, ImportState.created, ImportState.fail]
              using hshape

theorem getDeploymentJob_store (env : Env) (s : Store) (id : String) :
    (getDeploymentJob env s id).2 = s.record .deploymentJobs .get := by
  unfold getDeploymentJob
  split <;> rfl

theorem createDeploymentJob_store (env : Env) (s : Store) (r : DeploymentJob) :
    (createDeploymentJob env s r).2 = s.record .deploymentJobs .create ∨
    (createDeploymentJob env s r).2 = { s.record .deploymentJobs .create with jobs := s.jobs ++ [r] } := by
  unfold createDeploymentJob
  split
  · exact Or.inl rfl
  · split
    · exact Or.inl rfl
    · exact Or.inr rfl

theorem updateOneDeploymentJob_store (env : Env) (s : Store) (id : String) (f : DeploymentJob → DeploymentJob) :
    (updateOneDeploymentJob env s id f).2 = s.record .deploymentJobs .update ∨
    (updateOneDeploymentJob env s id f).2
      = { s.record .deploymentJobs .update with jobs := updateByID DeploymentJob.ID s.jobs id f } := by
  unfold updateOneDeploymentJob
  split
  · exact Or.inl rfl
  · split
    · exact Or.inr rfl
    · exact Or.inl rfl

/-- One iteration of the `deploymentJobs` loop leaves the other three tables alone and
either leaves its own table alone, appends one row to it, or updates rows in
place through the update builder. -/
theorem importDeploymentJobsStep_store (env : Env) (tenantID : Nat) (full : Bool)
    (mode : RestoreMode) (st : ImportState) (raw : RawMessage DeploymentJob) :
    (importDeploymentJobsStep env tenantID full mode st raw).store.targets = st.store.targets ∧
    (importDeploymentJobsStep env tenantID full mode st raw).store.configs = st.store.configs ∧
    (importDeploymentJobsStep env tenantID full mode st raw).store.history = st.store.history ∧
    ((importDeploymentJobsStep env tenantID full mode st raw).store.jobs = st.store.jobs ∨
     (∃ x, (importDeploymentJobsStep env tenantID full mode st raw).store.jobs = st.store.jobs ++ [x]) ∨
     (∃ e, (importDeploymentJobsStep env tenantID full mode st raw).store.jobs
        = updateByID DeploymentJob.ID st.store.jobs e.ID (updateDeploymentJobFields e))) := by
  cases raw with
  | error err => simp [importDeploymentJobsStep, ImportState.fail]
  | ok e =>
    have hg := getDeploymentJob_store env st.store e.ID
    cases hget : getDeploymentJob env st.store e.ID with
    | mk ex s1 =>
      rw [hget] at hg
      simp only at hg
      subst hg
      cases ex with
      | some old =>
        cases mode with
        | RESTORE_MODE_SKIP =>
          simp [importDeploymentJobsStep, hget, ImportState.skipped, Store.record]
        | RESTORE_MODE_OVERWRITE =>
          have hu := updateOneDeploymentJob_store env (st.store.record .deploymentJobs .get) e.ID
            (updateDeploymentJobFields e)
          cases hupd : updateOneDeploymentJob env (st.store.record .deploymentJobs .get) e.ID
              (updateDeploymentJobFields e) with
          | mk r s2 =>
            rw [hupd] at hu
            simp only at hu
            have hshape : s2.targets = st.store.targets ∧ s2.configs = st.store.configs ∧
                s2.history = st.store.history ∧
                (s2.jobs = st.store.jobs ∨
                 s2.jobs = updateByID DeploymentJob.ID st.store.jobs e.ID (updateDeploymentJobFields e)) := by
              rcases hu with hu | hu <;> subst hu <;> simp [Store.record]
            obtain ⟨h1, h2, h3, h4⟩ := hshape
            have h4b : s2.jobs = st.store.jobs ∨
                (∃ x, s2.jobs = st.store.jobs ++ [x]) ∨
                (∃ e, s2.jobs = updateByID DeploymentJob.ID st.store.jobs e.ID
                  (updateDeploymentJobFields e)) := by
              rcases h4 with h4 | h4
              · exact Or.inl h4
              · exact Or.inr (Or.inr ⟨e, h4⟩)
            cases r <;>
              simpa [importDeploymentJobsStep, hget, hupd, ImportState.updated, ImportState.fail]
                using ⟨h1, h2, h3, h4b⟩
      | none =>
        have hu := createDeploymentJob_store env (st.store.record .deploymentJobs .get)
          (newDeploymentJob (env.createTimeDefault (st.store.record .deploymentJobs .get).log.length)
            e (resolveTid tenantID full e.TenantID))
        cases hcr : createDeploymentJob env (st.store.record .deploymentJobs .get)
          (newDeploymentJob (env.createTimeDefault (st.store.record .deploymentJobs .get).log.length)
            e (resolveTid tenantID full e.TenantID)) with
        | mk r s2 =>
          rw [hcr] at hu
          simp only at hu
          have hshape : s2.targets = st.store.targets ∧ s2.configs = st.store.configs ∧
              s2.history = st.store.history ∧
              (s2.jobs = st.store.jobs ∨
               (∃ x, s2.jobs = st.store.jobs ++ [x]) ∨
               (∃ e, s2.jobs = updateByID DeploymentJob.ID st.store.jobs e.ID
                  (updateDeploymentJobFields e))) := by
            rcases hu with hu | hu <;> subst hu <;> simp [Store.record]
          cases r <;>
            simpa [importDeploymentJobsStep, hget, hcr, ImportState.created, ImportState.fail]
              using hshape

theorem getDeploymentHistory_store (env : Env) (s : Store) (id : Int) :
    (getDeploymentHistory env s id).2 = s.record .deploymentHistory .get := by
  unfold getDeploymentHistory
  split <;> rfl

theorem createDeploymentHistory_store (env : Env) (s : Store) (r : DeploymentHistory) :
    (createDeploymentHistory env s r).2 = s.record .deploymentHistory .create ∨
    (createDeploymentHistory env s r).2 = { s.record .deploymentHistory .create with history := s.history ++ [r] } := by
  unfold createDeploymentHistory
  split
  · exact Or.inl rfl
  · split
    · exact Or.inl rfl
    · exact Or.inr rfl

theorem updateOneDeploymentHistory_store (env : Env) (s : Store) (id : Int) (f : DeploymentHistory → DeploymentHistory) :
    (updateOneDeploymentHistory env s id f).2 = s.record .deploymentHistory .update ∨
    (updateOneDeploymentHistory env s id f).2
      = { s.record .deploymentHistory .update with history := updateByID DeploymentHistory.ID s.history id f } := by
  unfold updateOneDeploymentHistory
  split
  · exact Or.inl rfl
  · split
    · exact Or.inr rfl
    · exact Or.inl rfl

/-- One iteration of the `deploymentHistory` loop leaves the other three tables alone and
either leaves its own table alone, appends one row to it, or updates rows in
place through the update builder. -/
theorem importDeploymentHistoryStep_store (env : Env) (tenantID : Nat) (full : Bool)
    (mode : RestoreMode) (st : ImportState) (raw : RawMessage DeploymentHistory) :
    (importDeploymentHistoryStep env tenantID full mode st raw).store.targets = st.store.targets ∧
    (importDeploymentHistoryStep env tenantID full mode st raw).store.configs = st.store.configs ∧
    (importDeploymentHistoryStep env tenantID full mode st raw).store.jobs = st.store.jobs ∧
    ((importDeploymentHistoryStep env tenantID full mode st raw).store.history = st.store.history ∨
     (∃ x, (importDeploymentHistoryStep env tenantID full mode st raw).store.history = st.store.history ++ [x]) ∨
     (∃ e, (importDeploymentHistoryStep env tenantID full mode st raw).store.history
        = updateByID DeploymentHistory.ID st.store.history e.ID (updateDeploymentHistoryFields e))) := by
  cases raw with
  | error err => simp [importDeploymentHistoryStep, ImportState.fail]
  | ok e =>
    have hg := getDeploymentHistory_store env st.store e.ID
    cases hget : getDeploymentHistory env st.store e.ID with
    | mk ex s1 =>
      rw [hget] at hg
      simp only at hg
      subst hg
      cases ex with
      | some old =>
        cases mode with
        | RESTORE_MODE_SKIP =>
          simp [importDeploymentHistoryStep, hget, ImportState.skipped, Store.record]
        | RESTORE_MODE_OVERWRITE =>
          have hu := updateOneDeploymentHistory_store env (st.store.record .deploymentHistory .get) e.ID
            (updateDeploymentHistoryFields e)
          cases hupd : updateOneDeploymentHistory env (st.store.record .deploymentHistory .get) e.ID
              (updateDeploymentHistoryFields e) with
          | mk r s2 =>
            rw [hupd] at hu
            simp only at hu
            have hshape : s2.targets = st.store.targets ∧ s2.configs = st.store.configs ∧
                s2.jobs = st.store.jobs ∧
                (s2.history = st.store.history ∨
                 s2.history = updateByID DeploymentHistory.ID st.store.history e.ID (updateDeploymentHistoryFields e)) := by
              rcases hu with hu | hu <;> subst hu <;> simp [Store.record]
            obtain ⟨h1, h2, h3, h4⟩ := hshape
            have h4b : s2.history = st.store.history ∨
                (∃ x, s2.history = st.store.history ++ [x]) ∨
                (∃ e, s2.history = updateByID DeploymentHistory.ID st.store.history e.ID
                  (updateDeploymentHistoryFields e)) := by
              rcases h4 with h4 | h4
              · exact Or.inl h4
              · exact Or.inr (Or.inr ⟨e, h4⟩)
            cases r <;>
              simpa [importDeploymentHistoryStep, hget, hupd, ImportState.updated, ImportState.fail]
                using ⟨h1, h2, h3, h4b⟩
      | none =>
        have hu := createDeploymentHistory_store env (st.store.record .deploymentHistory .get)
          (newDeploymentHistory (env.createTimeDefault (st.store.record .deploymentHistory .get).log.length)
            e)
        cases hcr : createDeploymentHistory env (st.store.record .deploymentHistory .get)
          (newDeploymentHistory (env.createTimeDefault (st.store.record .deploymentHistory .get).log.length)
            e) with
        | mk r s2 =>
          rw [hcr] at hu
          simp only at hu
          have hshape : s2.targets = st.store.targets ∧ s2.configs = st.store.configs ∧
              s2.jobs = st.store.jobs ∧
              (s2.history = st.store.history ∨
               (∃ x, s2.history = st.store.history ++ [x]) ∨
               (∃ e, s2.history = updateByID DeploymentHistory.ID st.store.history e.ID
                  (updateDeploymentHistoryFields e))) := by
            rcases hu with hu | hu <;> subst hu <;> simp [Store.record]
          cases r <;>
            simpa [importDeploymentHistoryStep, hget, hcr, ImportState.created, ImportState.fail]
              using hshape

theorem importDeploymentTargetsStep_keeps (env : Env) (tenantID : Nat) (full : Bool)
    (mode : RestoreMode) (st : ImportState) (raw : RawMessage DeploymentTarget) :
    keepsIdentity st.store (importDeploymentTargetsStep env tenantID full mode st raw).store := by
  obtain ⟨h1, h2, h3, h4⟩ := importDeploymentTargetsStep_store env tenantID full mode st raw
  have hown : rowsKept DeploymentTarget.ID sameDeploymentTarget st.store.targets
      (importDeploymentTargetsStep env tenantID full mode st raw).store.targets := by
    rcases h4 with h4 | ⟨x, h4⟩ | ⟨e, h4⟩
    · rw [h4]
      exact rowsKept_refl _ _ (fun _ => ⟨rfl, rfl, rfl⟩) _
    · rw [h4]
      exact rowsKept_append _ _ (fun _ => ⟨rfl, rfl, rfl⟩) _ _
    · rw [h4]
      exact rowsKept_updateByID DeploymentTarget.ID sameDeploymentTarget (fun _ => ⟨rfl, rfl, rfl⟩)
        (updateDeploymentTargetFields e) (fun _ => rfl) (fun _ => ⟨rfl, rfl, rfl⟩) _ _
  have hk := keepsIdentity_refl st.store
  unfold keepsIdentity at hk ⊢
  rw [h1, h2, h3]
  exact ⟨hown, hk.2.1, hk.2.2.1, hk.2.2.2⟩

theorem importDeploymentTargets_keeps (env : Env) (s : Store) (items : List (RawMessage DeploymentTarget))
    (tenantID : Nat) (full : Bool) (mode : RestoreMode) :
    keepsIdentity s (importDeploymentTargets env s items tenantID full mode).store := by
  unfold importDeploymentTargets
  exact foldl_preserves (importDeploymentTargetsStep env tenantID full mode)
    (fun st => keepsIdentity s st.store)
    (fun st x h => keepsIdentity_trans _ _ _ h (importDeploymentTargetsStep_keeps env tenantID full mode st x))
    items _ (keepsIdentity_refl s)

theorem importTargetConfigurationsStep_keeps (env : Env) (tenantID : Nat) (full : Bool)
    (mode : RestoreMode) (st : ImportState) (raw : RawMessage TargetConfiguration) :
    keepsIdentity st.store (importTargetConfigurationsStep env tenantID full mode st raw).store := by
  obtain ⟨h1, h2, h3, h4⟩ := importTargetConfigurationsStep_store env tenantID full mode st raw
  have hown : rowsKept TargetConfiguration.ID sameTargetConfiguration st.store.configs
      (importTargetConfigurationsStep env tenantID full mode st raw).store.configs := by
    rcases h4 with h4 | ⟨x, h4⟩ | ⟨e, h4⟩
    · rw [h4]
      exact rowsKept_refl _ _ (fun _ => ⟨rfl, rfl, rfl⟩) _
    · rw [h4]
      exact rowsKept_append _ _ (fun _ => ⟨rfl, rfl, rfl⟩) _ _
    · rw [h4]
      exact rowsKept_updateByID TargetConfiguration.ID sameTargetConfiguration (fun _ => ⟨rfl, rfl, rfl⟩)
        (updateTargetConfigurationFields e) (fun _ => rfl) (fun _ => ⟨rfl, rfl, rfl⟩) _ _
  have hk := keepsIdentity_refl st.store
  unfold keepsIdentity at hk ⊢
  rw [h1, h2, h3]
  exact ⟨hk.1, hown, hk.2.2.1, hk.2.2.2⟩

theorem importTargetConfigurations_keeps (env : Env) (s : Store) (items : List (RawMessage TargetConfiguration))
    (tenantID : Nat) (full : Bool) (mode : RestoreMode) :
    keepsIdentity s (importTargetConfigurations env s items tenantID full mode).store := by
  unfold importTargetConfigurations
  exact foldl_preserves (importTargetConfigurationsStep env tenantID full mode)
    (fun st => keepsIdentity s st.store)
    (fun st x h => keepsIdentity_trans _ _ _ h (importTargetConfigurationsStep_keeps env tenantID full mode st x))
    items _ (keepsIdentity_refl s)

theorem importDeploymentJobsStep_keeps (env : Env) (tenantID : Nat) (full : Bool)
    (mode : RestoreMode) (st : ImportState) (raw : RawMessage DeploymentJob) :
    keepsIdentity st.store (importDeploymentJobsStep env tenantID full mode st raw).store := by
  obtain ⟨h1, h2, h3, h4⟩ := importDeploymentJobsStep_store env tenantID full mode st raw
  have hown : rowsKept DeploymentJob.ID sameDeploymentJob st.store.jobs
      (importDeploymentJobsStep env tenantID full mode st raw).store.jobs := by
    rcases h4 with h4 | ⟨x, h4⟩ | ⟨e, h4⟩
    · rw [h4]
      exact rowsKept_refl _ _ (fun _ => ⟨rfl, rfl, rfl⟩) _
    · rw [h4]
      exact rowsKept_append _ _ (fun _ => ⟨rfl, rfl, rfl⟩) _ _
    · rw [h4]
      exact rowsKept_updateByID DeploymentJob.ID sameDeploymentJob (fun _ => ⟨rfl, rfl, rfl⟩)
        (updateDeploymentJobFields e) (fun _ => rfl) (fun _ => ⟨rfl, rfl, rfl⟩) _ _
  have hk := keepsIdentity_refl st.store
  unfold keepsIdentity at hk ⊢
  rw [h1, h2, h3]
  exact ⟨hk.1, hk.2.1, hown, hk.2.2.2⟩

theorem importDeploymentJobs_keeps (env : Env) (s : Store) (items : List (RawMessage DeploymentJob))
    (tenantID : Nat) (full : Bool) (mode : RestoreMode) :
    keepsIdentity s (importDeploymentJobs env s items tenantID full mode).store := by
  unfold importDeploymentJobs
  exact foldl_preserves (importDeploymentJobsStep env tenantID full mode)
    (fun st => keepsIdentity s st.store)
    (fun st x h => keepsIdentity_trans _ _ _ h (importDeploymentJobsStep_keeps env tenantID full mode st x))
    items _ (keepsIdentity_refl s)

theorem importDeploymentHistoryStep_keeps (env : Env) (tenantID : Nat) (full : Bool)
    (mode : RestoreMode) (st : ImportState) (raw : RawMessage DeploymentHistory) :
    keepsIdentity st.store (importDeploymentHistoryStep env tenantID full mode st raw).store := by
  obtain ⟨h1, h2, h3, h4⟩ := importDeploymentHistoryStep_store env tenantID full mode st raw
  have hown : rowsKept DeploymentHistory.ID sameDeploymentHistory st.store.history
      (importDeploymentHistoryStep env tenantID full mode st raw).store.history := by
    rcases h4 with h4 | ⟨x, h4⟩ | ⟨e, h4⟩
    · rw [h4]
      exact rowsKept_refl _ _ (fun _ => ⟨rfl, rfl⟩) _
    · rw [h4]
      exact rowsKept_append _ _ (fun _ => ⟨rfl, rfl⟩) _ _
    · rw [h4]
      exact rowsKept_updateByID DeploymentHistory.ID sameDeploymentHistory (fun _ => ⟨rfl, rfl⟩)
        (updateDeploymentHistoryFields e) (fun _ => rfl) (fun _ => ⟨rfl, rfl⟩) _ _
  have hk := keepsIdentity_refl st.store
  unfold keepsIdentity at hk ⊢
  rw [h1, h2, h3]
  exact ⟨hk.1, hk.2.1, hk.2.2.1, hown⟩

theorem importDeploymentHistory_keeps (env : Env) (s : Store) (items : List (RawMessage DeploymentHistory))
    (tenantID : Nat) (full : Bool) (mode : RestoreMode) :
    keepsIdentity s (importDeploymentHistory env s items tenantID full mode).store := by
  unfold importDeploymentHistory
  exact foldl_preserves (importDeploymentHistoryStep env tenantID full mode)
    (fun st => keepsIdentity s st.store)
    (fun st x h => keepsIdentity_trans _ _ _ h (importDeploymentHistoryStep_keeps env tenantID full mode st x))
    items _ (keepsIdentity_refl s)

theorem runImportFunc_keeps (acc : ImportAcc) (imp : ImportFunc)
    (h : ∀ s, keepsIdentity s (imp.fn s).store) :
    keepsIdentity acc.store (runImportFunc acc imp).store := by
  unfold runImportFunc
  split
  · exact keepsIdentity_refl _
  · exact h acc.store

theorem importFuncs_keeps (env : Env) (backup : backupData) (tenantID : Nat)
    (mode : RestoreMode) (acc : ImportAcc) :
    keepsIdentity acc.store
      ((importFuncs env backup tenantID mode).foldl runImportFunc acc).store := by
  simp only [importFuncs, List.foldl]
  refine keepsIdentity_trans _ _ _ (keepsIdentity_trans _ _ _ (keepsIdentity_trans _ _ _
    (runImportFunc_keeps _ _ ?_) (runImportFunc_keeps _ _ ?_)) (runImportFunc_keeps _ _ ?_))
    (runImportFunc_keeps _ _ ?_)
  · exact fun s => importDeploymentTargets_keeps env s _ _ _ _
  · exact fun s => importTargetConfigurations_keeps env s _ _ _ _
  · exact fun s => importDeploymentJobs_keeps env s _ _ _ _
  · exact fun s => importDeploymentHistory_keeps env s _ _ _ _

theorem ImportBackup_keeps (env : Env) (caller : Caller) (req : ImportBackupRequest)
    (s : Store) : keepsIdentity s (ImportBackup env caller req s).2 := by
  unfold ImportBackup
  split
  · exact keepsIdentity_refl s
  · split
    · exact keepsIdentity_refl s
    · split
      · exact keepsIdentity_refl s
      · split
        · exact keepsIdentity_refl s
        · exact importFuncs_keeps env _ _ _ { results := [], warnings := [], store := s }

/-! ## Import: what an update never touches -/

/-- C9 (amended). For every request, caller, merge mode and store behaviour,
every DeploymentTarget, TargetConfiguration and DeploymentJob row that is in the
store before `ImportBackup` is found under the same identifier afterwards with
the same tenant and the same creation time, a full restore by a platform admin
included; every DeploymentHistory row is found under the same identifier with
the same creation time.  The job reference of a history row is a mutable field:
in a full restore by a platform admin, the update of a found history row that
the store accepts keeps its identifier and creation time and sets its job
reference to the incoming one, so the row follows the incoming job and that
job's tenant. -/
theorem ImportBackup_keeps_identity (env : Env) (caller : Caller) (req : ImportBackupRequest)
    (s : Store) :
    (∀ id old, findByID DeploymentTarget.ID s.targets id = some old →
      ∃ new, findByID DeploymentTarget.ID (ImportBackup env caller req s).2.targets id = some new ∧
        new.ID = old.ID ∧ new.TenantID = old.TenantID ∧ new.CreateTime = old.CreateTime) ∧
    (∀ id old, findByID TargetConfiguration.ID s.configs id = some old →
      ∃ new, findByID TargetConfiguration.ID (ImportBackup env caller req s).2.configs id
          = some new ∧
        new.ID = old.ID ∧ new.TenantID = old.TenantID ∧ new.CreateTime = old.CreateTime) ∧
    (∀ id old, findByID DeploymentJob.ID s.jobs id = some old →
      ∃ new, findByID DeploymentJob.ID (ImportBackup env caller req s).2.jobs id = some new ∧
        new.ID = old.ID ∧ new.TenantID = old.TenantID ∧ new.CreateTime = old.CreateTime) ∧
    (∀ id old, findByID DeploymentHistory.ID s.history id = some old →
      ∃ new, findByID DeploymentHistory.ID (ImportBackup env caller req s).2.history id
          = some new ∧
        new.ID = old.ID ∧ new.CreateTime = old.CreateTime) ∧
    (∀ (backup : backupData) (st : ImportState) (e old : DeploymentHistory),
      caller.IsPlatformAdmin = true → backup.FullBackup = true →
      env.getFails st.store.log.length = false →
      env.updateFails (st.store.log.length + 1) = false →
      findByID DeploymentHistory.ID st.store.history e.ID = some old →
      ∃ new, findByID DeploymentHistory.ID
          (importDeploymentHistoryStep env (importTenant caller backup) backup.FullBackup
            .RESTORE_MODE_OVERWRITE st (.ok e)).store.history e.ID = some new ∧
        new.ID = old.ID ∧ new.CreateTime = old.CreateTime ∧ new.JobID = e.JobID) := by
  obtain ⟨k1, k2, k3, k4⟩ := ImportBackup_keeps env caller req s
  refine ⟨k1, k2, k3, k4, ?_⟩
  intro backup st e old _ _ hget hupd hfound
  rw [importDeploymentHistoryStep_update env _ _ st e old hget hfound hupd]
  simp only [ImportState.updated]
  rw [findByID_updateByID_self DeploymentHistory.ID (updateDeploymentHistoryFields e)
    (fun _ => rfl) _ _ old hfound]
  exact ⟨_, rfl, rfl, rfl, rfl⟩

/-- Witness of C9: a platform admin restores, in overwrite mode, a full backup
whose target t1 embeds tenant 9 while the stored t1 belongs to tenant 1, and
whose history row 1 names job j2 while the stored row 1 is attached to j1. -/
theorem ImportBackup_keeps_identity_witness :
    (∃ new, findByID DeploymentTarget.ID
        (ImportBackup okEnv ⟨5, true⟩
          ⟨.ok (mkBackup "deployer" "1.0" 0 true
            { noEntities with DeploymentTargets := [.ok (mkTarget "t1" (some 9) "renamed")] }),
            .RESTORE_MODE_OVERWRITE⟩ twoTenantStore).2.targets "t1" = some new ∧
      new.ID = "t1" ∧ new.TenantID = some 1 ∧ new.CreateTime = none) ∧
    (∃ new, findByID DeploymentHistory.ID
        (importDeploymentHistoryStep okEnv
          (importTenant ⟨5, true⟩ (mkBackup "deployer" "1.0" 0 true noEntities)) true
          .RESTORE_MODE_OVERWRITE (ImportState.init "deploymentHistory" 1 twoTenantStore)
          (.ok (mkHistory 1 "j2"))).store.history 1 = some new ∧
      new.ID = 1 ∧ new.CreateTime = none ∧ new.JobID = "j2") :=
  ⟨(ImportBackup_keeps_identity okEnv ⟨5, true⟩
      ⟨.ok (mkBackup "deployer" "1.0" 0 true
        { noEntities with DeploymentTargets := [.ok (mkTarget "t1" (some 9) "renamed")] }),
        .RESTORE_MODE_OVERWRITE⟩ twoTenantStore).1 "t1" (mkTarget "t1" (some 1) "one") rfl,
   (ImportBackup_keeps_identity okEnv ⟨5, true⟩
      ⟨.ok (mkBackup "deployer" "1.0" 0 true noEntities), .RESTORE_MODE_OVERWRITE⟩
      twoTenantStore).2.2.2.2 (mkBackup "deployer" "1.0" 0 true noEntities)
      (ImportState.init "deploymentHistory" 1 twoTenantStore) (mkHistory 1 "j2")
      (mkHistory 1 "j1") rfl rfl rfl rfl rfl⟩

/-- C9 as stated fails for DeploymentHistory by design: history row 1 is attached
to job j1 of tenant 1; a platform admin restores, in overwrite mode, a full
backup whose row with identifier 1 names job j2 of tenant 2; the update is
counted as Updated and the stored row is attached to tenant 2 afterwards, no
longer to tenant 1. -/
theorem ImportBackup_full_restore_moves_history :
    (findByID DeploymentHistory.ID twoTenantStore.history 1).map
        (hasJobWithTenant twoTenantStore 1) = some true ∧
    (ImportBackup okEnv ⟨0, true⟩
      ⟨.ok (mkBackup "deployer" "1.0" 0 true
        { noEntities with DeploymentHistory := [.ok (mkHistory 1 "j2")] }),
        .RESTORE_MODE_OVERWRITE⟩ twoTenantStore).1
      = .ok { Success := true,
              Results := [{ EntityType := "deploymentHistory", Total := 1, Created := 0,
                            Updated := 1, Skipped := 0, Failed := 0 }],
              Warnings := [] } ∧
    (findByID DeploymentHistory.ID
      (ImportBackup okEnv ⟨0, true⟩
        ⟨.ok (mkBackup "deployer" "1.0" 0 true
          { noEntities with DeploymentHistory := [.ok (mkHistory 1 "j2")] }),
          .RESTORE_MODE_OVERWRITE⟩ twoTenantStore).2.history 1).map
        (hasJobWithTenant
          (ImportBackup okEnv ⟨0, true⟩
            ⟨.ok (mkBackup "deployer" "1.0" 0 true
              { noEntities with DeploymentHistory := [.ok (mkHistory 1 "j2")] }),
              .RESTORE_MODE_OVERWRITE⟩ twoTenantStore).2 1) = some false ∧
    (findByID DeploymentHistory.ID
      (ImportBackup okEnv ⟨0, true⟩
        ⟨.ok (mkBackup "deployer" "1.0" 0 true
          { noEntities with DeploymentHistory := [.ok (mkHistory 1 "j2")] }),
          .RESTORE_MODE_OVERWRITE⟩ twoTenantStore).2.history 1).map
        (hasJobWithTenant
          (ImportBackup okEnv ⟨0, true⟩
            ⟨.ok (mkBackup "deployer" "1.0" 0 true
              { noEntities with DeploymentHistory := [.ok (mkHistory 1 "j2")] }),
              .RESTORE_MODE_OVERWRITE⟩ twoTenantStore).2 2) = some true :=
  ⟨rfl, rfl, rfl, rfl⟩

theorem importDeploymentTargets_frame (env : Env) (s : Store) (items : List (RawMessage DeploymentTarget))
    (tenantID : Nat) (full : Bool) (mode : RestoreMode) :
    (importDeploymentTargets env s items tenantID full mode).store.configs = s.configs ∧
    (importDeploymentTargets env s items tenantID full mode).store.jobs = s.jobs ∧
    (importDeploymentTargets env s items tenantID full mode).store.history = s.history := by
  unfold importDeploymentTargets
  refine foldl_preserves (importDeploymentTargetsStep env tenantID full mode)
    (fun st => st.store.configs = s.configs ∧ st.store.jobs = s.jobs ∧ st.store.history = s.history)
    ?_ items _ ⟨rfl, rfl, rfl⟩
  intro st x h
  obtain ⟨h1, h2, h3, _⟩ := importDeploymentTargetsStep_store env tenantID full mode st x
  exact ⟨h1.trans h.1, h2.trans h.2.1, h3.trans h.2.2⟩

theorem importTargetConfigurations_frame (env : Env) (s : Store) (items : List (RawMessage TargetConfiguration))
    (tenantID : Nat) (full : Bool) (mode : RestoreMode) :
    (importTargetConfigurations env s items tenantID full mode).store.targets = s.targets ∧
    (importTargetConfigurations env s items tenantID full mode).store.jobs = s.jobs ∧
    (importTargetConfigurations env s items tenantID full mode).store.history = s.history := by
  unfold importTargetConfigurations
  refine foldl_preserves (importTargetConfigurationsStep env tenantID full mode)
    (fun st => st.store.targets = s.targets ∧ st.store.jobs = s.jobs ∧ st.store.history = s.history)
    ?_ items _ ⟨rfl, rfl, rfl⟩
  intro st x h
  obtain ⟨h1, h2, h3, _⟩ := importTargetConfigurationsStep_store env tenantID full mode st x
  exact ⟨h1.trans h.1, h2.trans h.2.1, h3.trans h.2.2⟩

theorem importDeploymentJobs_frame (env : Env) (s : Store) (items : List (RawMessage DeploymentJob))
    (tenantID : Nat) (full : Bool) (mode : RestoreMode) :
    (importDeploymentJobs env s items tenantID full mode).store.targets = s.targets ∧
    (importDeploymentJobs env s items tenantID full mode).store.configs = s.configs ∧
    (importDeploymentJobs env s items tenantID full mode).store.history = s.history := by
  unfold importDeploymentJobs
  refine foldl_preserves (importDeploymentJobsStep env tenantID full mode)
    (fun st => st.store.targets = s.targets ∧ st.store.configs = s.configs ∧ st.store.history = s.history)
    ?_ items _ ⟨rfl, rfl, rfl⟩
  intro st x h
  obtain ⟨h1, h2, h3, _⟩ := importDeploymentJobsStep_store env tenantID full mode st x
  exact ⟨h1.trans h.1, h2.trans h.2.1, h3.trans h.2.2⟩

theorem importDeploymentHistory_frame (env : Env) (s : Store) (items : List (RawMessage DeploymentHistory))
    (tenantID : Nat) (full : Bool) (mode : RestoreMode) :
    (importDeploymentHistory env s items tenantID full mode).store.targets = s.targets ∧
    (importDeploymentHistory env s items tenantID full mode).store.configs = s.configs ∧
    (importDeploymentHistory env s items tenantID full mode).store.jobs = s.jobs := by
  unfold importDeploymentHistory
  refine foldl_preserves (importDeploymentHistoryStep env tenantID full mode)
    (fun st => st.store.targets = s.targets ∧ st.store.configs = s.configs ∧ st.store.jobs = s.jobs)
    ?_ items _ ⟨rfl, rfl, rfl⟩
  intro st x h
  obtain ⟨h1, h2, h3, _⟩ := importDeploymentHistoryStep_store env tenantID full mode st x
  exact ⟨h1.trans h.1, h2.trans h.2.1, h3.trans h.2.2⟩

/-! ## Import: isolation of per-record failures -/

theorem importDeploymentTargets_fold_fresh (env : Env) (tenantID : Nat) (full : Bool)
    (mode : RestoreMode) (hcr : ∀ n, env.createFails n = false) :
    ∀ (items : List (RawMessage DeploymentTarget)) (st : ImportState),
      ((decodedItems items).map DeploymentTarget.ID).Nodup →
      (∀ e ∈ decodedItems items, hasID DeploymentTarget.ID st.store.targets e.ID = false) →
      (items.foldl (importDeploymentTargetsStep env tenantID full mode) st).result
        = { st.result with
            Created := st.result.Created + (decodedItems items).length
            Failed := st.result.Failed + undecodableCount items } ∧
      (items.foldl (importDeploymentTargetsStep env tenantID full mode) st).warnings.length
        = st.warnings.length + undecodableCount items ∧
      (∀ x ∈ st.store.targets,
        x ∈ (items.foldl (importDeploymentTargetsStep env tenantID full mode) st).store.targets) ∧
      (∀ e ∈ decodedItems items, ∃ d,
        newDeploymentTarget d e (resolveTid tenantID full e.TenantID)
          ∈ (items.foldl (importDeploymentTargetsStep env tenantID full mode) st).store.targets) ∧
      (items.foldl (importDeploymentTargetsStep env tenantID full mode) st).store.targets.length
        = st.store.targets.length + (decodedItems items).length := by
  intro items
  induction items with
  | nil =>
    intro st _ _
    simp [decodedItems, undecodableCount]
  | cons raw rest ih =>
    intro st hnd habs
    cases raw with
    | error err =>
      have hd : decodedItems (Except.error err :: rest) = decodedItems rest := by
        simp [decodedItems]
      have hu : undecodableCount (Except.error err :: rest) = undecodableCount rest + 1 := by
        simp [undecodableCount]
      rw [hd] at hnd habs
      have hstep : importDeploymentTargetsStep env tenantID full mode st (.error err)
          = st.fail st.store ("deploymentTargets: unmarshal error: " ++ err) := rfl
      obtain ⟨h1, h2, h3, h4, h5⟩ := ih (st.fail st.store _) hnd habs
      rw [List.foldl_cons, hstep, hd, hu]
      refine ⟨?_, ?_, h3, h4, h5⟩
      · rw [h1]
        simp [ImportState.fail]
        omega
      · rw [h2]
        simp [ImportState.fail]
        omega
    | ok e =>
      have hd : decodedItems (Except.ok e :: rest) = e :: decodedItems rest := by
        simp [decodedItems]
      have hu : undecodableCount (Except.ok e :: rest) = undecodableCount rest := by
        simp [undecodableCount]
      rw [hd] at hnd habs
      have hfresh := habs e (List.mem_cons_self _ _)
      have hstep := importDeploymentTargetsStep_create env tenantID full mode st e hfresh
        (hcr _)
      rw [List.map_cons, List.nodup_cons] at hnd
      have habs2 : ∀ e2 ∈ decodedItems rest,
          hasID DeploymentTarget.ID
            (importDeploymentTargetsStep env tenantID full mode st (.ok e)).store.targets e2.ID
            = false := by
        intro e2 he2
        rw [hstep]
        simp only [ImportState.created]
        rw [hasID_append, habs e2 (List.mem_cons_of_mem _ he2)]
        have hne : e.ID ≠ e2.ID := by
          intro heq
          exact hnd.1 (heq ▸ List.mem_map_of_mem DeploymentTarget.ID he2)
        have hid : ∀ d t, (newDeploymentTarget d e t).ID = e.ID := fun _ _ => rfl
        simp [hid, hne]
      obtain ⟨h1, h2, h3, h4, h5⟩ := ih _ hnd.2 habs2
      rw [List.foldl_cons, hd, hu]
      refine ⟨?_, ?_, ?_, ?_, ?_⟩
      · rw [h1, hstep]
        simp [ImportState.created]
        omega
      · rw [h2, hstep]
        simp [ImportState.created]
      · intro x hx
        apply h3
        rw [hstep]
        simp [ImportState.created, hx]
      · intro e2 he2
        rcases List.mem_cons.mp he2 with heq | hmem
        · subst heq
          refine ⟨env.createTimeDefault (st.store.log.length + 1), h3 _ ?_⟩
          rw [hstep]
          simp [ImportState.created]
        · exact h4 e2 hmem
      · rw [h5, hstep]
        simp [ImportState.created]
        omega
theorem decodedItems_length {α : Type} (items : List (RawMessage α)) :
    (decodedItems items).length + undecodableCount items = items.length := by
  induction items with
  | nil => rfl
  | cons raw rest ih =>
    cases raw with
    | error err =>
      have hd : decodedItems (Except.error err :: rest) = decodedItems rest := by
        simp [decodedItems]
      have hu : undecodableCount (Except.error err :: rest) = undecodableCount rest + 1 := by
        simp [undecodableCount]
      rw [hd, hu, List.length_cons]
      omega
    | ok e =>
      have hd : decodedItems (Except.ok e :: rest) = e :: decodedItems rest := by
        simp [decodedItems]
      have hu : undecodableCount (Except.ok e :: rest) = undecodableCount rest := by
        simp [undecodableCount]
      rw [hd, hu, List.length_cons, List.length_cons]
      omega

/-- An entry of the handler table whose handler leaves the targets alone only
appends to the results and the warnings and leaves the targets alone. -/
theorem runImportFunc_tail (acc : ImportAcc) (imp : ImportFunc)
    (hfr : ∀ s, (imp.fn s).store.targets = s.targets) :
    (∃ r, (runImportFunc acc imp).results = acc.results ++ r) ∧
    (∃ w, (runImportFunc acc imp).warnings = acc.warnings ++ w) ∧
    (runImportFunc acc imp).store.targets = acc.store.targets := by
  unfold runImportFunc
  split
  · exact ⟨⟨[], by simp⟩, ⟨[], by simp⟩, rfl⟩
  · exact ⟨⟨_, rfl⟩, ⟨_, rfl⟩, hfr _⟩

/-- The three handlers that follow the target handler only append to the
results and the warnings and leave the targets alone. -/
theorem importFuncs_tail (env : Env) (backup : backupData) (tenantID : Nat)
    (mode : RestoreMode) (acc : ImportAcc) :
    (∃ r, (((importFuncs env backup tenantID mode).drop 1).foldl runImportFunc acc).results
      = acc.results ++ r) ∧
    (∃ w, (((importFuncs env backup tenantID mode).drop 1).foldl runImportFunc acc).warnings
      = acc.warnings ++ w) ∧
    (((importFuncs env backup tenantID mode).drop 1).foldl runImportFunc acc).store.targets
      = acc.store.targets := by
  simp only [importFuncs, List.drop_succ_cons, List.drop_zero, List.foldl]
  obtain ⟨⟨r1, h1⟩, ⟨w1, k1⟩, t1⟩ := runImportFunc_tail acc
    { name := "targetConfigurations", count := backup.Data.TargetConfigurations.length,
      fn := fun s => importTargetConfigurations env s backup.Data.TargetConfigurations tenantID
        backup.FullBackup mode }
    (fun s => (importTargetConfigurations_frame env s _ _ _ _).1)
  obtain ⟨⟨r2, h2⟩, ⟨w2, k2⟩, t2⟩ := runImportFunc_tail
    (runImportFunc acc
      { name := "targetConfigurations", count := backup.Data.TargetConfigurations.length,
        fn := fun s => importTargetConfigurations env s backup.Data.TargetConfigurations tenantID
          backup.FullBackup mode })
    { name := "deploymentJobs", count := backup.Data.DeploymentJobs.length,
      fn := fun s => importDeploymentJobs env s backup.Data.DeploymentJobs tenantID
        backup.FullBackup mode }
    (fun s => (importDeploymentJobs_frame env s _ _ _ _).1)
  obtain ⟨⟨r3, h3⟩, ⟨w3, k3⟩, t3⟩ := runImportFunc_tail
    (runImportFunc (runImportFunc acc
      { name := "targetConfigurations", count := backup.Data.TargetConfigurations.length,
        fn := fun s => importTargetConfigurations env s backup.Data.TargetConfigurations tenantID
          backup.FullBackup mode })
      { name := "deploymentJobs", count := backup.Data.DeploymentJobs.length,
        fn := fun s => importDeploymentJobs env s backup.Data.DeploymentJobs tenantID
          backup.FullBackup mode })
    { name := "deploymentHistory", count := backup.Data.DeploymentHistory.length,
      fn := fun s => importDeploymentHistory env s backup.Data.DeploymentHistory tenantID
        backup.FullBackup mode }
    (fun s => (importDeploymentHistory_frame env s _ _ _ _).1)
  refine ⟨⟨r1 ++ r2 ++ r3, ?_⟩, ⟨w1 ++ w2 ++ w3, ?_⟩, ?_⟩
  · rw [h3, h2, h1]
    simp
  · rw [k3, k2, k1]
    simp
  · rw [t3, t2, t1]

/-- A request that passes the four structural checks runs the handler table. -/
theorem ImportBackup_passes (env : Env) (caller : Caller) (backup : backupData)
    (mode : RestoreMode) (s : Store) (hm : backup.Module = "deployer")
    (hv : backup.Version = "1.0")
    (hauth : backup.FullBackup = true → caller.IsPlatformAdmin = true) :
    ImportBackup env caller ⟨.ok backup, mode⟩ s =
      (.ok { Success := true,
             Results := ((importFuncs env backup (importTenant caller backup) mode).foldl
               runImportFunc { results := [], warnings := [], store := s }).results,
             Warnings := ((importFuncs env backup (importTenant caller backup) mode).foldl
               runImportFunc { results := [], warnings := [], store := s }).warnings },
       ((importFuncs env backup (importTenant caller backup) mode).foldl
         runImportFunc { results := [], warnings := [], store := s }).store) := by
  have hf : (backup.FullBackup && !caller.IsPlatformAdmin) = false := by
    cases hb : backup.FullBackup with
    | false => rfl
    | true => simp [hauth hb]
  simp [ImportBackup, hm, hv, hf, backupModule, backupVersion]

theorem importFuncs_foldl (env : Env) (backup : backupData) (tenantID : Nat)
    (mode : RestoreMode) (acc : ImportAcc) :
    (importFuncs env backup tenantID mode).foldl runImportFunc acc
      = ((importFuncs env backup tenantID mode).drop 1).foldl runImportFunc
          (runImportFunc acc
            { name := "deploymentTargets", count := backup.Data.DeploymentTargets.length,
              fn := fun s => importDeploymentTargets env s backup.Data.DeploymentTargets
                tenantID backup.FullBackup mode }) := rfl

/-- C10. Per-record failures are isolated.  For every envelope that passes the
structural checks and whose DeploymentTarget collection holds N items, k of
which do not decode, the others carrying pairwise distinct identifiers that are
not in the store, and for every store that accepts every create: `ImportBackup`
returns a response with success = true; the target handler reports total = N,
created = N - k, updated = 0, skipped = 0, failed = k and exactly k warnings;
when N > 0 that report is the first entry of the results and the k warnings
open the flat warning list; and every record that decodes, before or after a
failing one, is a row of the store afterwards. -/
theorem ImportBackup_partial_failure (env : Env) (caller : Caller) (backup : backupData)
    (mode : RestoreMode) (s : Store) (N k : Nat)
    (hm : backup.Module = "deployer") (hv : backup.Version = "1.0")
    (hauth : backup.FullBackup = true → caller.IsPlatformAdmin = true)
    (hN : backup.Data.DeploymentTargets.length = N)
    (hk : undecodableCount backup.Data.DeploymentTargets = k)
    (hdist : ((decodedItems backup.Data.DeploymentTargets).map DeploymentTarget.ID).Nodup)
    (habs : ∀ e ∈ decodedItems backup.Data.DeploymentTargets,
      hasID DeploymentTarget.ID s.targets e.ID = false)
    (hcr : ∀ n, env.createFails n = false) :
    ∃ resp, (ImportBackup env caller ⟨.ok backup, mode⟩ s).1 = .ok resp ∧
      resp.Success = true ∧
      (importDeploymentTargets env s backup.Data.DeploymentTargets (importTenant caller backup)
          backup.FullBackup mode).result
        = { EntityType := "deploymentTargets", Total := N, Created := N - k, Updated := 0,
            Skipped := 0, Failed := k } ∧
      (importDeploymentTargets env s backup.Data.DeploymentTargets (importTenant caller backup)
          backup.FullBackup mode).warnings.length = k ∧
      (0 < N → resp.Results.head?
        = some { EntityType := "deploymentTargets", Total := N, Created := N - k, Updated := 0,
                 Skipped := 0, Failed := k }) ∧
      (∃ rest, resp.Warnings
        = (importDeploymentTargets env s backup.Data.DeploymentTargets
            (importTenant caller backup) backup.FullBackup mode).warnings ++ rest) ∧
      (∀ e ∈ decodedItems backup.Data.DeploymentTargets, ∃ d,
        newDeploymentTarget d e (resolveTid (importTenant caller backup) backup.FullBackup
          e.TenantID) ∈ (ImportBackup env caller ⟨.ok backup, mode⟩ s).2.targets) := by
  obtain ⟨f1, f2, _, f4, _⟩ := importDeploymentTargets_fold_fresh env
    (importTenant caller backup) backup.FullBackup mode hcr backup.Data.DeploymentTargets
    (ImportState.init "deploymentTargets" backup.Data.DeploymentTargets.length s) hdist habs
  have hlen := decodedItems_length backup.Data.DeploymentTargets
  have hres : (importDeploymentTargets env s backup.Data.DeploymentTargets
      (importTenant caller backup) backup.FullBackup mode).result
      = { EntityType := "deploymentTargets", Total := N, Created := N - k, Updated := 0,
          Skipped := 0, Failed := k } := by
    unfold importDeploymentTargets
    rw [f1]
    simp only [ImportState.init, EntityImportResult.mk.injEq, true_and]
    omega
  have hwarn : (importDeploymentTargets env s backup.Data.DeploymentTargets
      (importTenant caller backup) backup.FullBackup mode).warnings.length = k := by
    unfold importDeploymentTargets
    rw [f2]
    simp [ImportState.init, hk]
  rw [ImportBackup_passes env caller backup mode s hm hv hauth, importFuncs_foldl]
  obtain ⟨⟨r, hr⟩, ⟨w, hw⟩, ht⟩ := importFuncs_tail env backup (importTenant caller backup) mode
    (runImportFunc { results := [], warnings := [], store := s }
      { name := "deploymentTargets", count := backup.Data.DeploymentTargets.length,
        fn := fun s => importDeploymentTargets env s backup.Data.DeploymentTargets
          (importTenant caller backup) backup.FullBackup mode })
  refine ⟨_, rfl, rfl, hres, hwarn, ?_, ?_, ?_⟩
  · intro hpos
    have hne : ¬ backup.Data.DeploymentTargets.length = 0 := by omega
    simp only
    rw [hr]
    simp [runImportFunc, hne, hres]
  · simp only
    rw [hw]
    by_cases h0 : backup.Data.DeploymentTargets.length = 0
    · have hnil : backup.Data.DeploymentTargets = [] := List.length_eq_zero.mp h0
      refine ⟨w, ?_⟩
      simp [runImportFunc, hnil, importDeploymentTargets, ImportState.init]
    · exact ⟨w, by simp [runImportFunc, h0]⟩
  · intro e he
    have h0 : ¬ backup.Data.DeploymentTargets.length = 0 := by
      intro h0
      have hnil : backup.Data.DeploymentTargets = [] := List.length_eq_zero.mp h0
      rw [hnil] at he
      simp [decodedItems] at he
    obtain ⟨d, hd⟩ := f4 e he
    refine ⟨d, ?_⟩
    simp only
    rw [ht]
    simpa [runImportFunc, h0, importDeploymentTargets] using hd

/-- Witness of C10, the case of the specification: ten target items of which
one does not decode, restored by tenant 1 into the two-tenant store. -/
theorem ImportBackup_partial_failure_witness :
    ∃ resp, (ImportBackup okEnv ⟨1, false⟩ ⟨.ok tenTargetBackup, .RESTORE_MODE_SKIP⟩
        twoTenantStore).1 = .ok resp ∧
      resp.Success = true ∧
      resp.Results.head?
        = some { EntityType := "deploymentTargets", Total := 10, Created := 9, Updated := 0,
                 Skipped := 0, Failed := 1 } ∧
      resp.Warnings = ["deploymentTargets: unmarshal error: unexpected end of JSON input"] := by
  obtain ⟨resp, h1, h2, _, _, h5, _, _⟩ := ImportBackup_partial_failure okEnv ⟨1, false⟩
    tenTargetBackup .RESTORE_MODE_SKIP twoTenantStore 10 1 rfl rfl (fun h => nomatch h) rfl rfl
    (by decide) (by decide) (fun _ => rfl)
  refine ⟨resp, h1, h2, h5 (by decide), ?_⟩
  have hv : (ImportBackup okEnv ⟨1, false⟩ ⟨.ok tenTargetBackup, .RESTORE_MODE_SKIP⟩
      twoTenantStore).1 = .ok
        (ImportBackupResponse.mk true
          [EntityImportResult.mk "deploymentTargets" 10 9 0 0 1,
            EntityImportResult.mk "deploymentJobs" 1 1 0 0 0]
          ["deploymentTargets: unmarshal error: unexpected end of JSON input"]) :=
    rfl
  rw [hv] at h1
  rw [← Except.ok.inj h1]

/-! ## Import: a non-admin writes outside its tenant -/

/-- C4 at its failing input.  The store holds target t2 of tenant 2 and no job
j7.  A non-admin of tenant 1 presents, in overwrite mode, a tenant-scoped
envelope with a target whose identifier is t2 and a history row attached to
job j2 of tenant 2.  The request succeeds, the target is counted as Updated
and the history row as Created; the rewritten target is still a row of tenant
2, now carrying the caller's fields, and the created history row is attached to
a job of tenant 2: neither written row has tenant 1. -/
theorem ImportBackup_non_admin_writes_foreign_rows :
    (ImportBackup okEnv ⟨1, false⟩
      ⟨.ok (mkBackup "deployer" "1.0" 1 false
        { noEntities with
          DeploymentTargets := [.ok (mkTarget "t2" (some 1) "taken over")]
          DeploymentHistory := [.ok (mkHistory 7 "j2")] }),
        .RESTORE_MODE_OVERWRITE⟩ twoTenantStore).1
      = .ok (ImportBackupResponse.mk true
          [EntityImportResult.mk "deploymentTargets" 1 0 1 0 0,
            EntityImportResult.mk "deploymentHistory" 1 1 0 0 0] []) ∧
    findByID DeploymentTarget.ID twoTenantStore.targets "t2"
      = some (mkTarget "t2" (some 2) "two") ∧
    findByID DeploymentTarget.ID
      (ImportBackup okEnv ⟨1, false⟩
        ⟨.ok (mkBackup "deployer" "1.0" 1 false
          { noEntities with
            DeploymentTargets := [.ok (mkTarget "t2" (some 1) "taken over")]
            DeploymentHistory := [.ok (mkHistory 7 "j2")] }),
          .RESTORE_MODE_OVERWRITE⟩ twoTenantStore).2.targets "t2"
      = some (mkTarget "t2" (some 2) "taken over") ∧
    (findByID DeploymentHistory.ID
      (ImportBackup okEnv ⟨1, false⟩
        ⟨.ok (mkBackup "deployer" "1.0" 1 false
          { noEntities with
            DeploymentTargets := [.ok (mkTarget "t2" (some 1) "taken over")]
            DeploymentHistory := [.ok (mkHistory 7 "j2")] }),
          .RESTORE_MODE_OVERWRITE⟩ twoTenantStore).2.history 7).map
        (fun h => (hasJobWithTenant twoTenantStore 1 h, hasJobWithTenant twoTenantStore 2 h))
      = some (false, true) :=
  ⟨rfl, rfl, rfl, rfl⟩

/-! ## Import: counters, warnings and trace of one handler -/

/-- One iteration of the `deploymentTargets` loop bumps exactly one of the four counters,
appends a warning exactly when it bumps Failed, and appends to the trace only
accesses of kind `deploymentTargets`. -/
theorem importDeploymentTargetsStep_trace (env : Env) (tenantID : Nat) (full : Bool)
    (mode : RestoreMode) (st : ImportState) (raw : RawMessage DeploymentTarget) :
    (importDeploymentTargetsStep env tenantID full mode st raw).result.EntityType = st.result.EntityType ∧
    (importDeploymentTargetsStep env tenantID full mode st raw).result.Total = st.result.Total ∧
    (importDeploymentTargetsStep env tenantID full mode st raw).result.Created
        + (importDeploymentTargetsStep env tenantID full mode st raw).result.Updated
        + (importDeploymentTargetsStep env tenantID full mode st raw).result.Skipped
        + (importDeploymentTargetsStep env tenantID full mode st raw).result.Failed
      = st.result.Created + st.result.Updated + st.result.Skipped + st.result.Failed + 1 ∧
    (importDeploymentTargetsStep env tenantID full mode st raw).warnings.length + st.result.Failed
      = st.warnings.length + (importDeploymentTargetsStep env tenantID full mode st raw).result.Failed ∧
    (∃ l, (importDeploymentTargetsStep env tenantID full mode st raw).store.log = st.store.log ++ l ∧
      ∀ op ∈ l, op.kind = EntityKind.deploymentTargets) := by
  cases raw with
  | error err =>
    refine ⟨rfl, rfl, ?_, ?_, ⟨[], ?_, ?_⟩⟩
    · simp only [importDeploymentTargetsStep, ImportState.fail]
      omega
    · simp only [importDeploymentTargetsStep, ImportState.fail, List.length_append, List.length_singleton]
      omega
    · simp [importDeploymentTargetsStep, ImportState.fail]
    · intro op hop
      cases hop
  | ok e =>
    have hg := getDeploymentTarget_store env st.store e.ID
    cases hget : getDeploymentTarget env st.store e.ID with
    | mk ex s1 =>
      rw [hget] at hg
      simp only at hg
      subst hg
      cases ex with
      | some old =>
        cases mode with
        | RESTORE_MODE_SKIP =>
          refine ⟨?_, ?_, ?_, ?_, ⟨[⟨.deploymentTargets, .get⟩], ?_, ?_⟩⟩
          · simp [importDeploymentTargetsStep, hget, ImportState.skipped]
          · simp [importDeploymentTargetsStep, hget, ImportState.skipped]
          · simp only [importDeploymentTargetsStep, hget, ImportState.skipped, if_true]
            omega
          · simp [importDeploymentTargetsStep, hget, ImportState.skipped]
          · simp [importDeploymentTargetsStep, hget, ImportState.skipped, Store.record]
          · intro op hop
            simp only [List.mem_singleton] at hop
            rw [hop]
        | RESTORE_MODE_OVERWRITE =>
          have hu := updateOneDeploymentTarget_store env (st.store.record .deploymentTargets .get) e.ID
            (updateDeploymentTargetFields e)
          cases hupd : updateOneDeploymentTarget env (st.store.record .deploymentTargets .get) e.ID
              (updateDeploymentTargetFields e) with
          | mk r s2 =>
            rw [hupd] at hu
            simp only at hu
            have hlog : s2.log = st.store.log ++ [⟨.deploymentTargets, .get⟩, ⟨.deploymentTargets, .update⟩] := by
              rcases hu with hu | hu <;> subst hu <;> simp [Store.record]
            have hmem : ∀ op ∈ [(⟨.deploymentTargets, .get⟩ : Op), ⟨.deploymentTargets, .update⟩],
                op.kind = EntityKind.deploymentTargets := by
              intro op hop
              simp only [List.mem_cons, List.mem_singleton, List.not_mem_nil, or_false] at hop
              rcases hop with hop | hop <;> rw [hop]
            cases r with
            | error err =>
              refine ⟨?_, ?_, ?_, ?_, ⟨_, ?_, hmem⟩⟩
              · simp [importDeploymentTargetsStep, hget, hupd, ImportState.fail]
              · simp [importDeploymentTargetsStep, hget, hupd, ImportState.fail]
              · simp [importDeploymentTargetsStep, hget, hupd, ImportState.fail]
                omega
              · simp [importDeploymentTargetsStep, hget, hupd, ImportState.fail]
                omega
              · simp only [importDeploymentTargetsStep, hget, hupd, ImportState.fail]
                simpa using hlog
            | ok u =>
              refine ⟨?_, ?_, ?_, ?_, ⟨_, ?_, hmem⟩⟩
              · simp [importDeploymentTargetsStep, hget, hupd, ImportState.updated]
              · simp [importDeploymentTargetsStep, hget, hupd, ImportState.updated]
              · simp [importDeploymentTargetsStep, hget, hupd, ImportState.updated]
                omega
              · simp [importDeploymentTargetsStep, hget, hupd, ImportState.updated]
              · simp only [importDeploymentTargetsStep, hget, hupd, ImportState.updated]
                simpa using hlog
      | none =>
        have hu := createDeploymentTarget_store env (st.store.record .deploymentTargets .get)
          (newDeploymentTarget (env.createTimeDefault (st.store.record .deploymentTargets .get).log.length)
            e (resolveTid tenantID full e.TenantID))
        cases hcr : createDeploymentTarget env (st.store.record .deploymentTargets .get)
          (newDeploymentTarget (env.createTimeDefault (st.store.record .deploymentTargets .get).log.length)
            e (resolveTid tenantID full e.TenantID)) with
        | mk r s2 =>
          rw [hcr] at hu
          simp only at hu
          have hlog : s2.log = st.store.log ++ [⟨.deploymentTargets, .get⟩, ⟨.deploymentTargets, .create⟩] := by
            rcases hu with hu | hu <;> subst hu <;> simp [Store.record]
          have hmem : ∀ op ∈ [(⟨.deploymentTargets, .get⟩ : Op), ⟨.deploymentTargets, .create⟩],
              op.kind = EntityKind.deploymentTargets := by
            intro op hop
            simp only [List.mem_cons, List.mem_singleton, List.not_mem_nil, or_false] at hop
            rcases hop with hop | hop <;> rw [hop]
          cases r with
          | error err =>
            refine ⟨?_, ?_, ?_, ?_, ⟨_, ?_, hmem⟩⟩
            · simp [importDeploymentTargetsStep, hget, hcr, ImportState.fail]
            · simp [importDeploymentTargetsStep, hget, hcr, ImportState.fail]
            · simp [importDeploymentTargetsStep, hget, hcr, ImportState.fail]
              omega
            · simp [importDeploymentTargetsStep, hget, hcr, ImportState.fail]
              omega
            · simp only [importDeploymentTargetsStep, hget, hcr, ImportState.fail]
              simpa using hlog
          | ok u =>
            refine ⟨?_, ?_, ?_, ?_, ⟨_, ?_, hmem⟩⟩
            · simp [importDeploymentTargetsStep, hget, hcr, ImportState.created]
            · simp [importDeploymentTargetsStep, hget, hcr, ImportState.created]
            · simp [importDeploymentTargetsStep, hget, hcr, ImportState.created]
              omega
            · simp [importDeploymentTargetsStep, hget, hcr, ImportState.created]
            · simp only [importDeploymentTargetsStep, hget, hcr, ImportState.created]
              simpa using hlog

/-- One iteration of the `targetConfigurations` loop bumps exactly one of the four counters,
appends a warning exactly when it bumps Failed, and appends to the trace only
accesses of kind `targetConfigurations`. -/
theorem importTargetConfigurationsStep_trace (env : Env) (tenantID : Nat) (full : Bool)
    (mode : RestoreMode) (st : ImportState) (raw : RawMessage TargetConfiguration) :
    (importTargetConfigurationsStep env tenantID full mode st raw).result.EntityType = st.result.EntityType ∧
    (importTargetConfigurationsStep env tenantID full mode st raw).result.Total = st.result.Total ∧
    (importTargetConfigurationsStep env tenantID full mode st raw).result.Created
        + (importTargetConfigurationsStep env tenantID full mode st raw).result.Updated
        + (importTargetConfigurationsStep env tenantID full mode st raw).result.Skipped
        + (importTargetConfigurationsStep env tenantID full mode st raw).result.Failed
      = st.result.Created + st.result.Updated + st.result.Skipped + st.result.Failed + 1 ∧
    (importTargetConfigurationsStep env tenantID full mode st raw).warnings.length + st.result.Failed
      = st.warnings.length + (importTargetConfigurationsStep env tenantID full mode st raw).result.Failed ∧
    (∃ l, (importTargetConfigurationsStep env tenantID full mode st raw).store.log = st.store.log ++ l ∧
      ∀ op ∈ l, op.kind = EntityKind.targetConfigurations) := by
  cases raw with
  | error err =>
    refine ⟨rfl, rfl, ?_, ?_, ⟨[], ?_, ?_⟩⟩
    · simp only [importTargetConfigurationsStep, ImportState.fail]
      omega
    · simp only [importTargetConfigurationsStep, ImportState.fail, List.length_append, List.length_singleton]
      omega
    · simp [importTargetConfigurationsStep, ImportState.fail]
    · intro op hop
      cases hop
  | ok e =>
    have hg := getTargetConfiguration_store env st.store e.ID
    cases hget : getTargetConfiguration env st.store e.ID with
    | mk ex s1 =>
      rw [hget] at hg
      simp only at hg
      subst hg
      cases ex with
      | some old =>
        cases mode with
        | RESTORE_MODE_SKIP =>
          refine ⟨?_, ?_, ?_, ?_, ⟨[⟨.targetConfigurations, .get⟩], ?_, ?_⟩⟩
          · simp [importTargetConfigurationsStep, hget, ImportState.skipped]
          · simp [importTargetConfigurationsStep, hget, ImportState.skipped]
          · simp only [importTargetConfigurationsStep, hget, ImportState.skipped, if_true]
            omega
          · simp [importTargetConfigurationsStep, hget, ImportState.skipped]
          · simp [importTargetConfigurationsStep, hget, ImportState.skipped, Store.record]
          · intro op hop
            simp only [List.mem_singleton] at hop
            rw [hop]
        | RESTORE_MODE_OVERWRITE =>
          have hu := updateOneTargetConfiguration_store env (st.store.record .targetConfigurations .get) e.ID
            (updateTargetConfigurationFields e)
          cases hupd : updateOneTargetConfiguration env (st.store.record .targetConfigurations .get) e.ID
              (updateTargetConfigurationFields e) with
          | mk r s2 =>
            rw [hupd] at hu
            simp only at hu
            have hlog : s2.log = st.store.log ++ [⟨.targetConfigurations, .get⟩, ⟨.targetConfigurations, .update⟩] := by
              rcases hu with hu | hu <;> subst hu <;> simp [Store.record]
            have hmem : ∀ op ∈ [(⟨.targetConfigurations, .get⟩ : Op), ⟨.targetConfigurations, .update⟩],
                op.kind = EntityKind.targetConfigurations := by
              intro op hop
              simp only [List.mem_cons, List.mem_singleton, List.not_mem_nil, or_false] at hop
              rcases hop with hop | hop <;> rw [hop]
            cases r with
            | error err =>
              refine ⟨?_, ?_, ?_, ?_, ⟨_, ?_, hmem⟩⟩
              · simp [importTargetConfigurationsStep, hget, hupd, ImportState.fail]
              · simp [importTargetConfigurationsStep, hget, hupd, ImportState.fail]
              · simp [importTargetConfigurationsStep, hget, hupd, ImportState.fail]
                omega
              · simp [importTargetConfigurationsStep, hget, hupd, ImportState.fail]
                omega
              · simp only [importTargetConfigurationsStep, hget, hupd, ImportState.fail]
                simpa using hlog
            | ok u =>
              refine ⟨?_, ?_, ?_, ?_, ⟨_, ?_, hmem⟩⟩
              · simp [importTargetConfigurationsStep, hget, hupd, ImportState.updated]
              · simp [importTargetConfigurationsStep, hget, hupd, ImportState.updated]
              · simp [importTargetConfigurationsStep, hget, hupd, ImportState.updated]
                omega
              · simp [importTargetConfigurationsStep, hget, hupd, ImportState.updated]
              · simp only [importTargetConfigurationsStep, hget, hupd, ImportState.updated]
                simpa using hlog
      | none =>
        have hu := createTargetConfiguration_store env (st.store.record .targetConfigurations .get)
          (newTargetConfiguration (env.createTimeDefault (st.store.record .targetConfigurations .get).log.length)
            e (resolveTid tenantID full e.TenantID))
        cases hcr : createTargetConfiguration env (st.store.record .targetConfigurations .get)
          (newTargetConfiguration (env.createTimeDefault (st.store.record .targetConfigurations .get).log.length)
            e (resolveTid tenantID full e.TenantID)) with
        | mk r s2 =>
          rw [hcr] at hu
          simp only at hu
          have hlog : s2.log = st.store.log ++ [⟨.targetConfigurations, .get⟩, ⟨.targetConfigurations, .create⟩] := by
            rcases hu with hu | hu <;> subst hu <;> simp [Store.record]
          have hmem : ∀ op ∈ [(⟨.targetConfigurations, .get⟩ : Op), ⟨.targetConfigurations, .create⟩],
              op.kind = EntityKind.targetConfigurations := by
            intro op hop
            simp only [List.mem_cons, List.mem_singleton, List.not_mem_nil, or_false] at hop
            rcases hop with hop | hop <;> rw [hop]
          cases r with
          | error err =>
            refine ⟨?_, ?_, ?_, ?_, ⟨_, ?_, hmem⟩⟩
            · simp [importTargetConfigurationsStep, hget, hcr, ImportState.fail]
            · simp [importTargetConfigurationsStep, hget, hcr, ImportState.fail]
            · simp [importTargetConfigurationsStep, hget, hcr, ImportState.fail]
              omega
            · simp [importTargetConfigurationsStep, hget, hcr, ImportState.fail]
              omega
            · simp only [importTargetConfigurationsStep, hget, hcr, ImportState.fail]
              simpa using hlog
          | ok u =>
            refine ⟨?_, ?_, ?_, ?_, ⟨_, ?_, hmem⟩⟩
            · simp [importTargetConfigurationsStep, hget, hcr, ImportState.created]
            · simp [importTargetConfigurationsStep, hget, hcr, ImportState.created]
            · simp [importTargetConfigurationsStep, hget, hcr, ImportState.created]
              omega
            · simp [importTargetConfigurationsStep, hget, hcr, ImportState.created]
            · simp only [importTargetConfigurationsStep, hget, hcr, ImportState.created]
              simpa using hlog

/-- One iteration of the `deploymentJobs` loop bumps exactly one of the four counters,
appends a warning exactly when it bumps Failed, and appends to the trace only
accesses of kind `deploymentJobs`. -/
theorem importDeploymentJobsStep_trace (env : Env) (tenantID : Nat) (full : Bool)
    (mode : RestoreMode) (st : ImportState) (raw : RawMessage DeploymentJob) :
    (importDeploymentJobsStep env tenantID full mode st raw).result.EntityType = st.result.EntityType ∧
    (importDeploymentJobsStep env tenantID full mode st raw).result.Total = st.result.Total ∧
    (importDeploymentJobsStep env tenantID full mode st raw).result.Created
        + (importDeploymentJobsStep env tenantID full mode st raw).result.Updated
        + (importDeploymentJobsStep env tenantID full mode st raw).result.Skipped
        + (importDeploymentJobsStep env tenantID full mode st raw).result.Failed
      = st.result.Created + st.result.Updated + st.result.Skipped + st.result.Failed + 1 ∧
    (importDeploymentJobsStep env tenantID full mode st raw).warnings.length + st.result.Failed
      = st.warnings.length + (importDeploymentJobsStep env tenantID full mode st raw).result.Failed ∧
    (∃ l, (importDeploymentJobsStep env tenantID full mode st raw).store.log = st.store.log ++ l ∧
      ∀ op ∈ l, op.kind = EntityKind.deploymentJobs) := by
  cases raw with
  | error err =>
    refine ⟨rfl, rfl, ?_, ?_, ⟨[], ?_, ?_⟩⟩
    · simp only [importDeploymentJobsStep, ImportState.fail]
      omega
    · simp only [importDeploymentJobsStep, ImportState.fail, List.length_append, List.length_singleton]
      omega
    · simp [importDeploymentJobsStep, ImportState.fail]
    · intro op hop
      cases hop
  | ok e =>
    have hg := getDeploymentJob_store env st.store e.ID
    cases hget : getDeploymentJob env st.store e.ID with
    | mk ex s1 =>
      rw [hget] at hg
      simp only at hg
      subst hg
      cases ex with
      | some old =>
        cases mode with
        | RESTORE_MODE_SKIP =>
          refine ⟨?_, ?_, ?_, ?_, ⟨[⟨.deploymentJobs, .get⟩], ?_, ?_⟩⟩
          · simp [importDeploymentJobsStep, hget, ImportState.skipped]
          · simp [importDeploymentJobsStep, hget, ImportState.skipped]
          · simp only [importDeploymentJobsStep, hget, ImportState.skipped, if_true]
            omega
          · simp [importDeploymentJobsStep, hget, ImportState.skipped]
          · simp [importDeploymentJobsStep, hget, ImportState.skipped, Store.record]
          · intro op hop
            simp only [List.mem_singleton] at hop
            rw [hop]
        | RESTORE_MODE_OVERWRITE =>
          have hu := updateOneDeploymentJob_store env (st.store.record .deploymentJobs .get) e.ID
            (updateDeploymentJobFields e)
          cases hupd : updateOneDeploymentJob env (st.store.record .deploymentJobs .get) e.ID
              (updateDeploymentJobFields e) with
          | mk r s2 =>
            rw [hupd] at hu
            simp only at hu
            have hlog : s2.log = st.store.log ++ [⟨.deploymentJobs, .get⟩, ⟨.deploymentJobs, .update⟩] := by
              rcases hu with hu | hu <;> subst hu <;> simp [Store.record]
            have hmem : ∀ op ∈ [(⟨.deploymentJobs, .get⟩ : Op), ⟨.deploymentJobs, .update⟩],
                op.kind = EntityKind.deploymentJobs := by
              intro op hop
              simp only [List.mem_cons, List.mem_singleton, List.not_mem_nil, or_false] at hop
              rcases hop with hop | hop <;> rw [hop]
            cases r with
            | error err =>
              refine ⟨?_, ?_, ?_, ?_, ⟨_, ?_, hmem⟩⟩
              · simp [importDeploymentJobsStep, hget, hupd, ImportState.fail]
              · simp [importDeploymentJobsStep, hget, hupd, ImportState.fail]
              · simp [importDeploymentJobsStep, hget, hupd, ImportState.fail]
                omega
              · simp [importDeploymentJobsStep, hget, hupd, ImportState.fail]
                omega
              · simp only [importDeploymentJobsStep, hget, hupd, ImportState.fail]
                simpa using hlog
            | ok u =>
              refine ⟨?_, ?_, ?_, ?_, ⟨_, ?_, hmem⟩⟩
              · simp [importDeploymentJobsStep, hget, hupd, ImportState.updated]
              · simp [importDeploymentJobsStep, hget, hupd, ImportState.updated]
              · simp [importDeploymentJobsStep, hget, hupd, ImportState.updated]
                omega
              · simp [importDeploymentJobsStep, hget, hupd, ImportState.updated]
              · simp only [importDeploymentJobsStep, hget, hupd, ImportState.updated]
                simpa using hlog
      | none =>
        have hu := createDeploymentJob_store env (st.store.record .deploymentJobs .get)
          (newDeploymentJob (env.createTimeDefault (st.store.record .deploymentJobs .get).log.length)
            e (resolveTid tenantID full e.TenantID))
        cases hcr : createDeploymentJob env (st.store.record .deploymentJobs .get)
          (newDeploymentJob (env.createTimeDefault (st.store.record .deploymentJobs .get).log.length)
            e (resolveTid tenantID full e.TenantID)) with
        | mk r s2 =>
          rw [hcr] at hu
          simp only at hu
          have hlog : s2.log = st.store.log ++ [⟨.deploymentJobs, .get⟩, ⟨.deploymentJobs, .create⟩] := by
            rcases hu with hu | hu <;> subst hu <;> simp [Store.record]
          have hmem : ∀ op ∈ [(⟨.deploymentJobs, .get⟩ : Op), ⟨.deploymentJobs, .create⟩],
              op.kind = EntityKind.deploymentJobs := by
            intro op hop
            simp only [List.mem_cons, List.mem_singleton, List.not_mem_nil, or_false] at hop
            rcases hop with hop | hop <;> rw [hop]
          cases r with
          | error err =>
            refine ⟨?_, ?_, ?_, ?_, ⟨_, ?_, hmem⟩⟩
            · simp [importDeploymentJobsStep, hget, hcr, ImportState.fail]
            · simp [importDeploymentJobsStep, hget, hcr, ImportState.fail]
            · simp [importDeploymentJobsStep, hget, hcr, ImportState.fail]
              omega
            · simp [importDeploymentJobsStep, hget, hcr, ImportState.fail]
              omega
            · simp only [importDeploymentJobsStep, hget, hcr, ImportState.fail]
              simpa using hlog
          | ok u =>
            refine ⟨?_, ?_, ?_, ?_, ⟨_, ?_, hmem⟩⟩
            · simp [importDeploymentJobsStep, hget, hcr, ImportState.created]
            · simp [importDeploymentJobsStep, hget, hcr, ImportState.created]
            · simp [importDeploymentJobsStep, hget, hcr, ImportState.created]
              omega
            · simp [importDeploymentJobsStep, hget, hcr, ImportState.created]
            · simp only [importDeploymentJobsStep, hget, hcr, ImportState.created]
              simpa using hlog

/-- One iteration of the `deploymentHistory` loop bumps exactly one of the four counters,
appends a warning exactly when it bumps Failed, and appends to the trace only
accesses of kind `deploymentHistory`. -/
theorem importDeploymentHistoryStep_trace (env : Env) (tenantID : Nat) (full : Bool)
    (mode : RestoreMode) (st : ImportState) (raw : RawMessage DeploymentHistory) :
    (importDeploymentHistoryStep env tenantID full mode st raw).result.EntityType = st.result.EntityType ∧
    (importDeploymentHistoryStep env tenantID full mode st raw).result.Total = st.result.Total ∧
    (importDeploymentHistoryStep env tenantID full mode st raw).result.Created
        + (importDeploymentHistoryStep env tenantID full mode st raw).result.Updated
        + (importDeploymentHistoryStep env tenantID full mode st raw).result.Skipped
        + (importDeploymentHistoryStep env tenantID full mode st raw).result.Failed
      = st.result.Created + st.result.Updated + st.result.Skipped + st.result.Failed + 1 ∧
    (importDeploymentHistoryStep env tenantID full mode st raw).warnings.length + st.result.Failed
      = st.warnings.length + (importDeploymentHistoryStep env tenantID full mode st raw).result.Failed ∧
    (∃ l, (importDeploymentHistoryStep env tenantID full mode st raw).store.log = st.store.log ++ l ∧
      ∀ op ∈ l, op.kind = EntityKind.deploymentHistory) := by
  cases raw with
  | error err =>
    refine ⟨rfl, rfl, ?_, ?_, ⟨[], ?_, ?_⟩⟩
    · simp only [importDeploymentHistoryStep, ImportState.fail]
      omega
    · simp only [importDeploymentHistoryStep, ImportState.fail, List.length_append, List.length_singleton]
      omega
    · simp [importDeploymentHistoryStep, ImportState.fail]
    · intro op hop
      cases hop
  | ok e =>
    have hg := getDeploymentHistory_store env st.store e.ID
    cases hget : getDeploymentHistory env st.store e.ID with
    | mk ex s1 =>
      rw [hget] at hg
      simp only at hg
      subst hg
      cases ex with
      | some old =>
        cases mode with
        | RESTORE_MODE_SKIP =>
          refine ⟨?_, ?_, ?_, ?_, ⟨[⟨.deploymentHistory, .get⟩], ?_, ?_⟩⟩
          · simp [importDeploymentHistoryStep, hget, ImportState.skipped]
          · simp [importDeploymentHistoryStep, hget, ImportState.skipped]
          · simp only [importDeploymentHistoryStep, hget, ImportState.skipped, if_true]
            omega
          · simp [importDeploymentHistoryStep, hget, ImportState.skipped]
          · simp [importDeploymentHistoryStep, hget, ImportState.skipped, Store.record]
          · intro op hop
            simp only [List.mem_singleton] at hop
            rw [hop]
        | RESTORE_MODE_OVERWRITE =>
          have hu := updateOneDeploymentHistory_store env (st.store.record .deploymentHistory .get) e.ID
            (updateDeploymentHistoryFields e)
          cases hupd : updateOneDeploymentHistory env (st.store.record .deploymentHistory .get) e.ID
              (updateDeploymentHistoryFields e) with
          | mk r s2 =>
            rw [hupd] at hu
            simp only at hu
            have hlog : s2.log = st.store.log ++ [⟨.deploymentHistory, .get⟩, ⟨.deploymentHistory, .update⟩] := by
              rcases hu with hu | hu <;> subst hu <;> simp [Store.record]
            have hmem : ∀ op ∈ [(⟨.deploymentHistory, .get⟩ : Op), ⟨.deploymentHistory, .update⟩],
                op.kind = EntityKind.deploymentHistory := by
              intro op hop
              simp only [List.mem_cons, List.mem_singleton, List.not_mem_nil, or_false] at hop
              rcases hop with hop | hop <;> rw [hop]
            cases r with
            | error err =>
              refine ⟨?_, ?_, ?_, ?_, ⟨_, ?_, hmem⟩⟩
              · simp [importDeploymentHistoryStep, hget, hupd, ImportState.fail]
              · simp [importDeploymentHistoryStep, hget, hupd, ImportState.fail]
              · simp [importDeploymentHistoryStep, hget, hupd, ImportState.fail]
                omega
              · simp [importDeploymentHistoryStep, hget, hupd, ImportState.fail]
                omega
              · simp only [importDeploymentHistoryStep, hget, hupd, ImportState.fail]
                simpa using hlog
            | ok u =>
              refine ⟨?_, ?_, ?_, ?_, ⟨_, ?_, hmem⟩⟩
              · simp [importDeploymentHistoryStep, hget, hupd, ImportState.updated]
              · simp [importDeploymentHistoryStep, hget, hupd, ImportState.updated]
              · simp [importDeploymentHistoryStep, hget, hupd, ImportState.updated]
                omega
              · simp [importDeploymentHistoryStep, hget, hupd, ImportState.updated]
              · simp only [importDeploymentHistoryStep, hget, hupd, ImportState.updated]
                simpa using hlog
      | none =>
        have hu := createDeploymentHistory_store env (st.store.record .deploymentHistory .get)
          (newDeploymentHistory (env.createTimeDefault (st.store.record .deploymentHistory .get).log.length)
            e)
        cases hcr : createDeploymentHistory env (st.store.record .deploymentHistory .get)
          (newDeploymentHistory (env.createTimeDefault (st.store.record .deploymentHistory .get).log.length)
            e) with
        | mk r s2 =>
          rw [hcr] at hu
          simp only at hu
          have hlog : s2.log = st.store.log ++ [⟨.deploymentHistory, .get⟩, ⟨.deploymentHistory, .create⟩] := by
            rcases hu with hu | hu <;> subst hu <;> simp [Store.record]
          have hmem : ∀ op ∈ [(⟨.deploymentHistory, .get⟩ : Op), ⟨.deploymentHistory, .create⟩],
              op.kind = EntityKind.deploymentHistory := by
            intro op hop
            simp only [List.mem_cons, List.mem_singleton, List.not_mem_nil, or_false] at hop
            rcases hop with hop | hop <;> rw [hop]
          cases r with
          | error err =>
            refine ⟨?_, ?_, ?_, ?_, ⟨_, ?_, hmem⟩⟩
            · simp [importDeploymentHistoryStep, hget, hcr, ImportState.fail]
            · simp [importDeploymentHistoryStep, hget, hcr, ImportState.fail]
            · simp [importDeploymentHistoryStep, hget, hcr, ImportState.fail]
              omega
            · simp [importDeploymentHistoryStep, hget, hcr, ImportState.fail]
              omega
            · simp only [importDeploymentHistoryStep, hget, hcr, ImportState.fail]
              simpa using hlog
          | ok u =>
            refine ⟨?_, ?_, ?_, ?_, ⟨_, ?_, hmem⟩⟩
            · simp [importDeploymentHistoryStep, hget, hcr, ImportState.created]
            · simp [importDeploymentHistoryStep, hget, hcr, ImportState.created]
            · simp [importDeploymentHistoryStep, hget, hcr, ImportState.created]
              omega
            · simp [importDeploymentHistoryStep, hget, hcr, ImportState.created]
            · simp only [importDeploymentHistoryStep, hget, hcr, ImportState.created]
              simpa using hlog

theorem importDeploymentTargets_fold_trace (env : Env) (tenantID : Nat) (full : Bool) (mode : RestoreMode) :
    ∀ (items : List (RawMessage DeploymentTarget)) (st : ImportState),
      (items.foldl (importDeploymentTargetsStep env tenantID full mode) st).result.EntityType
        = st.result.EntityType ∧
      (items.foldl (importDeploymentTargetsStep env tenantID full mode) st).result.Total = st.result.Total ∧
      (items.foldl (importDeploymentTargetsStep env tenantID full mode) st).result.Created
          + (items.foldl (importDeploymentTargetsStep env tenantID full mode) st).result.Updated
          + (items.foldl (importDeploymentTargetsStep env tenantID full mode) st).result.Skipped
          + (items.foldl (importDeploymentTargetsStep env tenantID full mode) st).result.Failed
        = st.result.Created + st.result.Updated + st.result.Skipped + st.result.Failed
          + items.length ∧
      (items.foldl (importDeploymentTargetsStep env tenantID full mode) st).warnings.length + st.result.Failed
        = st.warnings.length
          + (items.foldl (importDeploymentTargetsStep env tenantID full mode) st).result.Failed ∧
      (∃ l, (items.foldl (importDeploymentTargetsStep env tenantID full mode) st).store.log
          = st.store.log ++ l ∧
        ∀ op ∈ l, op.kind = EntityKind.deploymentTargets) := by
  intro items
  induction items with
  | nil =>
    intro st
    exact ⟨rfl, rfl, rfl, rfl, [], by simp, fun _ h => nomatch h⟩
  | cons raw rest ih =>
    intro st
    obtain ⟨a1, a2, a3, a4, l1, a5, a6⟩ := importDeploymentTargetsStep_trace env tenantID full mode st raw
    obtain ⟨b1, b2, b3, b4, l2, b5, b6⟩ := ih (importDeploymentTargetsStep env tenantID full mode st raw)
    rw [List.foldl_cons]
    refine ⟨b1.trans a1, b2.trans a2, ?_, ?_, l1 ++ l2, ?_, ?_⟩
    · rw [b3, a3, List.length_cons]
      omega
    · omega
    · rw [b5, a5, List.append_assoc]
    · intro op hop
      rcases List.mem_append.mp hop with h | h
      · exact a6 op h
      · exact b6 op h

/-- The result of the `deploymentTargets` handler: its total is the number of items, the
four outcome counters add up to it, there is one warning per failed record,
and the handler appends to the trace only accesses of kind `deploymentTargets`. -/
theorem importDeploymentTargets_trace (env : Env) (s : Store) (items : List (RawMessage DeploymentTarget))
    (tenantID : Nat) (full : Bool) (mode : RestoreMode) :
    (importDeploymentTargets env s items tenantID full mode).result.EntityType = "deploymentTargets" ∧
    (importDeploymentTargets env s items tenantID full mode).result.Total = items.length ∧
    (importDeploymentTargets env s items tenantID full mode).result.Created
        + (importDeploymentTargets env s items tenantID full mode).result.Updated
        + (importDeploymentTargets env s items tenantID full mode).result.Skipped
        + (importDeploymentTargets env s items tenantID full mode).result.Failed = items.length ∧
    (importDeploymentTargets env s items tenantID full mode).warnings.length
      = (importDeploymentTargets env s items tenantID full mode).result.Failed ∧
    (∃ l, (importDeploymentTargets env s items tenantID full mode).store.log = s.log ++ l ∧
      ∀ op ∈ l, op.kind = EntityKind.deploymentTargets) := by
  obtain ⟨h1, h2, h3, h4, h5⟩ := importDeploymentTargets_fold_trace env tenantID full mode items
    (ImportState.init "deploymentTargets" items.length s)
  unfold importDeploymentTargets
  refine ⟨h1, h2, ?_, ?_, h5⟩
  · rw [h3]
    simp [ImportState.init]
  · simpa [ImportState.init] using h4

theorem importTargetConfigurations_fold_trace (env : Env) (tenantID : Nat) (full : Bool) (mode : RestoreMode) :
    ∀ (items : List (RawMessage TargetConfiguration)) (st : ImportState),
      (items.foldl (importTargetConfigurationsStep env tenantID full mode) st).result.EntityType
        = st.result.EntityType ∧
      (items.foldl (importTargetConfigurationsStep env tenantID full mode) st).result.Total = st.result.Total ∧
      (items.foldl (importTargetConfigurationsStep env tenantID full mode) st).result.Created
          + (items.foldl (importTargetConfigurationsStep env tenantID full mode) st).result.Updated
          + (items.foldl (importTargetConfigurationsStep env tenantID full mode) st).result.Skipped
          + (items.foldl (importTargetConfigurationsStep env tenantID full mode) st).result.Failed
        = st.result.Created + st.result.Updated + st.result.Skipped + st.result.Failed
          + items.length ∧
      (items.foldl (importTargetConfigurationsStep env tenantID full mode) st).warnings.length + st.result.Failed
        = st.warnings.length
          + (items.foldl (importTargetConfigurationsStep env tenantID full mode) st).result.Failed ∧
      (∃ l, (items.foldl (importTargetConfigurationsStep env tenantID full mode) st).store.log
          = st.store.log ++ l ∧
        ∀ op ∈ l, op.kind = EntityKind.targetConfigurations) := by
  intro items
  induction items with
  | nil =>
    intro st
    exact ⟨rfl, rfl, rfl, rfl, [], by simp, fun _ h => nomatch h⟩
  | cons raw rest ih =>
    intro st
    obtain ⟨a1, a2, a3, a4, l1, a5, a6⟩ := importTargetConfigurationsStep_trace env tenantID full mode st raw
    obtain ⟨b1, b2, b3, b4, l2, b5, b6⟩ := ih (importTargetConfigurationsStep env tenantID full mode st raw)
    rw [List.foldl_cons]
    refine ⟨b1.trans a1, b2.trans a2, ?_, ?_, l1 ++ l2, ?_, ?_⟩
    · rw [b3, a3, List.length_cons]
      omega
    · omega
    · rw [b5, a5, List.append_assoc]
    · intro op hop
      rcases List.mem_append.mp hop with h | h
      · exact a6 op h
      · exact b6 op h

/-- The result of the `targetConfigurations` handler: its total is the number of items, the
four outcome counters add up to it, there is one warning per failed record,
and the handler appends to the trace only accesses of kind `targetConfigurations`. -/
theorem importTargetConfigurations_trace (env : Env) (s : Store) (items : List (RawMessage TargetConfiguration))
    (tenantID : Nat) (full : Bool) (mode : RestoreMode) :
    (importTargetConfigurations env s items tenantID full mode).result.EntityType = "targetConfigurations" ∧
    (importTargetConfigurations env s items tenantID full mode).result.Total = items.length ∧
    (importTargetConfigurations env s items tenantID full mode).result.Created
        + (importTargetConfigurations env s items tenantID full mode).result.Updated
        + (importTargetConfigurations env s items tenantID full mode).result.Skipped
        + (importTargetConfigurations env s items tenantID full mode).result.Failed = items.length ∧
    (importTargetConfigurations env s items tenantID full mode).warnings.length
      = (importTargetConfigurations env s items tenantID full mode).result.Failed ∧
    (∃ l, (importTargetConfigurations env s items tenantID full mode).store.log = s.log ++ l ∧
      ∀ op ∈ l, op.kind = EntityKind.targetConfigurations) := by
  obtain ⟨h1, h2, h3, h4, h5⟩ := importTargetConfigurations_fold_trace env tenantID full mode items
    (ImportState.init "targetConfigurations" items.length s)
  unfold importTargetConfigurations
  refine ⟨h1, h2, ?_, ?_, h5⟩
  · rw [h3]
    simp [ImportState.init]
  · simpa [ImportState.init] using h4

theorem importDeploymentJobs_fold_trace (env : Env) (tenantID : Nat) (full : Bool) (mode : RestoreMode) :
    ∀ (items : List (RawMessage DeploymentJob)) (st : ImportState),
      (items.foldl (importDeploymentJobsStep env tenantID full mode) st).result.EntityType
        = st.result.EntityType ∧
      (items.foldl (importDeploymentJobsStep env tenantID full mode) st).result.Total = st.result.Total ∧
      (items.foldl (importDeploymentJobsStep env tenantID full mode) st).result.Created
          + (items.foldl (importDeploymentJobsStep env tenantID full mode) st).result.Updated
          + (items.foldl (importDeploymentJobsStep env tenantID full mode) st).result.Skipped
          + (items.foldl (importDeploymentJobsStep env tenantID full mode) st).result.Failed
        = st.result.Created + st.result.Updated + st.result.Skipped + st.result.Failed
          + items.length ∧
      (items.foldl (importDeploymentJobsStep env tenantID full mode) st).warnings.length + st.result.Failed
        = st.warnings.length
          + (items.foldl (importDeploymentJobsStep env tenantID full mode) st).result.Failed ∧
      (∃ l, (items.foldl (importDeploymentJobsStep env tenantID full mode) st).store.log
          = st.store.log ++ l ∧
        ∀ op ∈ l, op.kind = EntityKind.deploymentJobs) := by
  intro items
  induction items with
  | nil =>
    intro st
    exact ⟨rfl, rfl, rfl, rfl, [], by simp, fun _ h => nomatch h⟩
  | cons raw rest ih =>
    intro st
    obtain ⟨a1, a2, a3, a4, l1, a5, a6⟩ := importDeploymentJobsStep_trace env tenantID full mode st raw
    obtain ⟨b1, b2, b3, b4, l2, b5, b6⟩ := ih (importDeploymentJobsStep env tenantID full mode st raw)
    rw [List.foldl_cons]
    refine ⟨b1.trans a1, b2.trans a2, ?_, ?_, l1 ++ l2, ?_, ?_⟩
    · rw [b3, a3, List.length_cons]
      omega
    · omega
    · rw [b5, a5, List.append_assoc]
    · intro op hop
      rcases List.mem_append.mp hop with h | h
      · exact a6 op h
      · exact b6 op h

/-- The result of the `deploymentJobs` handler: its total is the number of items, the
four outcome counters add up to it, there is one warning per failed record,
and the handler appends to the trace only accesses of kind `deploymentJobs`. -/
theorem importDeploymentJobs_trace (env : Env) (s : Store) (items : List (RawMessage DeploymentJob))
    (tenantID : Nat) (full : Bool) (mode : RestoreMode) :
    (importDeploymentJobs env s items tenantID full mode).result.EntityType = "deploymentJobs" ∧
    (importDeploymentJobs env s items tenantID full mode).result.Total = items.length ∧
    (importDeploymentJobs env s items tenantID full mode).result.Created
        + (importDeploymentJobs env s items tenantID full mode).result.Updated
        + (importDeploymentJobs env s items tenantID full mode).result.Skipped
        + (importDeploymentJobs env s items tenantID full mode).result.Failed = items.length ∧
    (importDeploymentJobs env s items tenantID full mode).warnings.length
      = (importDeploymentJobs env s items tenantID full mode).result.Failed ∧
    (∃ l, (importDeploymentJobs env s items tenantID full mode).store.log = s.log ++ l ∧
      ∀ op ∈ l, op.kind = EntityKind.deploymentJobs) := by
  obtain ⟨h1, h2, h3, h4, h5⟩ := importDeploymentJobs_fold_trace env tenantID full mode items
    (ImportState.init "deploymentJobs" items.length s)
  unfold importDeploymentJobs
  refine ⟨h1, h2, ?_, ?_, h5⟩
  · rw [h3]
    simp [ImportState.init]
  · simpa [ImportState.init] using h4

theorem importDeploymentHistory_fold_trace (env : Env) (tenantID : Nat) (full : Bool) (mode : RestoreMode) :
    ∀ (items : List (RawMessage DeploymentHistory)) (st : ImportState),
      (items.foldl (importDeploymentHistoryStep env tenantID full mode) st).result.EntityType
        = st.result.EntityType ∧
      (items.foldl (importDeploymentHistoryStep env tenantID full mode) st).result.Total = st.result.Total ∧
      (items.foldl (importDeploymentHistoryStep env tenantID full mode) st).result.Created
          + (items.foldl (importDeploymentHistoryStep env tenantID full mode) st).result.Updated
          + (items.foldl (importDeploymentHistoryStep env tenantID full mode) st).result.Skipped
          + (items.foldl (importDeploymentHistoryStep env tenantID full mode) st).result.Failed
        = st.result.Created + st.result.Updated + st.result.Skipped + st.result.Failed
          + items.length ∧
      (items.foldl (importDeploymentHistoryStep env tenantID full mode) st).warnings.length + st.result.Failed
        = st.warnings.length
          + (items.foldl (importDeploymentHistoryStep env tenantID full mode) st).result.Failed ∧
      (∃ l, (items.foldl (importDeploymentHistoryStep env tenantID full mode) st).store.log
          = st.store.log ++ l ∧
        ∀ op ∈ l, op.kind = EntityKind.deploymentHistory) := by
  intro items
  induction items with
  | nil =>
    intro st
    exact ⟨rfl, rfl, rfl, rfl, [], by simp, fun _ h => nomatch h⟩
  | cons raw rest ih =>
    intro st
    obtain ⟨a1, a2, a3, a4, l1, a5, a6⟩ := importDeploymentHistoryStep_trace env tenantID full mode st raw
    obtain ⟨b1, b2, b3, b4, l2, b5, b6⟩ := ih (importDeploymentHistoryStep env tenantID full mode st raw)
    rw [List.foldl_cons]
    refine ⟨b1.trans a1, b2.trans a2, ?_, ?_, l1 ++ l2, ?_, ?_⟩
    · rw [b3, a3, List.length_cons]
      omega
    · omega
    · rw [b5, a5, List.append_assoc]
    · intro op hop
      rcases List.mem_append.mp hop with h | h
      · exact a6 op h
      · exact b6 op h

/-- The result of the `deploymentHistory` handler: its total is the number of items, the
four outcome counters add up to it, there is one warning per failed record,
and the handler appends to the trace only accesses of kind `deploymentHistory`. -/
theorem importDeploymentHistory_trace (env : Env) (s : Store) (items : List (RawMessage DeploymentHistory))
    (tenantID : Nat) (full : Bool) (mode : RestoreMode) :
    (importDeploymentHistory env s items tenantID full mode).result.EntityType = "deploymentHistory" ∧
    (importDeploymentHistory env s items tenantID full mode).result.Total = items.length ∧
    (importDeploymentHistory env s items tenantID full mode).result.Created
        + (importDeploymentHistory env s items tenantID full mode).result.Updated
        + (importDeploymentHistory env s items tenantID full mode).result.Skipped
        + (importDeploymentHistory env s items tenantID full mode).result.Failed = items.length ∧
    (importDeploymentHistory env s items tenantID full mode).warnings.length
      = (importDeploymentHistory env s items tenantID full mode).result.Failed ∧
    (∃ l, (importDeploymentHistory env s items tenantID full mode).store.log = s.log ++ l ∧
      ∀ op ∈ l, op.kind = EntityKind.deploymentHistory) := by
  obtain ⟨h1, h2, h3, h4, h5⟩ := importDeploymentHistory_fold_trace env tenantID full mode items
    (ImportState.init "deploymentHistory" items.length s)
  unfold importDeploymentHistory
  refine ⟨h1, h2, ?_, ?_, h5⟩
  · rw [h3]
    simp [ImportState.init]
  · simpa [ImportState.init] using h4

/-! ## ImportBackup as four stages -/

theorem importDeploymentTargets_empty (env : Env) (s : Store) (items : List (RawMessage DeploymentTarget))
    (tenantID : Nat) (full : Bool) (mode : RestoreMode) (h : items.length = 0) :
    (importDeploymentTargets env s items tenantID full mode).warnings = [] ∧
    (importDeploymentTargets env s items tenantID full mode).store = s := by
  have hnil : items = [] := List.length_eq_zero.mp h
  subst hnil
  exact ⟨rfl, rfl⟩

theorem importTargetConfigurations_empty (env : Env) (s : Store) (items : List (RawMessage TargetConfiguration))
    (tenantID : Nat) (full : Bool) (mode : RestoreMode) (h : items.length = 0) :
    (importTargetConfigurations env s items tenantID full mode).warnings = [] ∧
    (importTargetConfigurations env s items tenantID full mode).store = s := by
  have hnil : items = [] := List.length_eq_zero.mp h
  subst hnil
  exact ⟨rfl, rfl⟩

theorem importDeploymentJobs_empty (env : Env) (s : Store) (items : List (RawMessage DeploymentJob))
    (tenantID : Nat) (full : Bool) (mode : RestoreMode) (h : items.length = 0) :
    (importDeploymentJobs env s items tenantID full mode).warnings = [] ∧
    (importDeploymentJobs env s items tenantID full mode).store = s := by
  have hnil : items = [] := List.length_eq_zero.mp h
  subst hnil
  exact ⟨rfl, rfl⟩

theorem importDeploymentHistory_empty (env : Env) (s : Store) (items : List (RawMessage DeploymentHistory))
    (tenantID : Nat) (full : Bool) (mode : RestoreMode) (h : items.length = 0) :
    (importDeploymentHistory env s items tenantID full mode).warnings = [] ∧
    (importDeploymentHistory env s items tenantID full mode).store = s := by
  have hnil : items = [] := List.length_eq_zero.mp h
  subst hnil
  exact ⟨rfl, rfl⟩

theorem runImportFunc_stage (acc : ImportAcc) (imp : ImportFunc)
    (h0 : imp.count = 0 →
      (imp.fn acc.store).warnings = [] ∧ (imp.fn acc.store).store = acc.store) :
    runImportFunc acc imp =
      { results := acc.results ++ resultEntry imp.count (imp.fn acc.store),
        warnings := acc.warnings ++ (imp.fn acc.store).warnings,
        store := (imp.fn acc.store).store } := by
  unfold runImportFunc resultEntry
  by_cases hc : imp.count = 0
  · obtain ⟨hw, hs⟩ := h0 hc
    simp [hc, hw, hs]
  · simp [hc]

/-- A request that passes the structural checks runs the four handlers one
after the other, each from the store the previous one left; the results are
the entries of the kinds with items, the warnings are the warnings of the four
handlers in that order, and the store is the one the last handler leaves. -/
theorem ImportBackup_stages (env : Env) (caller : Caller) (backup : backupData)
    (mode : RestoreMode) (s : Store) (hm : backup.Module = "deployer")
    (hv : backup.Version = "1.0")
    (hauth : backup.FullBackup = true → caller.IsPlatformAdmin = true) :
    ImportBackup env caller ⟨.ok backup, mode⟩ s =
      (.ok (ImportBackupResponse.mk true
        (resultEntry backup.Data.DeploymentTargets.length
            (afterTargets env backup (importTenant caller backup) mode s)
          ++ resultEntry backup.Data.TargetConfigurations.length
            (afterConfigurations env backup (importTenant caller backup) mode s)
          ++ resultEntry backup.Data.DeploymentJobs.length
            (afterJobs env backup (importTenant caller backup) mode s)
          ++ resultEntry backup.Data.DeploymentHistory.length
            (afterHistory env backup (importTenant caller backup) mode s))
        ((afterTargets env backup (importTenant caller backup) mode s).warnings
          ++ (afterConfigurations env backup (importTenant caller backup) mode s).warnings
          ++ (afterJobs env backup (importTenant caller backup) mode s).warnings
          ++ (afterHistory env backup (importTenant caller backup) mode s).warnings)),
       (afterHistory env backup (importTenant caller backup) mode s).store) := by
  rw [ImportBackup_passes env caller backup mode s hm hv hauth]
  simp only [importFuncs, List.foldl]
  rw [runImportFunc_stage _ _ (fun h => importDeploymentHistory_empty env _ _ _ _ _ h)]
  rw [runImportFunc_stage _ _ (fun h => importDeploymentJobs_empty env _ _ _ _ _ h)]
  rw [runImportFunc_stage _ _ (fun h => importTargetConfigurations_empty env _ _ _ _ _ h)]
  rw [runImportFunc_stage _ _ (fun h => importDeploymentTargets_empty env _ _ _ _ _ h)]
  simp [afterTargets, afterConfigurations, afterJobs, afterHistory, List.append_assoc]

theorem ImportBackup_ok_inv (env : Env) (caller : Caller) (req : ImportBackupRequest)
    (s : Store) (resp : ImportBackupResponse)
    (h : (ImportBackup env caller req s).1 = .ok resp) :
    ∃ backup, req = ⟨.ok backup, req.Mode⟩ ∧ backup.Module = "deployer" ∧
      backup.Version = "1.0" ∧ (backup.FullBackup = true → caller.IsPlatformAdmin = true) := by
  obtain ⟨d, m⟩ := req
  cases d with
  | error err => simp [ImportBackup] at h
  | ok b =>
    refine ⟨b, rfl, ?_, ?_, ?_⟩
    · by_contra hm
      have hm2 : ¬ b.Module = backupModule := hm
      simp [ImportBackup, hm2] at h
    · by_contra hv
      have hv2 : ¬ b.Version = backupVersion := hv
      by_cases hm : b.Module = backupModule
      · simp [ImportBackup, hm, hv2] at h
      · simp [ImportBackup, hm] at h
    · intro hf
      by_contra ha
      have ha2 : caller.IsPlatformAdmin = false := by simpa using ha
      by_cases hm : b.Module = backupModule
      · by_cases hv : b.Version = backupVersion
        · simp [ImportBackup, hm, hv, hf, ha2] at h
        · simp [ImportBackup, hm, hv] at h
      · simp [ImportBackup, hm] at h

/-- The tables each stage works on: a handler only touches the table of its own
kind, so every table of the final store is the one its own handler left, and
every handler starts from the initial table of its kind. -/
theorem stages_tables (env : Env) (backup : backupData) (tenantID : Nat) (mode : RestoreMode)
    (s : Store) :
    (afterHistory env backup tenantID mode s).store.targets
      = (afterTargets env backup tenantID mode s).store.targets ∧
    (afterHistory env backup tenantID mode s).store.configs
      = (afterConfigurations env backup tenantID mode s).store.configs ∧
    (afterHistory env backup tenantID mode s).store.jobs
      = (afterJobs env backup tenantID mode s).store.jobs ∧
    (afterTargets env backup tenantID mode s).store.configs = s.configs ∧
    (afterConfigurations env backup tenantID mode s).store.jobs = s.jobs ∧
    (afterJobs env backup tenantID mode s).store.history = s.history := by
  obtain ⟨t1, t2, t3⟩ := importDeploymentTargets_frame env s backup.Data.DeploymentTargets
    tenantID backup.FullBackup mode
  obtain ⟨c1, c2, c3⟩ := importTargetConfigurations_frame env
    (afterTargets env backup tenantID mode s).store backup.Data.TargetConfigurations
    tenantID backup.FullBackup mode
  obtain ⟨j1, j2, j3⟩ := importDeploymentJobs_frame env
    (afterConfigurations env backup tenantID mode s).store backup.Data.DeploymentJobs
    tenantID backup.FullBackup mode
  obtain ⟨h1, h2, h3⟩ := importDeploymentHistory_frame env
    (afterJobs env backup tenantID mode s).store backup.Data.DeploymentHistory
    tenantID backup.FullBackup mode
  refine ⟨?_, ?_, ?_, ?_, ?_, ?_⟩
  · exact h1.trans (j1.trans c1)
  · exact h2.trans j2
  · exact h3
  · exact t1
  · exact c2.trans t2
  · exact j3.trans (c3.trans t3)

theorem resultEntry_failed (count : Nat) (st : ImportState)
    (hw : st.warnings.length = st.result.Failed) (h0 : count = 0 → st.warnings = []) :
    ((resultEntry count st).map (fun r => r.Failed)).sum = st.warnings.length := by
  unfold resultEntry
  by_cases hc : count = 0
  · simp [hc, h0 hc]
  · simp [hc, hw]

/-! ## Import: the counters of every handler -/

/-- C14. For every entity kind, every list of raw items, every merge mode,
every start store and every store behaviour, the result of the kind's handler
has total = number of items = created + updated + skipped + failed, and the
handler returns as many warnings as it counts failed records; consequently the
flat warning list of every response of `ImportBackup` is as long as the sum of
failed over its results. -/
theorem import_handlers_counters (env : Env) (s : Store) (tenantID : Nat) (full : Bool)
    (mode : RestoreMode) :
    (∀ items : List (RawMessage DeploymentTarget),
      (importDeploymentTargets env s items tenantID full mode).result.Total = items.length ∧
      (importDeploymentTargets env s items tenantID full mode).result.Created
          + (importDeploymentTargets env s items tenantID full mode).result.Updated
          + (importDeploymentTargets env s items tenantID full mode).result.Skipped
          + (importDeploymentTargets env s items tenantID full mode).result.Failed = items.length ∧
      (importDeploymentTargets env s items tenantID full mode).warnings.length
        = (importDeploymentTargets env s items tenantID full mode).result.Failed) ∧
    (∀ items : List (RawMessage TargetConfiguration),
      (importTargetConfigurations env s items tenantID full mode).result.Total = items.length ∧
      (importTargetConfigurations env s items tenantID full mode).result.Created
          + (importTargetConfigurations env s items tenantID full mode).result.Updated
          + (importTargetConfigurations env s items tenantID full mode).result.Skipped
          + (importTargetConfigurations env s items tenantID full mode).result.Failed = items.length ∧
      (importTargetConfigurations env s items tenantID full mode).warnings.length
        = (importTargetConfigurations env s items tenantID full mode).result.Failed) ∧
    (∀ items : List (RawMessage DeploymentJob),
      (importDeploymentJobs env s items tenantID full mode).result.Total = items.length ∧
      (importDeploymentJobs env s items tenantID full mode).result.Created
          + (importDeploymentJobs env s items tenantID full mode).result.Updated
          + (importDeploymentJobs env s items tenantID full mode).result.Skipped
          + (importDeploymentJobs env s items tenantID full mode).result.Failed = items.length ∧
      (importDeploymentJobs env s items tenantID full mode).warnings.length
        = (importDeploymentJobs env s items tenantID full mode).result.Failed) ∧
    (∀ items : List (RawMessage DeploymentHistory),
      (importDeploymentHistory env s items tenantID full mode).result.Total = items.length ∧
      (importDeploymentHistory env s items tenantID full mode).result.Created
          + (importDeploymentHistory env s items tenantID full mode).result.Updated
          + (importDeploymentHistory env s items tenantID full mode).result.Skipped
          + (importDeploymentHistory env s items tenantID full mode).result.Failed = items.length ∧
      (importDeploymentHistory env s items tenantID full mode).warnings.length
        = (importDeploymentHistory env s items tenantID full mode).result.Failed) ∧
    (∀ caller req resp, (ImportBackup env caller req s).1 = .ok resp →
      resp.Warnings.length = (resp.Results.map (fun r => r.Failed)).sum) := by
  refine ⟨?_, ?_, ?_, ?_, ?_⟩
  · intro items
    obtain ⟨_, h2, h3, h4, _⟩ := importDeploymentTargets_trace env s items tenantID full mode
    exact ⟨h2, h3, h4⟩
  · intro items
    obtain ⟨_, h2, h3, h4, _⟩ := importTargetConfigurations_trace env s items tenantID full mode
    exact ⟨h2, h3, h4⟩
  · intro items
    obtain ⟨_, h2, h3, h4, _⟩ := importDeploymentJobs_trace env s items tenantID full mode
    exact ⟨h2, h3, h4⟩
  · intro items
    obtain ⟨_, h2, h3, h4, _⟩ := importDeploymentHistory_trace env s items tenantID full mode
    exact ⟨h2, h3, h4⟩
  · intro caller req resp h
    obtain ⟨b, hreq, hm, hv, hauth⟩ := ImportBackup_ok_inv env caller req s resp h
    rw [hreq, ImportBackup_stages env caller b req.Mode s hm hv hauth] at h
    have hr := Except.ok.inj h
    rw [← hr]
    simp only [List.length_append, List.map_append, List.sum_append, afterTargets,
      afterConfigurations, afterJobs, afterHistory]
    rw [resultEntry_failed _ _
        (importDeploymentTargets_trace env _ _ _ _ _).2.2.2.1
        (fun h0 => (importDeploymentTargets_empty env _ _ _ _ _ h0).1),
      resultEntry_failed _ _
        (importTargetConfigurations_trace env _ _ _ _ _).2.2.2.1
        (fun h0 => (importTargetConfigurations_empty env _ _ _ _ _ h0).1),
      resultEntry_failed _ _
        (importDeploymentJobs_trace env _ _ _ _ _).2.2.2.1
        (fun h0 => (importDeploymentJobs_empty env _ _ _ _ _ h0).1),
      resultEntry_failed _ _
        (importDeploymentHistory_trace env _ _ _ _ _).2.2.2.1
        (fun h0 => (importDeploymentHistory_empty env _ _ _ _ _ h0).1)]

theorem resultEntry_names (count : Nat) (st : ImportState) (name : String)
    (hn : st.result.EntityType = name) (ht : st.result.Total = count) :
    (resultEntry count st).map (fun r => r.EntityType) = (if count = 0 then [] else [name]) ∧
    (resultEntry count st).map (fun r => r.Total) = (if count = 0 then [] else [count]) := by
  unfold resultEntry
  by_cases hc : count = 0
  · simp [hc]
  · simp [hc, hn, ht]

/-! ## Import: the order of the entity kinds -/

/-- C13. For every envelope that passes the structural checks, `ImportBackup`
runs the kinds in the order deploymentTargets, targetConfigurations,
deploymentJobs, deploymentHistory: the trace it appends to the store is four
consecutive blocks, one per kind in that order, each holding accesses of its
kind only; the results hold exactly one entry, carrying the kind's name and its
number of items, for each kind whose collection is non-empty, in that same
order; the warnings are those of the four handlers in that order; and a kind
whose collection is empty contributes no result entry, no warning, no store
access, and leaves its table as it was. -/
theorem ImportBackup_kind_order (env : Env) (caller : Caller) (backup : backupData)
    (mode : RestoreMode) (s : Store) (hm : backup.Module = "deployer")
    (hv : backup.Version = "1.0")
    (hauth : backup.FullBackup = true → caller.IsPlatformAdmin = true) :
    ∃ resp, (ImportBackup env caller ⟨.ok backup, mode⟩ s).1 = .ok resp ∧
      resp.Results.map (fun r => r.EntityType)
        = (if backup.Data.DeploymentTargets.length = 0 then [] else ["deploymentTargets"])
          ++ (if backup.Data.TargetConfigurations.length = 0 then []
              else ["targetConfigurations"])
          ++ (if backup.Data.DeploymentJobs.length = 0 then [] else ["deploymentJobs"])
          ++ (if backup.Data.DeploymentHistory.length = 0 then []
              else ["deploymentHistory"]) ∧
      resp.Results.map (fun r => r.Total)
        = (if backup.Data.DeploymentTargets.length = 0 then []
            else [backup.Data.DeploymentTargets.length])
          ++ (if backup.Data.TargetConfigurations.length = 0 then []
              else [backup.Data.TargetConfigurations.length])
          ++ (if backup.Data.DeploymentJobs.length = 0 then []
              else [backup.Data.DeploymentJobs.length])
          ++ (if backup.Data.DeploymentHistory.length = 0 then []
              else [backup.Data.DeploymentHistory.length]) ∧
      resp.Warnings
        = (afterTargets env backup (importTenant caller backup) mode s).warnings
          ++ (afterConfigurations env backup (importTenant caller backup) mode s).warnings
          ++ (afterJobs env backup (importTenant caller backup) mode s).warnings
          ++ (afterHistory env backup (importTenant caller backup) mode s).warnings ∧
      (∃ lt lc lj lh,
        (ImportBackup env caller ⟨.ok backup, mode⟩ s).2.log = s.log ++ lt ++ lc ++ lj ++ lh ∧
        (∀ op ∈ lt, op.kind = EntityKind.deploymentTargets) ∧
        (∀ op ∈ lc, op.kind = EntityKind.targetConfigurations) ∧
        (∀ op ∈ lj, op.kind = EntityKind.deploymentJobs) ∧
        (∀ op ∈ lh, op.kind = EntityKind.deploymentHistory) ∧
        (backup.Data.DeploymentTargets.length = 0 → lt = []) ∧
        (backup.Data.TargetConfigurations.length = 0 → lc = []) ∧
        (backup.Data.DeploymentJobs.length = 0 → lj = []) ∧
        (backup.Data.DeploymentHistory.length = 0 → lh = [])) ∧
      (backup.Data.DeploymentTargets.length = 0 →
        (afterTargets env backup (importTenant caller backup) mode s).warnings = [] ∧
        (ImportBackup env caller ⟨.ok backup, mode⟩ s).2.targets = s.targets) ∧
      (backup.Data.TargetConfigurations.length = 0 →
        (afterConfigurations env backup (importTenant caller backup) mode s).warnings = [] ∧
        (ImportBackup env caller ⟨.ok backup, mode⟩ s).2.configs = s.configs) ∧
      (backup.Data.DeploymentJobs.length = 0 →
        (afterJobs env backup (importTenant caller backup) mode s).warnings = [] ∧
        (ImportBackup env caller ⟨.ok backup, mode⟩ s).2.jobs = s.jobs) ∧
      (backup.Data.DeploymentHistory.length = 0 →
        (afterHistory env backup (importTenant caller backup) mode s).warnings = [] ∧
        (ImportBackup env caller ⟨.ok backup, mode⟩ s).2.history = s.history) := by
  rw [ImportBackup_stages env caller backup mode s hm hv hauth]
  obtain ⟨g1, g2, g3, g4, g5, g6⟩ := stages_tables env backup (importTenant caller backup) mode s
  obtain ⟨tn, tt, _, _, lt, tl, tk⟩ := importDeploymentTargets_trace env s
    backup.Data.DeploymentTargets (importTenant caller backup) backup.FullBackup mode
  obtain ⟨cn, ct, _, _, lc, cl, ck⟩ := importTargetConfigurations_trace env
    (afterTargets env backup (importTenant caller backup) mode s).store
    backup.Data.TargetConfigurations (importTenant caller backup) backup.FullBackup mode
  obtain ⟨jn, jt, _, _, lj, jl, jk⟩ := importDeploymentJobs_trace env
    (afterConfigurations env backup (importTenant caller backup) mode s).store
    backup.Data.DeploymentJobs (importTenant caller backup) backup.FullBackup mode
  obtain ⟨hn, ht, _, _, lh, hl, hk⟩ := importDeploymentHistory_trace env
    (afterJobs env backup (importTenant caller backup) mode s).store
    backup.Data.DeploymentHistory (importTenant caller backup) backup.FullBackup mode
  have et := importDeploymentTargets_empty env s backup.Data.DeploymentTargets
    (importTenant caller backup) backup.FullBackup mode
  have ec := importTargetConfigurations_empty env
    (afterTargets env backup (importTenant caller backup) mode s).store
    backup.Data.TargetConfigurations (importTenant caller backup) backup.FullBackup mode
  have ej := importDeploymentJobs_empty env
    (afterConfigurations env backup (importTenant caller backup) mode s).store
    backup.Data.DeploymentJobs (importTenant caller backup) backup.FullBackup mode
  have eh := importDeploymentHistory_empty env
    (afterJobs env backup (importTenant caller backup) mode s).store
    backup.Data.DeploymentHistory (importTenant caller backup) backup.FullBackup mode
  refine ⟨_, rfl, ?_, ?_, rfl, ⟨lt, lc, lj, lh, ?_, tk, ck, jk, hk, ?_, ?_, ?_, ?_⟩,
    ?_, ?_, ?_, ?_⟩
  · simp only [List.map_append]
    rw [(resultEntry_names _ (afterTargets env backup (importTenant caller backup) mode s)
        _ tn tt).1,
      (resultEntry_names _ (afterConfigurations env backup (importTenant caller backup) mode s)
        _ cn ct).1,
      (resultEntry_names _ (afterJobs env backup (importTenant caller backup) mode s)
        _ jn jt).1,
      (resultEntry_names _ (afterHistory env backup (importTenant caller backup) mode s)
        _ hn ht).1]
  · simp only [List.map_append]
    rw [(resultEntry_names _ (afterTargets env backup (importTenant caller backup) mode s)
        _ tn tt).2,
      (resultEntry_names _ (afterConfigurations env backup (importTenant caller backup) mode s)
        _ cn ct).2,
      (resultEntry_names _ (afterJobs env backup (importTenant caller backup) mode s)
        _ jn jt).2,
      (resultEntry_names _ (afterHistory env backup (importTenant caller backup) mode s)
        _ hn ht).2]
  · show (afterHistory env backup (importTenant caller backup) mode s).store.log = _
    unfold afterHistory
    rw [hl]
    unfold afterJobs
    rw [jl]
    unfold afterConfigurations
    rw [cl]
    unfold afterTargets
    rw [tl]
  · intro h0
    have := (et h0).2
    rw [this] at tl
    exact (List.self_eq_append_right.mp tl)
  · intro h0
    have := (ec h0).2
    rw [this] at cl
    exact (List.self_eq_append_right.mp cl)
  · intro h0
    have := (ej h0).2
    rw [this] at jl
    exact (List.self_eq_append_right.mp jl)
  · intro h0
    have := (eh h0).2
    rw [this] at hl
    exact (List.self_eq_append_right.mp hl)
  · intro h0
    refine ⟨(et h0).1, ?_⟩
    show (afterHistory env backup (importTenant caller backup) mode s).store.targets = _
    rw [g1]
    unfold afterTargets
    rw [(et h0).2]
  · intro h0
    refine ⟨(ec h0).1, ?_⟩
    show (afterHistory env backup (importTenant caller backup) mode s).store.configs = _
    rw [g2]
    unfold afterConfigurations
    rw [(ec h0).2]
    exact g4
  · intro h0
    refine ⟨(ej h0).1, ?_⟩
    show (afterHistory env backup (importTenant caller backup) mode s).store.jobs = _
    rw [g3]
    unfold afterJobs
    rw [(ej h0).2]
    exact g5
  · intro h0
    refine ⟨(eh h0).1, ?_⟩
    show (afterHistory env backup (importTenant caller backup) mode s).store.history = _
    unfold afterHistory
    rw [(eh h0).2]
    exact g6

/-- Witness of C13: tenant 1 restores an envelope with ten target items, one
job and neither configurations nor history. -/
theorem ImportBackup_kind_order_witness :
    ∃ resp, (ImportBackup okEnv ⟨1, false⟩ ⟨.ok tenTargetBackup, .RESTORE_MODE_SKIP⟩
        twoTenantStore).1 = .ok resp ∧
      resp.Results.map (fun r => r.EntityType) = ["deploymentTargets", "deploymentJobs"] ∧
      resp.Results.map (fun r => r.Total) = [10, 1] ∧
      (ImportBackup okEnv ⟨1, false⟩ ⟨.ok tenTargetBackup, .RESTORE_MODE_SKIP⟩
        twoTenantStore).2.configs = twoTenantStore.configs := by
  obtain ⟨resp, h1, h2, h3, _, _, _, h7, _, _⟩ := ImportBackup_kind_order okEnv ⟨1, false⟩
    tenTargetBackup .RESTORE_MODE_SKIP twoTenantStore rfl rfl (fun h => nomatch h)
  exact ⟨resp, h1, h2, h3, (h7 rfl).2⟩

/-! ## Import: fresh records of the other kinds -/

theorem importTargetConfigurations_fold_fresh (env : Env) (tenantID : Nat) (full : Bool)
    (mode : RestoreMode) (hcr : ∀ n, env.createFails n = false) :
    ∀ (items : List (RawMessage TargetConfiguration)) (st : ImportState),
      ((decodedItems items).map TargetConfiguration.ID).Nodup →
      (∀ e ∈ decodedItems items, hasID TargetConfiguration.ID st.store.configs e.ID = false) →
      (items.foldl (importTargetConfigurationsStep env tenantID full mode) st).result
        = { st.result with
            Created := st.result.Created + (decodedItems items).length
            Failed := st.result.Failed + undecodableCount items } ∧
      (items.foldl (importTargetConfigurationsStep env tenantID full mode) st).warnings.length
        = st.warnings.length + undecodableCount items ∧
      (∀ x ∈ st.store.configs,
        x ∈ (items.foldl (importTargetConfigurationsStep env tenantID full mode) st).store.configs) ∧
      (∀ e ∈ decodedItems items, ∃ d,
        newTargetConfiguration d e (resolveTid tenantID full e.TenantID)
          ∈ (items.foldl (importTargetConfigurationsStep env tenantID full mode) st).store.configs) ∧
      (items.foldl (importTargetConfigurationsStep env tenantID full mode) st).store.configs.length
        = st.store.configs.length + (decodedItems items).length := by
  intro items
  induction items with
  | nil =>
    intro st _ _
    simp [decodedItems, undecodableCount]
  | cons raw rest ih =>
    intro st hnd habs
    cases raw with
    | error err =>
      have hd : decodedItems (Except.error err :: rest) = decodedItems rest := by
        simp [decodedItems]
      have hu : undecodableCount (Except.error err :: rest) = undecodableCount rest + 1 := by
        simp [undecodableCount]
      rw [hd] at hnd habs
      have hstep : importTargetConfigurationsStep env tenantID full mode st (.error err)
          = st.fail st.store ("targetConfigurations: unmarshal error: " ++ err) := rfl
      obtain ⟨h1, h2, h3, h4, h5⟩ := ih (st.fail st.store _) hnd habs
      rw [List.foldl_cons, hstep, hd, hu]
      refine ⟨?_, ?_, h3, h4, h5⟩
      · rw [h1]
        simp [ImportState.fail]
        omega
      · rw [h2]
        simp [ImportState.fail]
        omega
    | ok e =>
      have hd : decodedItems (Except.ok e :: rest) = e :: decodedItems rest := by
        simp [decodedItems]
      have hu : undecodableCount (Except.ok e :: rest) = undecodableCount rest := by
        simp [undecodableCount]
      rw [hd] at hnd habs
      have hfresh := habs e (List.mem_cons_self _ _)
      have hstep := importTargetConfigurationsStep_create env tenantID full mode st e hfresh
        (hcr _)
      rw [List.map_cons, List.nodup_cons] at hnd
      have habs2 : ∀ e2 ∈ decodedItems rest,
          hasID TargetConfiguration.ID
            (importTargetConfigurationsStep env tenantID full mode st (.ok e)).store.configs e2.ID
            = false := by
        intro e2 he2
        rw [hstep]
        simp only [ImportState.created]
        rw [hasID_append, habs e2 (List.mem_cons_of_mem _ he2)]
        have hne : e.ID ≠ e2.ID := by
          intro heq
          exact hnd.1 (heq ▸ List.mem_map_of_mem TargetConfiguration.ID he2)
        have hid : ∀ d t, (newTargetConfiguration d e t).ID = e.ID := fun _ _ => rfl
        simp [hid, hne]
      obtain ⟨h1, h2, h3, h4, h5⟩ := ih _ hnd.2 habs2
      rw [List.foldl_cons, hd, hu]
      refine ⟨?_, ?_, ?_, ?_, ?_⟩
      · rw [h1, hstep]
        simp [ImportState.created]
        omega
      · rw [h2, hstep]
        simp [ImportState.created]
      · intro x hx
        apply h3
        rw [hstep]
        simp [ImportState.created, hx]
      · intro e2 he2
        rcases List.mem_cons.mp he2 with heq | hmem
        · subst heq
          refine ⟨env.createTimeDefault (st.store.log.length + 1), h3 _ ?_⟩
          rw [hstep]
          simp [ImportState.created]
        · exact h4 e2 hmem
      · rw [h5, hstep]
        simp [ImportState.created]
        omega

theorem importDeploymentJobs_fold_fresh (env : Env) (tenantID : Nat) (full : Bool)
    (mode : RestoreMode) (hcr : ∀ n, env.createFails n = false) :
    ∀ (items : List (RawMessage DeploymentJob)) (st : ImportState),
      ((decodedItems items).map DeploymentJob.ID).Nodup →
      (∀ e ∈ decodedItems items, hasID DeploymentJob.ID st.store.jobs e.ID = false) →
      (items.foldl (importDeploymentJobsStep env tenantID full mode) st).result
        = { st.result with
            Created := st.result.Created + (decodedItems items).length
            Failed := st.result.Failed + undecodableCount items } ∧
      (items.foldl (importDeploymentJobsStep env tenantID full mode) st).warnings.length
        = st.warnings.length + undecodableCount items ∧
      (∀ x ∈ st.store.jobs,
        x ∈ (items.foldl (importDeploymentJobsStep env tenantID full mode) st).store.jobs) ∧
      (∀ e ∈ decodedItems items, ∃ d,
        newDeploymentJob d e (resolveTid tenantID full e.TenantID)
          ∈ (items.foldl (importDeploymentJobsStep env tenantID full mode) st).store.jobs) ∧
      (items.foldl (importDeploymentJobsStep env tenantID full mode) st).store.jobs.length
        = st.store.jobs.length + (decodedItems items).length := by
  intro items
  induction items with
  | nil =>
    intro st _ _
    simp [decodedItems, undecodableCount]
  | cons raw rest ih =>
    intro st hnd habs
    cases raw with
    | error err =>
      have hd : decodedItems (Except.error err :: rest) = decodedItems rest := by
        simp [decodedItems]
      have hu : undecodableCount (Except.error err :: rest) = undecodableCount rest + 1 := by
        simp [undecodableCount]
      rw [hd] at hnd habs
      have hstep : importDeploymentJobsStep env tenantID full mode st (.error err)
          = st.fail st.store ("deploymentJobs: unmarshal error: " ++ err) := rfl
      obtain ⟨h1, h2, h3, h4, h5⟩ := ih (st.fail st.store _) hnd habs
      rw [List.foldl_cons, hstep, hd, hu]
      refine ⟨?_, ?_, h3, h4, h5⟩
      · rw [h1]
        simp [ImportState.fail]
        omega
      · rw [h2]
        simp [ImportState.fail]
        omega
    | ok e =>
      have hd : decodedItems (Except.ok e :: rest) = e :: decodedItems rest := by
        simp [decodedItems]
      have hu : undecodableCount (Except.ok e :: rest) = undecodableCount rest := by
        simp [undecodableCount]
      rw [hd] at hnd habs
      have hfresh := habs e (List.mem_cons_self _ _)
      have hstep := importDeploymentJobsStep_create env tenantID full mode st e hfresh
        (hcr _)
      rw [List.map_cons, List.nodup_cons] at hnd
      have habs2 : ∀ e2 ∈ decodedItems rest,
          hasID DeploymentJob.ID
            (importDeploymentJobsStep env tenantID full mode st (.ok e)).store.jobs e2.ID
            = false := by
        intro e2 he2
        rw [hstep]
        simp only [ImportState.created]
        rw [hasID_append, habs e2 (List.mem_cons_of_mem _ he2)]
        have hne : e.ID ≠ e2.ID := by
          intro heq
          exact hnd.1 (heq ▸ List.mem_map_of_mem DeploymentJob.ID he2)
        have hid : ∀ d t, (newDeploymentJob d e t).ID = e.ID := fun _ _ => rfl
        simp [hid, hne]
      obtain ⟨h1, h2, h3, h4, h5⟩ := ih _ hnd.2 habs2
      rw [List.foldl_cons, hd, hu]
      refine ⟨?_, ?_, ?_, ?_, ?_⟩
      · rw [h1, hstep]
        simp [ImportState.created]
        omega
      · rw [h2, hstep]
        simp [ImportState.created]
      · intro x hx
        apply h3
        rw [hstep]
        simp [ImportState.created, hx]
      · intro e2 he2
        rcases List.mem_cons.mp he2 with heq | hmem
        · subst heq
          refine ⟨env.createTimeDefault (st.store.log.length + 1), h3 _ ?_⟩
          rw [hstep]
          simp [ImportState.created]
        · exact h4 e2 hmem
      · rw [h5, hstep]
        simp [ImportState.created]
        omega

theorem importDeploymentHistory_fold_fresh (env : Env) (tenantID : Nat) (full : Bool)
    (mode : RestoreMode) (hcr : ∀ n, env.createFails n = false) :
    ∀ (items : List (RawMessage DeploymentHistory)) (st : ImportState),
      ((decodedItems items).map DeploymentHistory.ID).Nodup →
      (∀ e ∈ decodedItems items, hasID DeploymentHistory.ID st.store.history e.ID = false) →
      (items.foldl (importDeploymentHistoryStep env tenantID full mode) st).result
        = { st.result with
            Created := st.result.Created + (decodedItems items).length
            Failed := st.result.Failed + undecodableCount items } ∧
      (items.foldl (importDeploymentHistoryStep env tenantID full mode) st).warnings.length
        = st.warnings.length + undecodableCount items ∧
      (∀ x ∈ st.store.history,
        x ∈ (items.foldl (importDeploymentHistoryStep env tenantID full mode) st).store.history) ∧
      (∀ e ∈ decodedItems items, ∃ d,
        newDeploymentHistory d e
          ∈ (items.foldl (importDeploymentHistoryStep env tenantID full mode) st).store.history) ∧
      (items.foldl (importDeploymentHistoryStep env tenantID full mode) st).store.history.length
        = st.store.history.length + (decodedItems items).length := by
  intro items
  induction items with
  | nil =>
    intro st _ _
    simp [decodedItems, undecodableCount]
  | cons raw rest ih =>
    intro st hnd habs
    cases raw with
    | error err =>
      have hd : decodedItems (Except.error err :: rest) = decodedItems rest := by
        simp [decodedItems]
      have hu : undecodableCount (Except.error err :: rest) = undecodableCount rest + 1 := by
        simp [undecodableCount]
      rw [hd] at hnd habs
      have hstep : importDeploymentHistoryStep env tenantID full mode st (.error err)
          = st.fail st.store ("deploymentHistory: unmarshal error: " ++ err) := rfl
      obtain ⟨h1, h2, h3, h4, h5⟩ := ih (st.fail st.store _) hnd habs
      rw [List.foldl_cons, hstep, hd, hu]
      refine ⟨?_, ?_, h3, h4, h5⟩
      · rw [h1]
        simp [ImportState.fail]
        omega
      · rw [h2]
        simp [ImportState.fail]
        omega
    | ok e =>
      have hd : decodedItems (Except.ok e :: rest) = e :: decodedItems rest := by
        simp [decodedItems]
      have hu : undecodableCount (Except.ok e :: rest) = undecodableCount rest := by
        simp [undecodableCount]
      rw [hd] at hnd habs
      have hfresh := habs e (List.mem_cons_self _ _)
      have hstep := importDeploymentHistoryStep_create env tenantID full mode st e hfresh
        (hcr _)
      rw [List.map_cons, List.nodup_cons] at hnd
      have habs2 : ∀ e2 ∈ decodedItems rest,
          hasID DeploymentHistory.ID
            (importDeploymentHistoryStep env tenantID full mode st (.ok e)).store.history e2.ID
            = false := by
        intro e2 he2
        rw [hstep]
        simp only [ImportState.created]
        rw [hasID_append, habs e2 (List.mem_cons_of_mem _ he2)]
        have hne : e.ID ≠ e2.ID := by
          intro heq
          exact hnd.1 (heq ▸ List.mem_map_of_mem DeploymentHistory.ID he2)
        have hid : ∀ d, (newDeploymentHistory d e).ID = e.ID := fun _ => rfl
        simp [hid, hne]
      obtain ⟨h1, h2, h3, h4, h5⟩ := ih _ hnd.2 habs2
      rw [List.foldl_cons, hd, hu]
      refine ⟨?_, ?_, ?_, ?_, ?_⟩
      · rw [h1, hstep]
        simp [ImportState.created]
        omega
      · rw [h2, hstep]
        simp [ImportState.created]
      · intro x hx
        apply h3
        rw [hstep]
        simp [ImportState.created, hx]
      · intro e2 he2
        rcases List.mem_cons.mp he2 with heq | hmem
        · subst heq
          refine ⟨env.createTimeDefault (st.store.log.length + 1), h3 _ ?_⟩
          rw [hstep]
          simp [ImportState.created]
        · exact h4 e2 hmem
      · rw [h5, hstep]
        simp [ImportState.created]
        omega

/-! ## Import: presence of the restored identifiers -/

theorem hasID_updateByID {α κ : Type} [DecidableEq κ] (key : α → κ) (f : α → α)
    (hf : ∀ r, key (f r) = key r) (rows : List α) (id id2 : κ) :
    hasID key (updateByID key rows id f) id2 = hasID key rows id2 := by
  rw [hasID_eq_isSome, hasID_eq_isSome, findByID_updateByID key f hf]
  cases findByID key rows id2 <;> rfl

theorem hasID_of_mem {α κ : Type} [DecidableEq κ] (key : α → κ) (rows : List α) (x : α)
    (h : x ∈ rows) : hasID key rows (key x) = true := by
  unfold hasID
  rw [List.any_eq_true]
  exact ⟨x, h, by simp⟩

theorem importDeploymentTargetsStep_hasID (env : Env) (tenantID : Nat) (full : Bool)
    (mode : RestoreMode) (st : ImportState) (raw : RawMessage DeploymentTarget) (id : String)
    (h : hasID DeploymentTarget.ID st.store.targets id = true) :
    hasID DeploymentTarget.ID (importDeploymentTargetsStep env tenantID full mode st raw).store.targets id = true := by
  obtain ⟨_, _, _, h4⟩ := importDeploymentTargetsStep_store env tenantID full mode st raw
  rcases h4 with h4 | ⟨x, h4⟩ | ⟨e, h4⟩
  · rw [h4]
    exact h
  · rw [h4, hasID_append, h]
    rfl
  · rw [h4, hasID_updateByID DeploymentTarget.ID (updateDeploymentTargetFields e) (fun _ => rfl)]
    exact h

theorem importDeploymentTargetsStep_present (env : Env) (tenantID : Nat) (full : Bool)
    (mode : RestoreMode) (st : ImportState) (e : DeploymentTarget)
    (hcr : ∀ n, env.createFails n = false) :
    hasID DeploymentTarget.ID (importDeploymentTargetsStep env tenantID full mode st (.ok e)).store.targets e.ID
      = true := by
  cases hex : hasID DeploymentTarget.ID st.store.targets e.ID with
  | true => exact importDeploymentTargetsStep_hasID env tenantID full mode st _ e.ID hex
  | false =>
    rw [importDeploymentTargetsStep_create env tenantID full mode st e hex (hcr _)]
    simp only [ImportState.created]
    rw [hasID_append]
    have hid : ∀ d, (newDeploymentTarget d e (resolveTid tenantID full e.TenantID)).ID = e.ID := fun _ => rfl
    simp [hid]

/-- After the `deploymentTargets` handler, on a store that accepts every create, every
identifier that was in the table is still there and the identifier of every
item that decodes is there. -/
theorem importDeploymentTargets_fold_present (env : Env) (tenantID : Nat) (full : Bool)
    (mode : RestoreMode) (hcr : ∀ n, env.createFails n = false) :
    ∀ (items : List (RawMessage DeploymentTarget)) (st : ImportState),
      (∀ id, hasID DeploymentTarget.ID st.store.targets id = true →
        hasID DeploymentTarget.ID (items.foldl (importDeploymentTargetsStep env tenantID full mode) st).store.targets id
          = true) ∧
      (∀ e ∈ decodedItems items,
        hasID DeploymentTarget.ID (items.foldl (importDeploymentTargetsStep env tenantID full mode) st).store.targets e.ID
          = true) := by
  intro items
  induction items with
  | nil =>
    intro st
    exact ⟨fun _ h => h, fun e he => by simp [decodedItems] at he⟩
  | cons raw rest ih =>
    intro st
    obtain ⟨h1, h2⟩ := ih (importDeploymentTargetsStep env tenantID full mode st raw)
    rw [List.foldl_cons]
    refine ⟨fun id h => h1 id (importDeploymentTargetsStep_hasID env tenantID full mode st raw id h), ?_⟩
    intro e he
    cases raw with
    | error err =>
      have hd : decodedItems (Except.error err :: rest) = decodedItems rest := by
        simp [decodedItems]
      rw [hd] at he
      exact h2 e he
    | ok e0 =>
      have hd : decodedItems (Except.ok e0 :: rest) = e0 :: decodedItems rest := by
        simp [decodedItems]
      rw [hd] at he
      rcases List.mem_cons.mp he with heq | hmem
      · subst heq
        exact h1 _ (importDeploymentTargetsStep_present env tenantID full mode st e hcr)
      · exact h2 e hmem

theorem importTargetConfigurationsStep_hasID (env : Env) (tenantID : Nat) (full : Bool)
    (mode : RestoreMode) (st : ImportState) (raw : RawMessage TargetConfiguration) (id : String)
    (h : hasID TargetConfiguration.ID st.store.configs id = true) :
    hasID TargetConfiguration.ID (importTargetConfigurationsStep env tenantID full mode st raw).store.configs id = true := by
  obtain ⟨_, _, _, h4⟩ := importTargetConfigurationsStep_store env tenantID full mode st raw
  rcases h4 with h4 | ⟨x, h4⟩ | ⟨e, h4⟩
  · rw [h4]
    exact h
  · rw [h4, hasID_append, h]
    rfl
  · rw [h4, hasID_updateByID TargetConfiguration.ID (updateTargetConfigurationFields e) (fun _ => rfl)]
    exact h

theorem importTargetConfigurationsStep_present (env : Env) (tenantID : Nat) (full : Bool)
    (mode : RestoreMode) (st : ImportState) (e : TargetConfiguration)
    (hcr : ∀ n, env.createFails n = false) :
    hasID TargetConfiguration.ID (importTargetConfigurationsStep env tenantID full mode st (.ok e)).store.configs e.ID
      = true := by
  cases hex : hasID TargetConfiguration.ID st.store.configs e.ID with
  | true => exact importTargetConfigurationsStep_hasID env tenantID full mode st _ e.ID hex
  | false =>
    rw [importTargetConfigurationsStep_create env tenantID full mode st e hex (hcr _)]
    simp only [ImportState.created]
    rw [hasID_append]
    have hid : ∀ d, (newTargetConfiguration d e (resolveTid tenantID full e.TenantID)).ID = e.ID := fun _ => rfl
    simp [hid]

/-- After the `targetConfigurations` handler, on a store that accepts every create, every
identifier that was in the table is still there and the identifier of every
item that decodes is there. -/
theorem importTargetConfigurations_fold_present (env : Env) (tenantID : Nat) (full : Bool)
    (mode : RestoreMode) (hcr : ∀ n, env.createFails n = false) :
    ∀ (items : List (RawMessage TargetConfiguration)) (st : ImportState),
      (∀ id, hasID TargetConfiguration.ID st.store.configs id = true →
        hasID TargetConfiguration.ID (items.foldl (importTargetConfigurationsStep env tenantID full mode) st).store.configs id
          = true) ∧
      (∀ e ∈ decodedItems items,
        hasID TargetConfiguration.ID (items.foldl (importTargetConfigurationsStep env tenantID full mode) st).store.configs e.ID
          = true) := by
  intro items
  induction items with
  | nil =>
    intro st
    exact ⟨fun _ h => h, fun e he => by simp [decodedItems] at he⟩
  | cons raw rest ih =>
    intro st
    obtain ⟨h1, h2⟩ := ih (importTargetConfigurationsStep env tenantID full mode st raw)
    rw [List.foldl_cons]
    refine ⟨fun id h => h1 id (importTargetConfigurationsStep_hasID env tenantID full mode st raw id h), ?_⟩
    intro e he
    cases raw with
    | error err =>
      have hd : decodedItems (Except.error err :: rest) = decodedItems rest := by
        simp [decodedItems]
      rw [hd] at he
      exact h2 e he
    | ok e0 =>
      have hd : decodedItems (Except.ok e0 :: rest) = e0 :: decodedItems rest := by
        simp [decodedItems]
      rw [hd] at he
      rcases List.mem_cons.mp he with heq | hmem
      · subst heq
        exact h1 _ (importTargetConfigurationsStep_present env tenantID full mode st e hcr)
      · exact h2 e hmem

theorem importDeploymentJobsStep_hasID (env : Env) (tenantID : Nat) (full : Bool)
    (mode : RestoreMode) (st : ImportState) (raw : RawMessage DeploymentJob) (id : String)
    (h : hasID DeploymentJob.ID st.store.jobs id = true) :
    hasID DeploymentJob.ID (importDeploymentJobsStep env tenantID full mode st raw).store.jobs id = true := by
  obtain ⟨_, _, _, h4⟩ := importDeploymentJobsStep_store env tenantID full mode st raw
  rcases h4 with h4 | ⟨x, h4⟩ | ⟨e, h4⟩
  · rw [h4]
    exact h
  · rw [h4, hasID_append, h]
    rfl
  · rw [h4, hasID_updateByID DeploymentJob.ID (updateDeploymentJobFields e) (fun _ => rfl)]
    exact h

theorem importDeploymentJobsStep_present (env : Env) (tenantID : Nat) (full : Bool)
    (mode : RestoreMode) (st : ImportState) (e : DeploymentJob)
    (hcr : ∀ n, env.createFails n = false) :
    hasID DeploymentJob.ID (importDeploymentJobsStep env tenantID full mode st (.ok e)).store.jobs e.ID
      = true := by
  cases hex : hasID DeploymentJob.ID st.store.jobs e.ID with
  | true => exact importDeploymentJobsStep_hasID env tenantID full mode st _ e.ID hex
  | false =>
    rw [importDeploymentJobsStep_create env tenantID full mode st e hex (hcr _)]
    simp only [ImportState.created]
    rw [hasID_append]
    have hid : ∀ d, (newDeploymentJob d e (resolveTid tenantID full e.TenantID)).ID = e.ID := fun _ => rfl
    simp [hid]

/-- After the `deploymentJobs` handler, on a store that accepts every create, every
identifier that was in the table is still there and the identifier of every
item that decodes is there. -/
theorem importDeploymentJobs_fold_present (env : Env) (tenantID : Nat) (full : Bool)
    (mode : RestoreMode) (hcr : ∀ n, env.createFails n = false) :
    ∀ (items : List (RawMessage DeploymentJob)) (st : ImportState),
      (∀ id, hasID DeploymentJob.ID st.store.jobs id = true →
        hasID DeploymentJob.ID (items.foldl (importDeploymentJobsStep env tenantID full mode) st).store.jobs id
          = true) ∧
      (∀ e ∈ decodedItems items,
        hasID DeploymentJob.ID (items.foldl (importDeploymentJobsStep env tenantID full mode) st).store.jobs e.ID
          = true) := by
  intro items
  induction items with
  | nil =>
    intro st
    exact ⟨fun _ h => h, fun e he => by simp [decodedItems] at he⟩
  | cons raw rest ih =>
    intro st
    obtain ⟨h1, h2⟩ := ih (importDeploymentJobsStep env tenantID full mode st raw)
    rw [List.foldl_cons]
    refine ⟨fun id h => h1 id (importDeploymentJobsStep_hasID env tenantID full mode st raw id h), ?_⟩
    intro e he
    cases raw with
    | error err =>
      have hd : decodedItems (Except.error err :: rest) = decodedItems rest := by
        simp [decodedItems]
      rw [hd] at he
      exact h2 e he
    | ok e0 =>
      have hd : decodedItems (Except.ok e0 :: rest) = e0 :: decodedItems rest := by
        simp [decodedItems]
      rw [hd] at he
      rcases List.mem_cons.mp he with heq | hmem
      · subst heq
        exact h1 _ (importDeploymentJobsStep_present env tenantID full mode st e hcr)
      · exact h2 e hmem

theorem importDeploymentHistoryStep_hasID (env : Env) (tenantID : Nat) (full : Bool)
    (mode : RestoreMode) (st : ImportState) (raw : RawMessage DeploymentHistory) (id : Int)
    (h : hasID DeploymentHistory.ID st.store.history id = true) :
    hasID DeploymentHistory.ID (importDeploymentHistoryStep env tenantID full mode st raw).store.history id = true := by
  obtain ⟨_, _, _, h4⟩ := importDeploymentHistoryStep_store env tenantID full mode st raw
  rcases h4 with h4 | ⟨x, h4⟩ | ⟨e, h4⟩
  · rw [h4]
    exact h
  · rw [h4, hasID_append, h]
    rfl
  · rw [h4, hasID_updateByID DeploymentHistory.ID (updateDeploymentHistoryFields e) (fun _ => rfl)]
    exact h

theorem importDeploymentHistoryStep_present (env : Env) (tenantID : Nat) (full : Bool)
    (mode : RestoreMode) (st : ImportState) (e : DeploymentHistory)
    (hcr : ∀ n, env.createFails n = false) :
    hasID DeploymentHistory.ID (importDeploymentHistoryStep env tenantID full mode st (.ok e)).store.history e.ID
      = true := by
  cases hex : hasID DeploymentHistory.ID st.store.history e.ID with
  | true => exact importDeploymentHistoryStep_hasID env tenantID full mode st _ e.ID hex
  | false =>
    rw [importDeploymentHistoryStep_create env tenantID full mode st e hex (hcr _)]
    simp only [ImportState.created]
    rw [hasID_append]
    have hid : ∀ d, (newDeploymentHistory d e).ID = e.ID := fun _ => rfl
    simp [hid]

/-- After the `deploymentHistory` handler, on a store that accepts every create, every
identifier that was in the table is still there and the identifier of every
item that decodes is there. -/
theorem importDeploymentHistory_fold_present (env : Env) (tenantID : Nat) (full : Bool)
    (mode : RestoreMode) (hcr : ∀ n, env.createFails n = false) :
    ∀ (items : List (RawMessage DeploymentHistory)) (st : ImportState),
      (∀ id, hasID DeploymentHistory.ID st.store.history id = true →
        hasID DeploymentHistory.ID (items.foldl (importDeploymentHistoryStep env tenantID full mode) st).store.history id
          = true) ∧
      (∀ e ∈ decodedItems items,
        hasID DeploymentHistory.ID (items.foldl (importDeploymentHistoryStep env tenantID full mode) st).store.history e.ID
          = true) := by
  intro items
  induction items with
  | nil =>
    intro st
    exact ⟨fun _ h => h, fun e he => by simp [decodedItems] at he⟩
  | cons raw rest ih =>
    intro st
    obtain ⟨h1, h2⟩ := ih (importDeploymentHistoryStep env tenantID full mode st raw)
    rw [List.foldl_cons]
    refine ⟨fun id h => h1 id (importDeploymentHistoryStep_hasID env tenantID full mode st raw id h), ?_⟩
    intro e he
    cases raw with
    | error err =>
      have hd : decodedItems (Except.error err :: rest) = decodedItems rest := by
        simp [decodedItems]
      rw [hd] at he
      exact h2 e he
    | ok e0 =>
      have hd : decodedItems (Except.ok e0 :: rest) = e0 :: decodedItems rest := by
        simp [decodedItems]
      rw [hd] at he
      rcases List.mem_cons.mp he with heq | hmem
      · subst heq
        exact h1 _ (importDeploymentHistoryStep_present env tenantID full mode st e hcr)
      · exact h2 e hmem

/-! ## Import: a second pass over records that are already there -/

/-- The `deploymentTargets` handler in skip mode, when the lookups work and the identifier
of every item that decodes is in the table: every such item is skipped, every
other item fails, and no table changes. -/
theorem importDeploymentTargets_fold_skip (env : Env) (tenantID : Nat) (full : Bool)
    (hget : ∀ n, env.getFails n = false) :
    ∀ (items : List (RawMessage DeploymentTarget)) (st : ImportState),
      (∀ e ∈ decodedItems items, hasID DeploymentTarget.ID st.store.targets e.ID = true) →
      (items.foldl (importDeploymentTargetsStep env tenantID full .RESTORE_MODE_SKIP) st).result
        = { st.result with
            Skipped := st.result.Skipped + (decodedItems items).length
            Failed := st.result.Failed + undecodableCount items } ∧
      (items.foldl (importDeploymentTargetsStep env tenantID full .RESTORE_MODE_SKIP) st).warnings.length
        = st.warnings.length + undecodableCount items ∧
      (items.foldl (importDeploymentTargetsStep env tenantID full .RESTORE_MODE_SKIP) st).store.targets
        = st.store.targets ∧
      (items.foldl (importDeploymentTargetsStep env tenantID full .RESTORE_MODE_SKIP) st).store.configs
        = st.store.configs ∧
      (items.foldl (importDeploymentTargetsStep env tenantID full .RESTORE_MODE_SKIP) st).store.jobs
        = st.store.jobs ∧
      (items.foldl (importDeploymentTargetsStep env tenantID full .RESTORE_MODE_SKIP) st).store.history
        = st.store.history := by
  intro items
  induction items with
  | nil =>
    intro st _
    simp [decodedItems, undecodableCount]
  | cons raw rest ih =>
    intro st hpres
    cases raw with
    | error err =>
      have hd : decodedItems (Except.error err :: rest) = decodedItems rest := by
        simp [decodedItems]
      have hu : undecodableCount (Except.error err :: rest) = undecodableCount rest + 1 := by
        simp [undecodableCount]
      rw [hd] at hpres
      have hstep : importDeploymentTargetsStep env tenantID full .RESTORE_MODE_SKIP st (.error err)
          = st.fail st.store ("deploymentTargets: unmarshal error: " ++ err) := rfl
      obtain ⟨h1, h2, h3, h4, h5, h6⟩ := ih (st.fail st.store _) hpres
      rw [List.foldl_cons, hstep, hd, hu]
      refine ⟨?_, ?_, h3, h4, h5, h6⟩
      · rw [h1]
        simp [ImportState.fail]
        omega
      · rw [h2]
        simp [ImportState.fail]
        omega
    | ok e =>
      have hd : decodedItems (Except.ok e :: rest) = e :: decodedItems rest := by
        simp [decodedItems]
      have hu : undecodableCount (Except.ok e :: rest) = undecodableCount rest := by
        simp [undecodableCount]
      rw [hd] at hpres
      obtain ⟨old, hold⟩ := findByID_of_hasID _ _ _ (hpres e (List.mem_cons_self _ _))
      have hstep := importDeploymentTargetsStep_skip env tenantID full st e old (hget _) hold
      obtain ⟨h1, h2, h3, h4, h5, h6⟩ := ih
        (importDeploymentTargetsStep env tenantID full .RESTORE_MODE_SKIP st (.ok e))
        (fun e2 he2 => by
          rw [hstep]
          exact hpres e2 (List.mem_cons_of_mem _ he2))
      rw [List.foldl_cons, hd, hu]
      refine ⟨?_, ?_, ?_, ?_, ?_, ?_⟩
      · rw [h1, hstep]
        simp [ImportState.skipped]
        omega
      · rw [h2, hstep]
        simp [ImportState.skipped]
      · rw [h3, hstep]
        rfl
      · rw [h4, hstep]
        rfl
      · rw [h5, hstep]
        rfl
      · rw [h6, hstep]
        rfl

/-- The `deploymentTargets` handler in overwrite mode, when the lookups work, the store
accepts every update and the identifier of every item that decodes is in the
table: every such item is updated and every other item fails. -/
theorem importDeploymentTargets_fold_overwrite (env : Env) (tenantID : Nat) (full : Bool)
    (hget : ∀ n, env.getFails n = false) (hupd : ∀ n, env.updateFails n = false) :
    ∀ (items : List (RawMessage DeploymentTarget)) (st : ImportState),
      (∀ e ∈ decodedItems items, hasID DeploymentTarget.ID st.store.targets e.ID = true) →
      (items.foldl (importDeploymentTargetsStep env tenantID full .RESTORE_MODE_OVERWRITE) st).result
        = { st.result with
            Updated := st.result.Updated + (decodedItems items).length
            Failed := st.result.Failed + undecodableCount items } ∧
      (items.foldl (importDeploymentTargetsStep env tenantID full .RESTORE_MODE_OVERWRITE) st).warnings.length
        = st.warnings.length + undecodableCount items := by
  intro items
  induction items with
  | nil =>
    intro st _
    simp [decodedItems, undecodableCount]
  | cons raw rest ih =>
    intro st hpres
    cases raw with
    | error err =>
      have hd : decodedItems (Except.error err :: rest) = decodedItems rest := by
        simp [decodedItems]
      have hu : undecodableCount (Except.error err :: rest) = undecodableCount rest + 1 := by
        simp [undecodableCount]
      rw [hd] at hpres
      have hstep : importDeploymentTargetsStep env tenantID full .RESTORE_MODE_OVERWRITE st (.error err)
          = st.fail st.store ("deploymentTargets: unmarshal error: " ++ err) := rfl
      obtain ⟨h1, h2⟩ := ih (st.fail st.store _) hpres
      rw [List.foldl_cons, hstep, hd, hu]
      refine ⟨?_, ?_⟩
      · rw [h1]
        simp [ImportState.fail]
        omega
      · rw [h2]
        simp [ImportState.fail]
        omega
    | ok e =>
      have hd : decodedItems (Except.ok e :: rest) = e :: decodedItems rest := by
        simp [decodedItems]
      have hu : undecodableCount (Except.ok e :: rest) = undecodableCount rest := by
        simp [undecodableCount]
      rw [hd] at hpres
      obtain ⟨old, hold⟩ := findByID_of_hasID _ _ _ (hpres e (List.mem_cons_self _ _))
      have hstep := importDeploymentTargetsStep_update env tenantID full st e old (hget _) hold (hupd _)
      obtain ⟨h1, h2⟩ := ih
        (importDeploymentTargetsStep env tenantID full .RESTORE_MODE_OVERWRITE st (.ok e))
        (fun e2 he2 => importDeploymentTargetsStep_hasID env tenantID full _ st _ e2.ID
          (hpres e2 (List.mem_cons_of_mem _ he2)))
      rw [List.foldl_cons, hd, hu]
      refine ⟨?_, ?_⟩
      · rw [h1, hstep]
        simp [ImportState.updated]
        omega
      · rw [h2, hstep]
        simp [ImportState.updated]

/-- The `targetConfigurations` handler in skip mode, when the lookups work and the identifier
of every item that decodes is in the table: every such item is skipped, every
other item fails, and no table changes. -/
theorem importTargetConfigurations_fold_skip (env : Env) (tenantID : Nat) (full : Bool)
    (hget : ∀ n, env.getFails n = false) :
    ∀ (items : List (RawMessage TargetConfiguration)) (st : ImportState),
      (∀ e ∈ decodedItems items, hasID TargetConfiguration.ID st.store.configs e.ID = true) →
      (items.foldl (importTargetConfigurationsStep env tenantID full .RESTORE_MODE_SKIP) st).result
        = { st.result with
            Skipped := st.result.Skipped + (decodedItems items).length
            Failed := st.result.Failed + undecodableCount items } ∧
      (items.foldl (importTargetConfigurationsStep env tenantID full .RESTORE_MODE_SKIP) st).warnings.length
        = st.warnings.length + undecodableCount items ∧
      (items.foldl (importTargetConfigurationsStep env tenantID full .RESTORE_MODE_SKIP) st).store.targets
        = st.store.targets ∧
      (items.foldl (importTargetConfigurationsStep env tenantID full .RESTORE_MODE_SKIP) st).store.configs
        = st.store.configs ∧
      (items.foldl (importTargetConfigurationsStep env tenantID full .RESTORE_MODE_SKIP) st).store.jobs
        = st.store.jobs ∧
      (items.foldl (importTargetConfigurationsStep env tenantID full .RESTORE_MODE_SKIP) st).store.history
        = st.store.history := by
  intro items
  induction items with
  | nil =>
    intro st _
    simp [decodedItems, undecodableCount]
  | cons raw rest ih =>
    intro st hpres
    cases raw with
    | error err =>
      have hd : decodedItems (Except.error err :: rest) = decodedItems rest := by
        simp [decodedItems]
      have hu : undecodableCount (Except.error err :: rest) = undecodableCount rest + 1 := by
        simp [undecodableCount]
      rw [hd] at hpres
      have hstep : importTargetConfigurationsStep env tenantID full .RESTORE_MODE_SKIP st (.error err)
          = st.fail st.store ("targetConfigurations: unmarshal error: " ++ err) := rfl
      obtain ⟨h1, h2, h3, h4, h5, h6⟩ := ih (st.fail st.store _) hpres
      rw [List.foldl_cons, hstep, hd, hu]
      refine ⟨?_, ?_, h3, h4, h5, h6⟩
      · rw [h1]
        simp [ImportState.fail]
        omega
      · rw [h2]
        simp [ImportState.fail]
        omega
    | ok e =>
      have hd : decodedItems (Except.ok e :: rest) = e :: decodedItems rest := by
        simp [decodedItems]
      have hu : undecodableCount (Except.ok e :: rest) = undecodableCount rest := by
        simp [undecodableCount]
      rw [hd] at hpres
      obtain ⟨old, hold⟩ := findByID_of_hasID _ _ _ (hpres e (List.mem_cons_self _ _))
      have hstep := importTargetConfigurationsStep_skip env tenantID full st e old (hget _) hold
      obtain ⟨h1, h2, h3, h4, h5, h6⟩ := ih
        (importTargetConfigurationsStep env tenantID full .RESTORE_MODE_SKIP st (.ok e))
        (fun e2 he2 => by
          rw [hstep]
          exact hpres e2 (List.mem_cons_of_mem _ he2))
      rw [List.foldl_cons, hd, hu]
      refine ⟨?_, ?_, ?_, ?_, ?_, ?_⟩
      · rw [h1, hstep]
        simp [ImportState.skipped]
        omega
      · rw [h2, hstep]
        simp [ImportState.skipped]
      · rw [h3, hstep]
        rfl
      · rw [h4, hstep]
        rfl
      · rw [h5, hstep]
        rfl
      · rw [h6, hstep]
        rfl

/-- The `targetConfigurations` handler in overwrite mode, when the lookups work, the store
accepts every update and the identifier of every item that decodes is in the
table: every such item is updated and every other item fails. -/
theorem importTargetConfigurations_fold_overwrite (env : Env) (tenantID : Nat) (full : Bool)
    (hget : ∀ n, env.getFails n = false) (hupd : ∀ n, env.updateFails n = false) :
    ∀ (items : List (RawMessage TargetConfiguration)) (st : ImportState),
      (∀ e ∈ decodedItems items, hasID TargetConfiguration.ID st.store.configs e.ID = true) →
      (items.foldl (importTargetConfigurationsStep env tenantID full .RESTORE_MODE_OVERWRITE) st).result
        = { st.result with
            Updated := st.result.Updated + (decodedItems items).length
            Failed := st.result.Failed + undecodableCount items } ∧
      (items.foldl (importTargetConfigurationsStep env tenantID full .RESTORE_MODE_OVERWRITE) st).warnings.length
        = st.warnings.length + undecodableCount items := by
  intro items
  induction items with
  | nil =>
    intro st _
    simp [decodedItems, undecodableCount]
  | cons raw rest ih =>
    intro st hpres
    cases raw with
    | error err =>
      have hd : decodedItems (Except.error err :: rest) = decodedItems rest := by
        simp [decodedItems]
      have hu : undecodableCount (Except.error err :: rest) = undecodableCount rest + 1 := by
        simp [undecodableCount]
      rw [hd] at hpres
      have hstep : importTargetConfigurationsStep env tenantID full .RESTORE_MODE_OVERWRITE st (.error err)
          = st.fail st.store ("targetConfigurations: unmarshal error: " ++ err) := rfl
      obtain ⟨h1, h2⟩ := ih (st.fail st.store _) hpres
      rw [List.foldl_cons, hstep, hd, hu]
      refine ⟨?_, ?_⟩
      · rw [h1]
        simp [ImportState.fail]
        omega
      · rw [h2]
        simp [ImportState.fail]
        omega
    | ok e =>
      have hd : decodedItems (Except.ok e :: rest) = e :: decodedItems rest := by
        simp [decodedItems]
      have hu : undecodableCount (Except.ok e :: rest) = undecodableCount rest := by
        simp [undecodableCount]
      rw [hd] at hpres
      obtain ⟨old, hold⟩ := findByID_of_hasID _ _ _ (hpres e (List.mem_cons_self _ _))
      have hstep := importTargetConfigurationsStep_update env tenantID full st e old (hget _) hold (hupd _)
      obtain ⟨h1, h2⟩ := ih
        (importTargetConfigurationsStep env tenantID full .RESTORE_MODE_OVERWRITE st (.ok e))
        (fun e2 he2 => importTargetConfigurationsStep_hasID env tenantID full _ st _ e2.ID
          (hpres e2 (List.mem_cons_of_mem _ he2)))
      rw [List.foldl_cons, hd, hu]
      refine ⟨?_, ?_⟩
      · rw [h1, hstep]
        simp [ImportState.updated]
        omega
      · rw [h2, hstep]
        simp [ImportState.updated]

/-- The `deploymentJobs` handler in skip mode, when the lookups work and the identifier
of every item that decodes is in the table: every such item is skipped, every
other item fails, and no table changes. -/
theorem importDeploymentJobs_fold_skip (env : Env) (tenantID : Nat) (full : Bool)
    (hget : ∀ n, env.getFails n = false) :
    ∀ (items : List (RawMessage DeploymentJob)) (st : ImportState),
      (∀ e ∈ decodedItems items, hasID DeploymentJob.ID st.store.jobs e.ID = true) →
      (items.foldl (importDeploymentJobsStep env tenantID full .RESTORE_MODE_SKIP) st).result
        = { st.result with
            Skipped := st.result.Skipped + (decodedItems items).length
            Failed := st.result.Failed + undecodableCount items } ∧
      (items.foldl (importDeploymentJobsStep env tenantID full .RESTORE_MODE_SKIP) st).warnings.length
        = st.warnings.length + undecodableCount items ∧
      (items.foldl (importDeploymentJobsStep env tenantID full .RESTORE_MODE_SKIP) st).store.targets
        = st.store.targets ∧
      (items.foldl (importDeploymentJobsStep env tenantID full .RESTORE_MODE_SKIP) st).store.configs
        = st.store.configs ∧
      (items.foldl (importDeploymentJobsStep env tenantID full .RESTORE_MODE_SKIP) st).store.jobs
        = st.store.jobs ∧
      (items.foldl (importDeploymentJobsStep env tenantID full .RESTORE_MODE_SKIP) st).store.history
        = st.store.history := by
  intro items
  induction items with
  | nil =>
    intro st _
    simp [decodedItems, undecodableCount]
  | cons raw rest ih =>
    intro st hpres
    cases raw with
    | error err =>
      have hd : decodedItems (Except.error err :: rest) = decodedItems rest := by
        simp [decodedItems]
      have hu : undecodableCount (Except.error err :: rest) = undecodableCount rest + 1 := by
        simp [undecodableCount]
      rw [hd] at hpres
      have hstep : importDeploymentJobsStep env tenantID full .RESTORE_MODE_SKIP st (.error err)
          = st.fail st.store ("deploymentJobs: unmarshal error: " ++ err) := rfl
      obtain ⟨h1, h2, h3, h4, h5, h6⟩ := ih (st.fail st.store _) hpres
      rw [List.foldl_cons, hstep, hd, hu]
      refine ⟨?_, ?_, h3, h4, h5, h6⟩
      · rw [h1]
        simp [ImportState.fail]
        omega
      · rw [h2]
        simp [ImportState.fail]
        omega
    | ok e =>
      have hd : decodedItems (Except.ok e :: rest) = e :: decodedItems rest := by
        simp [decodedItems]
      have hu : undecodableCount (Except.ok e :: rest) = undecodableCount rest := by
        simp [undecodableCount]
      rw [hd] at hpres
      obtain ⟨old, hold⟩ := findByID_of_hasID _ _ _ (hpres e (List.mem_cons_self _ _))
      have hstep := importDeploymentJobsStep_skip env tenantID full st e old (hget _) hold
      obtain ⟨h1, h2, h3, h4, h5, h6⟩ := ih
        (importDeploymentJobsStep env tenantID full .RESTORE_MODE_SKIP st (.ok e))
        (fun e2 he2 => by
          rw [hstep]
          exact hpres e2 (List.mem_cons_of_mem _ he2))
      rw [List.foldl_cons, hd, hu]
      refine ⟨?_, ?_, ?_, ?_, ?_, ?_⟩
      · rw [h1, hstep]
        simp [ImportState.skipped]
        omega
      · rw [h2, hstep]
        simp [ImportState.skipped]
      · rw [h3, hstep]
        rfl
      · rw [h4, hstep]
        rfl
      · rw [h5, hstep]
        rfl
      · rw [h6, hstep]
        rfl

/-- The `deploymentJobs` handler in overwrite mode, when the lookups work, the store
accepts every update and the identifier of every item that decodes is in the
table: every such item is updated and every other item fails. -/
theorem importDeploymentJobs_fold_overwrite (env : Env) (tenantID : Nat) (full : Bool)
    (hget : ∀ n, env.getFails n = false) (hupd : ∀ n, env.updateFails n = false) :
    ∀ (items : List (RawMessage DeploymentJob)) (st : ImportState),
      (∀ e ∈ decodedItems items, hasID DeploymentJob.ID st.store.jobs e.ID = true) →
      (items.foldl (importDeploymentJobsStep env tenantID full .RESTORE_MODE_OVERWRITE) st).result
        = { st.result with
            Updated := st.result.Updated + (decodedItems items).length
            Failed := st.result.Failed + undecodableCount items } ∧
      (items.foldl (importDeploymentJobsStep env tenantID full .RESTORE_MODE_OVERWRITE) st).warnings.length
        = st.warnings.length + undecodableCount items := by
  intro items
  induction items with
  | nil =>
    intro st _
    simp [decodedItems, undecodableCount]
  | cons raw rest ih =>
    intro st hpres
    cases raw with
    | error err =>
      have hd : decodedItems (Except.error err :: rest) = decodedItems rest := by
        simp [decodedItems]
      have hu : undecodableCount (Except.error err :: rest) = undecodableCount rest + 1 := by
        simp [undecodableCount]
      rw [hd] at hpres
      have hstep : importDeploymentJobsStep env tenantID full .RESTORE_MODE_OVERWRITE st (.error err)
          = st.fail st.store ("deploymentJobs: unmarshal error: " ++ err) := rfl
      obtain ⟨h1, h2⟩ := ih (st.fail st.store _) hpres
      rw [List.foldl_cons, hstep, hd, hu]
      refine ⟨?_, ?_⟩
      · rw [h1]
        simp [ImportState.fail]
        omega
      · rw [h2]
        simp [ImportState.fail]
        omega
    | ok e =>
      have hd : decodedItems (Except.ok e :: rest) = e :: decodedItems rest := by
        simp [decodedItems]
      have hu : undecodableCount (Except.ok e :: rest) = undecodableCount rest := by
        simp [undecodableCount]
      rw [hd] at hpres
      obtain ⟨old, hold⟩ := findByID_of_hasID _ _ _ (hpres e (List.mem_cons_self _ _))
      have hstep := importDeploymentJobsStep_update env tenantID full st e old (hget _) hold (hupd _)
      obtain ⟨h1, h2⟩ := ih
        (importDeploymentJobsStep env tenantID full .RESTORE_MODE_OVERWRITE st (.ok e))
        (fun e2 he2 => importDeploymentJobsStep_hasID env tenantID full _ st _ e2.ID
          (hpres e2 (List.mem_cons_of_mem _ he2)))
      rw [List.foldl_cons, hd, hu]
      refine ⟨?_, ?_⟩
      · rw [h1, hstep]
        simp [ImportState.updated]
        omega
      · rw [h2, hstep]
        simp [ImportState.updated]

/-- The `deploymentHistory` handler in skip mode, when the lookups work and the identifier
of every item that decodes is in the table: every such item is skipped, every
other item fails, and no table changes. -/
theorem importDeploymentHistory_fold_skip (env : Env) (tenantID : Nat) (full : Bool)
    (hget : ∀ n, env.getFails n = false) :
    ∀ (items : List (RawMessage DeploymentHistory)) (st : ImportState),
      (∀ e ∈ decodedItems items, hasID DeploymentHistory.ID st.store.history e.ID = true) →
      (items.foldl (importDeploymentHistoryStep env tenantID full .RESTORE_MODE_SKIP) st).result
        = { st.result with
            Skipped := st.result.Skipped + (decodedItems items).length
            Failed := st.result.Failed + undecodableCount items } ∧
      (items.foldl (importDeploymentHistoryStep env tenantID full .RESTORE_MODE_SKIP) st).warnings.length
        = st.warnings.length + undecodableCount items ∧
      (items.foldl (importDeploymentHistoryStep env tenantID full .RESTORE_MODE_SKIP) st).store.targets
        = st.store.targets ∧
      (items.foldl (importDeploymentHistoryStep env tenantID full .RESTORE_MODE_SKIP) st).store.configs
        = st.store.configs ∧
      (items.foldl (importDeploymentHistoryStep env tenantID full .RESTORE_MODE_SKIP) st).store.jobs
        = st.store.jobs ∧
      (items.foldl (importDeploymentHistoryStep env tenantID full .RESTORE_MODE_SKIP) st).store.history
        = st.store.history := by
  intro items
  induction items with
  | nil =>
    intro st _
    simp [decodedItems, undecodableCount]
  | cons raw rest ih =>
    intro st hpres
    cases raw with
    | error err =>
      have hd : decodedItems (Except.error err :: rest) = decodedItems rest := by
        simp [decodedItems]
      have hu : undecodableCount (Except.error err :: rest) = undecodableCount rest + 1 := by
        simp [undecodableCount]
      rw [hd] at hpres
      have hstep : importDeploymentHistoryStep env tenantID full .RESTORE_MODE_SKIP st (.error err)
          = st.fail st.store ("deploymentHistory: unmarshal error: " ++ err) := rfl
      obtain ⟨h1, h2, h3, h4, h5, h6⟩ := ih (st.fail st.store _) hpres
      rw [List.foldl_cons, hstep, hd, hu]
      refine ⟨?_, ?_, h3, h4, h5, h6⟩
      · rw [h1]
        simp [ImportState.fail]
        omega
      · rw [h2]
        simp [ImportState.fail]
        omega
    | ok e =>
      have hd : decodedItems (Except.ok e :: rest) = e :: decodedItems rest := by
        simp [decodedItems]
      have hu : undecodableCount (Except.ok e :: rest) = undecodableCount rest := by
        simp [undecodableCount]
      rw [hd] at hpres
      obtain ⟨old, hold⟩ := findByID_of_hasID _ _ _ (hpres e (List.mem_cons_self _ _))
      have hstep := importDeploymentHistoryStep_skip env tenantID full st e old (hget _) hold
      obtain ⟨h1, h2, h3, h4, h5, h6⟩ := ih
        (importDeploymentHistoryStep env tenantID full .RESTORE_MODE_SKIP st (.ok e))
        (fun e2 he2 => by
          rw [hstep]
          exact hpres e2 (List.mem_cons_of_mem _ he2))
      rw [List.foldl_cons, hd, hu]
      refine ⟨?_, ?_, ?_, ?_, ?_, ?_⟩
      · rw [h1, hstep]
        simp [ImportState.skipped]
        omega
      · rw [h2, hstep]
        simp [ImportState.skipped]
      · rw [h3, hstep]
        rfl
      · rw [h4, hstep]
        rfl
      · rw [h5, hstep]
        rfl
      · rw [h6, hstep]
        rfl

/-- The `deploymentHistory` handler in overwrite mode, when the lookups work, the store
accepts every update and the identifier of every item that decodes is in the
table: every such item is updated and every other item fails. -/
theorem importDeploymentHistory_fold_overwrite (env : Env) (tenantID : Nat) (full : Bool)
    (hget : ∀ n, env.getFails n = false) (hupd : ∀ n, env.updateFails n = false) :
    ∀ (items : List (RawMessage DeploymentHistory)) (st : ImportState),
      (∀ e ∈ decodedItems items, hasID DeploymentHistory.ID st.store.history e.ID = true) →
      (items.foldl (importDeploymentHistoryStep env tenantID full .RESTORE_MODE_OVERWRITE) st).result
        = { st.result with
            Updated := st.result.Updated + (decodedItems items).length
            Failed := st.result.Failed + undecodableCount items } ∧
      (items.foldl (importDeploymentHistoryStep env tenantID full .RESTORE_MODE_OVERWRITE) st).warnings.length
        = st.warnings.length + undecodableCount items := by
  intro items
  induction items with
  | nil =>
    intro st _
    simp [decodedItems, undecodableCount]
  | cons raw rest ih =>
    intro st hpres
    cases raw with
    | error err =>
      have hd : decodedItems (Except.error err :: rest) = decodedItems rest := by
        simp [decodedItems]
      have hu : undecodableCount (Except.error err :: rest) = undecodableCount rest + 1 := by
        simp [undecodableCount]
      rw [hd] at hpres
      have hstep : importDeploymentHistoryStep env tenantID full .RESTORE_MODE_OVERWRITE st (.error err)
          = st.fail st.store ("deploymentHistory: unmarshal error: " ++ err) := rfl
      obtain ⟨h1, h2⟩ := ih (st.fail st.store _) hpres
      rw [List.foldl_cons, hstep, hd, hu]
      refine ⟨?_, ?_⟩
      · rw [h1]
        simp [ImportState.fail]
        omega
      · rw [h2]
        simp [ImportState.fail]
        omega
    | ok e =>
      have hd : decodedItems (Except.ok e :: rest) = e :: decodedItems rest := by
        simp [decodedItems]
      have hu : undecodableCount (Except.ok e :: rest) = undecodableCount rest := by
        simp [undecodableCount]
      rw [hd] at hpres
      obtain ⟨old, hold⟩ := findByID_of_hasID _ _ _ (hpres e (List.mem_cons_self _ _))
      have hstep := importDeploymentHistoryStep_update env tenantID full st e old (hget _) hold (hupd _)
      obtain ⟨h1, h2⟩ := ih
        (importDeploymentHistoryStep env tenantID full .RESTORE_MODE_OVERWRITE st (.ok e))
        (fun e2 he2 => importDeploymentHistoryStep_hasID env tenantID full _ st _ e2.ID
          (hpres e2 (List.mem_cons_of_mem _ he2)))
      rw [List.foldl_cons, hd, hu]
      refine ⟨?_, ?_⟩
      · rw [h1, hstep]
        simp [ImportState.updated]
        omega
      · rw [h2, hstep]
        simp [ImportState.updated]

theorem importDeploymentTargets_fold_skip_log (env : Env) (tenantID : Nat) (full : Bool)
    (hget : ∀ n, env.getFails n = false) :
    ∀ (items : List (RawMessage DeploymentTarget)) (st : ImportState),
      (∀ e ∈ decodedItems items, hasID DeploymentTarget.ID st.store.targets e.ID = true) →
      ∃ l, (items.foldl (importDeploymentTargetsStep env tenantID full .RESTORE_MODE_SKIP) st).store.log
          = st.store.log ++ l ∧ ∀ op ∈ l, op.access = Access.get := by
  intro items
  induction items with
  | nil =>
    intro st _
    exact ⟨[], by simp, fun _ h => nomatch h⟩
  | cons raw rest ih =>
    intro st hpres
    cases raw with
    | error err =>
      have hd : decodedItems (Except.error err :: rest) = decodedItems rest := by
        simp [decodedItems]
      rw [hd] at hpres
      exact ih (st.fail st.store _) hpres
    | ok e =>
      have hd : decodedItems (Except.ok e :: rest) = e :: decodedItems rest := by
        simp [decodedItems]
      rw [hd] at hpres
      obtain ⟨old, hold⟩ := findByID_of_hasID _ _ _ (hpres e (List.mem_cons_self _ _))
      have hstep := importDeploymentTargetsStep_skip env tenantID full st e old (hget _) hold
      obtain ⟨l, hl, hk⟩ := ih
        (importDeploymentTargetsStep env tenantID full .RESTORE_MODE_SKIP st (.ok e))
        (fun e2 he2 => by
          rw [hstep]
          exact hpres e2 (List.mem_cons_of_mem _ he2))
      refine ⟨⟨.deploymentTargets, .get⟩ :: l, ?_, ?_⟩
      · rw [List.foldl_cons, hl, hstep]
        simp [ImportState.skipped, Store.record]
      · intro op hop
        rcases List.mem_cons.mp hop with h | h
        · rw [h]
        · exact hk op h

/-- The `deploymentTargets` handler on items that all decode, with pairwise distinct
identifiers none of which is in the table, on a store that accepts every
create: every item is created and there is no warning. -/
theorem importDeploymentTargets_fresh_result (env : Env) (s : Store) (items : List (RawMessage DeploymentTarget))
    (tenantID : Nat) (full : Bool) (mode : RestoreMode)
    (hcr : ∀ n, env.createFails n = false) (hdec : undecodableCount items = 0)
    (hnd : ((decodedItems items).map DeploymentTarget.ID).Nodup)
    (habs : ∀ e ∈ decodedItems items, hasID DeploymentTarget.ID s.targets e.ID = false) :
    (importDeploymentTargets env s items tenantID full mode).result
      = { EntityType := "deploymentTargets", Total := items.length, Created := items.length,
          Updated := 0, Skipped := 0, Failed := 0 } ∧
    (importDeploymentTargets env s items tenantID full mode).warnings = [] := by
  obtain ⟨h1, h2, _⟩ := importDeploymentTargets_fold_fresh env tenantID full mode hcr items
    (ImportState.init "deploymentTargets" items.length s) hnd habs
  have hlen := decodedItems_length items
  unfold importDeploymentTargets
  refine ⟨?_, ?_⟩
  · rw [h1]
    simp only [ImportState.init, EntityImportResult.mk.injEq, true_and]
    omega
  · apply List.eq_nil_of_length_eq_zero
    rw [h2, hdec]
    rfl

theorem importDeploymentTargets_present (env : Env) (s : Store) (items : List (RawMessage DeploymentTarget))
    (tenantID : Nat) (full : Bool) (mode : RestoreMode)
    (hcr : ∀ n, env.createFails n = false) :
    ∀ e ∈ decodedItems items,
      hasID DeploymentTarget.ID (importDeploymentTargets env s items tenantID full mode).store.targets e.ID = true :=
  (importDeploymentTargets_fold_present env tenantID full mode hcr items
    (ImportState.init "deploymentTargets" items.length s)).2

/-- The `deploymentTargets` handler in skip mode over items whose identifiers are all in
the table, when the lookups work: it skips every item that decodes, leaves the
four tables as they are and issues lookups only. -/
theorem importDeploymentTargets_skip_result (env : Env) (s : Store) (items : List (RawMessage DeploymentTarget))
    (tenantID : Nat) (full : Bool) (hget : ∀ n, env.getFails n = false)
    (hpres : ∀ e ∈ decodedItems items, hasID DeploymentTarget.ID s.targets e.ID = true) :
    (importDeploymentTargets env s items tenantID full .RESTORE_MODE_SKIP).result
      = { EntityType := "deploymentTargets", Total := items.length, Created := 0, Updated := 0,
          Skipped := (decodedItems items).length, Failed := undecodableCount items } ∧
    (importDeploymentTargets env s items tenantID full .RESTORE_MODE_SKIP).store.targets = s.targets ∧
    (importDeploymentTargets env s items tenantID full .RESTORE_MODE_SKIP).store.configs = s.configs ∧
    (importDeploymentTargets env s items tenantID full .RESTORE_MODE_SKIP).store.jobs = s.jobs ∧
    (importDeploymentTargets env s items tenantID full .RESTORE_MODE_SKIP).store.history = s.history ∧
    (∃ l, (importDeploymentTargets env s items tenantID full .RESTORE_MODE_SKIP).store.log = s.log ++ l ∧
      ∀ op ∈ l, op.access = Access.get) := by
  obtain ⟨h1, _, h3, h4, h5, h6⟩ := importDeploymentTargets_fold_skip env tenantID full hget items
    (ImportState.init "deploymentTargets" items.length s) hpres
  have h7 := importDeploymentTargets_fold_skip_log env tenantID full hget items
    (ImportState.init "deploymentTargets" items.length s) hpres
  unfold importDeploymentTargets
  refine ⟨?_, h3, h4, h5, h6, h7⟩
  rw [h1]
  simp [ImportState.init]

/-- The `deploymentTargets` handler in overwrite mode over items whose identifiers are all
in the table, when the lookups work and the store accepts every update: it
updates every item that decodes. -/
theorem importDeploymentTargets_overwrite_result (env : Env) (s : Store)
    (items : List (RawMessage DeploymentTarget)) (tenantID : Nat) (full : Bool)
    (hget : ∀ n, env.getFails n = false) (hupd : ∀ n, env.updateFails n = false)
    (hpres : ∀ e ∈ decodedItems items, hasID DeploymentTarget.ID s.targets e.ID = true) :
    (importDeploymentTargets env s items tenantID full .RESTORE_MODE_OVERWRITE).result
      = { EntityType := "deploymentTargets", Total := items.length, Created := 0,
          Updated := (decodedItems items).length, Skipped := 0,
          Failed := undecodableCount items } ∧
    (importDeploymentTargets env s items tenantID full .RESTORE_MODE_OVERWRITE).warnings.length
      = undecodableCount items := by
  obtain ⟨h1, h2⟩ := importDeploymentTargets_fold_overwrite env tenantID full hget hupd items
    (ImportState.init "deploymentTargets" items.length s) hpres
  unfold importDeploymentTargets
  refine ⟨?_, ?_⟩
  · rw [h1]
    simp [ImportState.init]
  · rw [h2]
    simp [ImportState.init]

theorem importTargetConfigurations_fold_skip_log (env : Env) (tenantID : Nat) (full : Bool)
    (hget : ∀ n, env.getFails n = false) :
    ∀ (items : List (RawMessage TargetConfiguration)) (st : ImportState),
      (∀ e ∈ decodedItems items, hasID TargetConfiguration.ID st.store.configs e.ID = true) →
      ∃ l, (items.foldl (importTargetConfigurationsStep env tenantID full .RESTORE_MODE_SKIP) st).store.log
          = st.store.log ++ l ∧ ∀ op ∈ l, op.access = Access.get := by
  intro items
  induction items with
  | nil =>
    intro st _
    exact ⟨[], by simp, fun _ h => nomatch h⟩
  | cons raw rest ih =>
    intro st hpres
    cases raw with
    | error err =>
      have hd : decodedItems (Except.error err :: rest) = decodedItems rest := by
        simp [decodedItems]
      rw [hd] at hpres
      exact ih (st.fail st.store _) hpres
    | ok e =>
      have hd : decodedItems (Except.ok e :: rest) = e :: decodedItems rest := by
        simp [decodedItems]
      rw [hd] at hpres
      obtain ⟨old, hold⟩ := findByID_of_hasID _ _ _ (hpres e (List.mem_cons_self _ _))
      have hstep := importTargetConfigurationsStep_skip env tenantID full st e old (hget _) hold
      obtain ⟨l, hl, hk⟩ := ih
        (importTargetConfigurationsStep env tenantID full .RESTORE_MODE_SKIP st (.ok e))
        (fun e2 he2 => by
          rw [hstep]
          exact hpres e2 (List.mem_cons_of_mem _ he2))
      refine ⟨⟨.targetConfigurations, .get⟩ :: l, ?_, ?_⟩
      · rw [List.foldl_cons, hl, hstep]
        simp [ImportState.skipped, Store.record]
      · intro op hop
        rcases List.mem_cons.mp hop with h | h
        · rw [h]
        · exact hk op h

/-- The `targetConfigurations` handler on items that all decode, with pairwise distinct
identifiers none of which is in the table, on a store that accepts every
create: every item is created and there is no warning. -/
theorem importTargetConfigurations_fresh_result (env : Env) (s : Store) (items : List (RawMessage TargetConfiguration))
    (tenantID : Nat) (full : Bool) (mode : RestoreMode)
    (hcr : ∀ n, env.createFails n = false) (hdec : undecodableCount items = 0)
    (hnd : ((decodedItems items).map TargetConfiguration.ID).Nodup)
    (habs : ∀ e ∈ decodedItems items, hasID TargetConfiguration.ID s.configs e.ID = false) :
    (importTargetConfigurations env s items tenantID full mode).result
      = { EntityType := "targetConfigurations", Total := items.length, Created := items.length,
          Updated := 0, Skipped := 0, Failed := 0 } ∧
    (importTargetConfigurations env s items tenantID full mode).warnings = [] := by
  obtain ⟨h1, h2, _⟩ := importTargetConfigurations_fold_fresh env tenantID full mode hcr items
    (ImportState.init "targetConfigurations" items.length s) hnd habs
  have hlen := decodedItems_length items
  unfold importTargetConfigurations
  refine ⟨?_, ?_⟩
  · rw [h1]
    simp only [ImportState.init, EntityImportResult.mk.injEq, true_and]
    omega
  · apply List.eq_nil_of_length_eq_zero
    rw [h2, hdec]
    rfl

theorem importTargetConfigurations_present (env : Env) (s : Store) (items : List (RawMessage TargetConfiguration))
    (tenantID : Nat) (full : Bool) (mode : RestoreMode)
    (hcr : ∀ n, env.createFails n = false) :
    ∀ e ∈ decodedItems items,
      hasID TargetConfiguration.ID (importTargetConfigurations env s items tenantID full mode).store.configs e.ID = true :=
  (importTargetConfigurations_fold_present env tenantID full mode hcr items
    (ImportState.init "targetConfigurations" items.length s)).2

/-- The `targetConfigurations` handler in skip mode over items whose identifiers are all in
the table, when the lookups work: it skips every item that decodes, leaves the
four tables as they are and issues lookups only. -/
theorem importTargetConfigurations_skip_result (env : Env) (s : Store) (items : List (RawMessage TargetConfiguration))
    (tenantID : Nat) (full : Bool) (hget : ∀ n, env.getFails n = false)
    (hpres : ∀ e ∈ decodedItems items, hasID TargetConfiguration.ID s.configs e.ID = true) :
    (importTargetConfigurations env s items tenantID full .RESTORE_MODE_SKIP).result
      = { EntityType := "targetConfigurations", Total := items.length, Created := 0, Updated := 0,
          Skipped := (decodedItems items).length, Failed := undecodableCount items } ∧
    (importTargetConfigurations env s items tenantID full .RESTORE_MODE_SKIP).store.targets = s.targets ∧
    (importTargetConfigurations env s items tenantID full .RESTORE_MODE_SKIP).store.configs = s.configs ∧
    (importTargetConfigurations env s items tenantID full .RESTORE_MODE_SKIP).store.jobs = s.jobs ∧
    (importTargetConfigurations env s items tenantID full .RESTORE_MODE_SKIP).store.history = s.history ∧
    (∃ l, (importTargetConfigurations env s items tenantID full .RESTORE_MODE_SKIP).store.log = s.log ++ l ∧
      ∀ op ∈ l, op.access = Access.get) := by
  obtain ⟨h1, _, h3, h4, h5, h6⟩ := importTargetConfigurations_fold_skip env tenantID full hget items
    (ImportState.init "targetConfigurations" items.length s) hpres
  have h7 := importTargetConfigurations_fold_skip_log env tenantID full hget items
    (ImportState.init "targetConfigurations" items.length s) hpres
  unfold importTargetConfigurations
  refine ⟨?_, h3, h4, h5, h6, h7⟩
  rw [h1]
  simp [ImportState.init]

/-- The `targetConfigurations` handler in overwrite mode over items whose identifiers are all
in the table, when the lookups work and the store accepts every update: it
updates every item that decodes. -/
theorem importTargetConfigurations_overwrite_result (env : Env) (s : Store)
    (items : List (RawMessage TargetConfiguration)) (tenantID : Nat) (full : Bool)
    (hget : ∀ n, env.getFails n = false) (hupd : ∀ n, env.updateFails n = false)
    (hpres : ∀ e ∈ decodedItems items, hasID TargetConfiguration.ID s.configs e.ID = true) :
    (importTargetConfigurations env s items tenantID full .RESTORE_MODE_OVERWRITE).result
      = { EntityType := "targetConfigurations", Total := items.length, Created := 0,
          Updated := (decodedItems items).length, Skipped := 0,
          Failed := undecodableCount items } ∧
    (importTargetConfigurations env s items tenantID full .RESTORE_MODE_OVERWRITE).warnings.length
      = undecodableCount items := by
  obtain ⟨h1, h2⟩ := importTargetConfigurations_fold_overwrite env tenantID full hget hupd items
    (ImportState.init "targetConfigurations" items.length s) hpres
  unfold importTargetConfigurations
  refine ⟨?_, ?_⟩
  · rw [h1]
    simp [ImportState.init]
  · rw [h2]
    simp [ImportState.init]

theorem importDeploymentJobs_fold_skip_log (env : Env) (tenantID : Nat) (full : Bool)
    (hget : ∀ n, env.getFails n = false) :
    ∀ (items : List (RawMessage DeploymentJob)) (st : ImportState),
      (∀ e ∈ decodedItems items, hasID DeploymentJob.ID st.store.jobs e.ID = true) →
      ∃ l, (items.foldl (importDeploymentJobsStep env tenantID full .RESTORE_MODE_SKIP) st).store.log
          = st.store.log ++ l ∧ ∀ op ∈ l, op.access = Access.get := by
  intro items
  induction items with
  | nil =>
    intro st _
    exact ⟨[], by simp, fun _ h => nomatch h⟩
  | cons raw rest ih =>
    intro st hpres
    cases raw with
    | error err =>
      have hd : decodedItems (Except.error err :: rest) = decodedItems rest := by
        simp [decodedItems]
      rw [hd] at hpres
      exact ih (st.fail st.store _) hpres
    | ok e =>
      have hd : decodedItems (Except.ok e :: rest) = e :: decodedItems rest := by
        simp [decodedItems]
      rw [hd] at hpres
      obtain ⟨old, hold⟩ := findByID_of_hasID _ _ _ (hpres e (List.mem_cons_self _ _))
      have hstep := importDeploymentJobsStep_skip env tenantID full st e old (hget _) hold
      obtain ⟨l, hl, hk⟩ := ih
        (importDeploymentJobsStep env tenantID full .RESTORE_MODE_SKIP st (.ok e))
        (fun e2 he2 => by
          rw [hstep]
          exact hpres e2 (List.mem_cons_of_mem _ he2))
      refine ⟨⟨.deploymentJobs, .get⟩ :: l, ?_, ?_⟩
      · rw [List.foldl_cons, hl, hstep]
        simp [ImportState.skipped, Store.record]
      · intro op hop
        rcases List.mem_cons.mp hop with h | h
        · rw [h]
        · exact hk op h

/-- The `deploymentJobs` handler on items that all decode, with pairwise distinct
identifiers none of which is in the table, on a store that accepts every
create: every item is created and there is no warning. -/
theorem importDeploymentJobs_fresh_result (env : Env) (s : Store) (items : List (RawMessage DeploymentJob))
    (tenantID : Nat) (full : Bool) (mode : RestoreMode)
    (hcr : ∀ n, env.createFails n = false) (hdec : undecodableCount items = 0)
    (hnd : ((decodedItems items).map DeploymentJob.ID).Nodup)
    (habs : ∀ e ∈ decodedItems items, hasID DeploymentJob.ID s.jobs e.ID = false) :
    (importDeploymentJobs env s items tenantID full mode).result
      = { EntityType := "deploymentJobs", Total := items.length, Created := items.length,
          Updated := 0, Skipped := 0, Failed := 0 } ∧
    (importDeploymentJobs env s items tenantID full mode).warnings = [] := by
  obtain ⟨h1, h2, _⟩ := importDeploymentJobs_fold_fresh env tenantID full mode hcr items
    (ImportState.init "deploymentJobs" items.length s) hnd habs
  have hlen := decodedItems_length items
  unfold importDeploymentJobs
  refine ⟨?_, ?_⟩
  · rw [h1]
    simp only [ImportState.init, EntityImportResult.mk.injEq, true_and]
    omega
  · apply List.eq_nil_of_length_eq_zero
    rw [h2, hdec]
    rfl

theorem importDeploymentJobs_present (env : Env) (s : Store) (items : List (RawMessage DeploymentJob))
    (tenantID : Nat) (full : Bool) (mode : RestoreMode)
    (hcr : ∀ n, env.createFails n = false) :
    ∀ e ∈ decodedItems items,
      hasID DeploymentJob.ID (importDeploymentJobs env s items tenantID full mode).store.jobs e.ID = true :=
  (importDeploymentJobs_fold_present env tenantID full mode hcr items
    (ImportState.init "deploymentJobs" items.length s)).2

/-- The `deploymentJobs` handler in skip mode over items whose identifiers are all in
the table, when the lookups work: it skips every item that decodes, leaves the
four tables as they are and issues lookups only. -/
theorem importDeploymentJobs_skip_result (env : Env) (s : Store) (items : List (RawMessage DeploymentJob))
    (tenantID : Nat) (full : Bool) (hget : ∀ n, env.getFails n = false)
    (hpres : ∀ e ∈ decodedItems items, hasID DeploymentJob.ID s.jobs e.ID = true) :
    (importDeploymentJobs env s items tenantID full .RESTORE_MODE_SKIP).result
      = { EntityType := "deploymentJobs", Total := items.length, Created := 0, Updated := 0,
          Skipped := (decodedItems items).length, Failed := undecodableCount items } ∧
    (importDeploymentJobs env s items tenantID full .RESTORE_MODE_SKIP).store.targets = s.targets ∧
    (importDeploymentJobs env s items tenantID full .RESTORE_MODE_SKIP).store.configs = s.configs ∧
    (importDeploymentJobs env s items tenantID full .RESTORE_MODE_SKIP).store.jobs = s.jobs ∧
    (importDeploymentJobs env s items tenantID full .RESTORE_MODE_SKIP).store.history = s.history ∧
    (∃ l, (importDeploymentJobs env s items tenantID full .RESTORE_MODE_SKIP).store.log = s.log ++ l ∧
      ∀ op ∈ l, op.access = Access.get) := by
  obtain ⟨h1, _, h3, h4, h5, h6⟩ := importDeploymentJobs_fold_skip env tenantID full hget items
    (ImportState.init "deploymentJobs" items.length s) hpres
  have h7 := importDeploymentJobs_fold_skip_log env tenantID full hget items
    (ImportState.init "deploymentJobs" items.length s) hpres
  unfold importDeploymentJobs
  refine ⟨?_, h3, h4, h5, h6, h7⟩
  rw [h1]
  simp [ImportState.init]

/-- The `deploymentJobs` handler in overwrite mode over items whose identifiers are all
in the table, when the lookups work and the store accepts every update: it
updates every item that decodes. -/
theorem importDeploymentJobs_overwrite_result (env : Env) (s : Store)
    (items : List (RawMessage DeploymentJob)) (tenantID : Nat) (full : Bool)
    (hget : ∀ n, env.getFails n = false) (hupd : ∀ n, env.updateFails n = false)
    (hpres : ∀ e ∈ decodedItems items, hasID DeploymentJob.ID s.jobs e.ID = true) :
    (importDeploymentJobs env s items tenantID full .RESTORE_MODE_OVERWRITE).result
      = { EntityType := "deploymentJobs", Total := items.length, Created := 0,
          Updated := (decodedItems items).length, Skipped := 0,
          Failed := undecodableCount items } ∧
    (importDeploymentJobs env s items tenantID full .RESTORE_MODE_OVERWRITE).warnings.length
      = undecodableCount items := by
  obtain ⟨h1, h2⟩ := importDeploymentJobs_fold_overwrite env tenantID full hget hupd items
    (ImportState.init "deploymentJobs" items.length s) hpres
  unfold importDeploymentJobs
  refine ⟨?_, ?_⟩
  · rw [h1]
    simp [ImportState.init]
  · rw [h2]
    simp [ImportState.init]

theorem importDeploymentHistory_fold_skip_log (env : Env) (tenantID : Nat) (full : Bool)
    (hget : ∀ n, env.getFails n = false) :
    ∀ (items : List (RawMessage DeploymentHistory)) (st : ImportState),
      (∀ e ∈ decodedItems items, hasID DeploymentHistory.ID st.store.history e.ID = true) →
      ∃ l, (items.foldl (importDeploymentHistoryStep env tenantID full .RESTORE_MODE_SKIP) st).store.log
          = st.store.log ++ l ∧ ∀ op ∈ l, op.access = Access.get := by
  intro items
  induction items with
  | nil =>
    intro st _
    exact ⟨[], by simp, fun _ h => nomatch h⟩
  | cons raw rest ih =>
    intro st hpres
    cases raw with
    | error err =>
      have hd : decodedItems (Except.error err :: rest) = decodedItems rest := by
        simp [decodedItems]
      rw [hd] at hpres
      exact ih (st.fail st.store _) hpres
    | ok e =>
      have hd : decodedItems (Except.ok e :: rest) = e :: decodedItems rest := by
        simp [decodedItems]
      rw [hd] at hpres
      obtain ⟨old, hold⟩ := findByID_of_hasID _ _ _ (hpres e (List.mem_cons_self _ _))
      have hstep := importDeploymentHistoryStep_skip env tenantID full st e old (hget _) hold
      obtain ⟨l, hl, hk⟩ := ih
        (importDeploymentHistoryStep env tenantID full .RESTORE_MODE_SKIP st (.ok e))
        (fun e2 he2 => by
          rw [hstep]
          exact hpres e2 (List.mem_cons_of_mem _ he2))
      refine ⟨⟨.deploymentHistory, .get⟩ :: l, ?_, ?_⟩
      · rw [List.foldl_cons, hl, hstep]
        simp [ImportState.skipped, Store.record]
      · intro op hop
        rcases List.mem_cons.mp hop with h | h
        · rw [h]
        · exact hk op h

/-- The `deploymentHistory` handler on items that all decode, with pairwise distinct
identifiers none of which is in the table, on a store that accepts every
create: every item is created and there is no warning. -/
theorem importDeploymentHistory_fresh_result (env : Env) (s : Store) (items : List (RawMessage DeploymentHistory))
    (tenantID : Nat) (full : Bool) (mode : RestoreMode)
    (hcr : ∀ n, env.createFails n = false) (hdec : undecodableCount items = 0)
    (hnd : ((decodedItems items).map DeploymentHistory.ID).Nodup)
    (habs : ∀ e ∈ decodedItems items, hasID DeploymentHistory.ID s.history e.ID = false) :
    (importDeploymentHistory env s items tenantID full mode).result
      = { EntityType := "deploymentHistory", Total := items.length, Created := items.length,
          Updated := 0, Skipped := 0, Failed := 0 } ∧
    (importDeploymentHistory env s items tenantID full mode).warnings = [] := by
  obtain ⟨h1, h2, _⟩ := importDeploymentHistory_fold_fresh env tenantID full mode hcr items
    (ImportState.init "deploymentHistory" items.length s) hnd habs
  have hlen := decodedItems_length items
  unfold importDeploymentHistory
  refine ⟨?_, ?_⟩
  · rw [h1]
    simp only [ImportState.init, EntityImportResult.mk.injEq, true_and]
    omega
  · apply List.eq_nil_of_length_eq_zero
    rw [h2, hdec]
    rfl

theorem importDeploymentHistory_present (env : Env) (s : Store) (items : List (RawMessage DeploymentHistory))
    (tenantID : Nat) (full : Bool) (mode : RestoreMode)
    (hcr : ∀ n, env.createFails n = false) :
    ∀ e ∈ decodedItems items,
      hasID DeploymentHistory.ID (importDeploymentHistory env s items tenantID full mode).store.history e.ID = true :=
  (importDeploymentHistory_fold_present env tenantID full mode hcr items
    (ImportState.init "deploymentHistory" items.length s)).2

/-- The `deploymentHistory` handler in skip mode over items whose identifiers are all in
the table, when the lookups work: it skips every item that decodes, leaves the
four tables as they are and issues lookups only. -/
theorem importDeploymentHistory_skip_result (env : Env) (s : Store) (items : List (RawMessage DeploymentHistory))
    (tenantID : Nat) (full : Bool) (hget : ∀ n, env.getFails n = false)
    (hpres : ∀ e ∈ decodedItems items, hasID DeploymentHistory.ID s.history e.ID = true) :
    (importDeploymentHistory env s items tenantID full .RESTORE_MODE_SKIP).result
      = { EntityType := "deploymentHistory", Total := items.length, Created := 0, Updated := 0,
          Skipped := (decodedItems items).length, Failed := undecodableCount items } ∧
    (importDeploymentHistory env s items tenantID full .RESTORE_MODE_SKIP).store.targets = s.targets ∧
    (importDeploymentHistory env s items tenantID full .RESTORE_MODE_SKIP).store.configs = s.configs ∧
    (importDeploymentHistory env s items tenantID full .RESTORE_MODE_SKIP).store.jobs = s.jobs ∧
    (importDeploymentHistory env s items tenantID full .RESTORE_MODE_SKIP).store.history = s.history ∧
    (∃ l, (importDeploymentHistory env s items tenantID full .RESTORE_MODE_SKIP).store.log = s.log ++ l ∧
      ∀ op ∈ l, op.access = Access.get) := by
  obtain ⟨h1, _, h3, h4, h5, h6⟩ := importDeploymentHistory_fold_skip env tenantID full hget items
    (ImportState.init "deploymentHistory" items.length s) hpres
  have h7 := importDeploymentHistory_fold_skip_log env tenantID full hget items
    (ImportState.init "deploymentHistory" items.length s) hpres
  unfold importDeploymentHistory
  refine ⟨?_, h3, h4, h5, h6, h7⟩
  rw [h1]
  simp [ImportState.init]

/-- The `deploymentHistory` handler in overwrite mode over items whose identifiers are all
in the table, when the lookups work and the store accepts every update: it
updates every item that decodes. -/
theorem importDeploymentHistory_overwrite_result (env : Env) (s : Store)
    (items : List (RawMessage DeploymentHistory)) (tenantID : Nat) (full : Bool)
    (hget : ∀ n, env.getFails n = false) (hupd : ∀ n, env.updateFails n = false)
    (hpres : ∀ e ∈ decodedItems items, hasID DeploymentHistory.ID s.history e.ID = true) :
    (importDeploymentHistory env s items tenantID full .RESTORE_MODE_OVERWRITE).result
      = { EntityType := "deploymentHistory", Total := items.length, Created := 0,
          Updated := (decodedItems items).length, Skipped := 0,
          Failed := undecodableCount items } ∧
    (importDeploymentHistory env s items tenantID full .RESTORE_MODE_OVERWRITE).warnings.length
      = undecodableCount items := by
  obtain ⟨h1, h2⟩ := importDeploymentHistory_fold_overwrite env tenantID full hget hupd items
    (ImportState.init "deploymentHistory" items.length s) hpres
  unfold importDeploymentHistory
  refine ⟨?_, ?_⟩
  · rw [h1]
    simp [ImportState.init]
  · rw [h2]
    simp [ImportState.init]

/-- After a pass of `ImportBackup` over an envelope, on a store that accepts
every create, the identifier of every item that decodes is in the table of its
kind. -/
theorem stages_present (env : Env) (backup : backupData) (tenantID : Nat) (mode : RestoreMode)
    (s : Store) (hcr : ∀ n, env.createFails n = false) :
    (∀ e ∈ decodedItems backup.Data.DeploymentTargets,
      hasID DeploymentTarget.ID (afterHistory env backup tenantID mode s).store.targets e.ID
        = true) ∧
    (∀ e ∈ decodedItems backup.Data.TargetConfigurations,
      hasID TargetConfiguration.ID (afterHistory env backup tenantID mode s).store.configs e.ID
        = true) ∧
    (∀ e ∈ decodedItems backup.Data.DeploymentJobs,
      hasID DeploymentJob.ID (afterHistory env backup tenantID mode s).store.jobs e.ID
        = true) ∧
    (∀ e ∈ decodedItems backup.Data.DeploymentHistory,
      hasID DeploymentHistory.ID (afterHistory env backup tenantID mode s).store.history e.ID
        = true) := by
  obtain ⟨g1, g2, g3, _, _, _⟩ := stages_tables env backup tenantID mode s
  refine ⟨?_, ?_, ?_, ?_⟩
  · intro e he
    rw [g1]
    exact importDeploymentTargets_present env s _ tenantID _ mode hcr e he
  · intro e he
    rw [g2]
    exact importTargetConfigurations_present env _ _ tenantID _ mode hcr e he
  · intro e he
    rw [g3]
    exact importDeploymentJobs_present env _ _ tenantID _ mode hcr e he
  · intro e he
    exact importDeploymentHistory_present env _ _ tenantID _ mode hcr e he

/-! ## ImportBackup: a first pass over fresh records, a second pass over the same envelope -/

/-- First pass: a kind whose items all decode, with pairwise distinct
identifiers none of which is in the store, has all its items created, whatever
the other kinds hold. -/
theorem stages_fresh (env : Env) (backup : backupData) (tenantID : Nat) (mode : RestoreMode)
    (s : Store) (hcr : ∀ n, env.createFails n = false) :
    (undecodableCount backup.Data.DeploymentTargets = 0 →
      ((decodedItems backup.Data.DeploymentTargets).map DeploymentTarget.ID).Nodup →
      (∀ e ∈ decodedItems backup.Data.DeploymentTargets,
        hasID DeploymentTarget.ID s.targets e.ID = false) →
      (afterTargets env backup tenantID mode s).result
        = { EntityType := "deploymentTargets", Total := backup.Data.DeploymentTargets.length,
            Created := backup.Data.DeploymentTargets.length, Updated := 0, Skipped := 0,
            Failed := 0 } ∧
      (afterTargets env backup tenantID mode s).warnings = []) ∧
    (undecodableCount backup.Data.TargetConfigurations = 0 →
      ((decodedItems backup.Data.TargetConfigurations).map TargetConfiguration.ID).Nodup →
      (∀ e ∈ decodedItems backup.Data.TargetConfigurations,
        hasID TargetConfiguration.ID s.configs e.ID = false) →
      (afterConfigurations env backup tenantID mode s).result
        = { EntityType := "targetConfigurations",
            Total := backup.Data.TargetConfigurations.length,
            Created := backup.Data.TargetConfigurations.length, Updated := 0, Skipped := 0,
            Failed := 0 } ∧
      (afterConfigurations env backup tenantID mode s).warnings = []) ∧
    (undecodableCount backup.Data.DeploymentJobs = 0 →
      ((decodedItems backup.Data.DeploymentJobs).map DeploymentJob.ID).Nodup →
      (∀ e ∈ decodedItems backup.Data.DeploymentJobs,
        hasID DeploymentJob.ID s.jobs e.ID = false) →
      (afterJobs env backup tenantID mode s).result
        = { EntityType := "deploymentJobs", Total := backup.Data.DeploymentJobs.length,
            Created := backup.Data.DeploymentJobs.length, Updated := 0, Skipped := 0,
            Failed := 0 } ∧
      (afterJobs env backup tenantID mode s).warnings = []) ∧
    (undecodableCount backup.Data.DeploymentHistory = 0 →
      ((decodedItems backup.Data.DeploymentHistory).map DeploymentHistory.ID).Nodup →
      (∀ e ∈ decodedItems backup.Data.DeploymentHistory,
        hasID DeploymentHistory.ID s.history e.ID = false) →
      (afterHistory env backup tenantID mode s).result
        = { EntityType := "deploymentHistory", Total := backup.Data.DeploymentHistory.length,
            Created := backup.Data.DeploymentHistory.length, Updated := 0, Skipped := 0,
            Failed := 0 } ∧
      (afterHistory env backup tenantID mode s).warnings = []) := by
  obtain ⟨_, _, _, g4, g5, g6⟩ := stages_tables env backup tenantID mode s
  refine ⟨?_, ?_, ?_, ?_⟩
  · intro hdec hnd habs
    exact importDeploymentTargets_fresh_result env s _ tenantID _ mode hcr hdec hnd habs
  · intro hdec hnd habs
    exact importTargetConfigurations_fresh_result env _ _ tenantID _ mode hcr hdec hnd
      (fun e he => by rw [g4]; exact habs e he)
  · intro hdec hnd habs
    exact importDeploymentJobs_fresh_result env _ _ tenantID _ mode hcr hdec hnd
      (fun e he => by rw [g5]; exact habs e he)
  · intro hdec hnd habs
    exact importDeploymentHistory_fresh_result env _ _ tenantID _ mode hcr hdec hnd
      (fun e he => by rw [g6]; exact habs e he)

/-- A pass in skip mode over a store that already holds the identifier of every
item that decodes, when the lookups work: every kind skips its decodable items,
the four tables stay as they are, and the pass issues lookups only. -/
theorem stages_skip_again (env : Env) (backup : backupData) (tenantID : Nat) (s : Store)
    (hget : ∀ n, env.getFails n = false)
    (pt : ∀ e ∈ decodedItems backup.Data.DeploymentTargets,
      hasID DeploymentTarget.ID s.targets e.ID = true)
    (pc : ∀ e ∈ decodedItems backup.Data.TargetConfigurations,
      hasID TargetConfiguration.ID s.configs e.ID = true)
    (pj : ∀ e ∈ decodedItems backup.Data.DeploymentJobs,
      hasID DeploymentJob.ID s.jobs e.ID = true)
    (ph : ∀ e ∈ decodedItems backup.Data.DeploymentHistory,
      hasID DeploymentHistory.ID s.history e.ID = true) :
    (afterTargets env backup tenantID .RESTORE_MODE_SKIP s).result
      = { EntityType := "deploymentTargets", Total := backup.Data.DeploymentTargets.length,
          Created := 0, Updated := 0,
          Skipped := (decodedItems backup.Data.DeploymentTargets).length,
          Failed := undecodableCount backup.Data.DeploymentTargets } ∧
    (afterConfigurations env backup tenantID .RESTORE_MODE_SKIP s).result
      = { EntityType := "targetConfigurations",
          Total := backup.Data.TargetConfigurations.length, Created := 0, Updated := 0,
          Skipped := (decodedItems backup.Data.TargetConfigurations).length,
          Failed := undecodableCount backup.Data.TargetConfigurations } ∧
    (afterJobs env backup tenantID .RESTORE_MODE_SKIP s).result
      = { EntityType := "deploymentJobs", Total := backup.Data.DeploymentJobs.length,
          Created := 0, Updated := 0,
          Skipped := (decodedItems backup.Data.DeploymentJobs).length,
          Failed := undecodableCount backup.Data.DeploymentJobs } ∧
    (afterHistory env backup tenantID .RESTORE_MODE_SKIP s).result
      = { EntityType := "deploymentHistory", Total := backup.Data.DeploymentHistory.length,
          Created := 0, Updated := 0,
          Skipped := (decodedItems backup.Data.DeploymentHistory).length,
          Failed := undecodableCount backup.Data.DeploymentHistory } ∧
    (afterHistory env backup tenantID .RESTORE_MODE_SKIP s).store.targets = s.targets ∧
    (afterHistory env backup tenantID .RESTORE_MODE_SKIP s).store.configs = s.configs ∧
    (afterHistory env backup tenantID .RESTORE_MODE_SKIP s).store.jobs = s.jobs ∧
    (afterHistory env backup tenantID .RESTORE_MODE_SKIP s).store.history = s.history ∧
    (∃ l, (afterHistory env backup tenantID .RESTORE_MODE_SKIP s).store.log = s.log ++ l ∧
      ∀ op ∈ l, op.access = Access.get) := by
  obtain ⟨t0, t1, t2, t3, t4, lt, tl, tk⟩ := importDeploymentTargets_skip_result env s
    backup.Data.DeploymentTargets tenantID backup.FullBackup hget pt
  obtain ⟨c0, c1, c2, c3, c4, lc, cl, ck⟩ := importTargetConfigurations_skip_result env
    (afterTargets env backup tenantID .RESTORE_MODE_SKIP s).store
    backup.Data.TargetConfigurations tenantID backup.FullBackup hget
    (fun e he => by
      show hasID TargetConfiguration.ID
        (importDeploymentTargets env s backup.Data.DeploymentTargets tenantID
          backup.FullBackup .RESTORE_MODE_SKIP).store.configs e.ID = true
      rw [t2]
      exact pc e he)
  obtain ⟨j0, j1, j2, j3, j4, lj, jl, jk⟩ := importDeploymentJobs_skip_result env
    (afterConfigurations env backup tenantID .RESTORE_MODE_SKIP s).store
    backup.Data.DeploymentJobs tenantID backup.FullBackup hget
    (fun e he => by
      show hasID DeploymentJob.ID
        (importTargetConfigurations env
          (afterTargets env backup tenantID .RESTORE_MODE_SKIP s).store
          backup.Data.TargetConfigurations tenantID backup.FullBackup
          .RESTORE_MODE_SKIP).store.jobs e.ID = true
      rw [c3]
      show hasID DeploymentJob.ID
        (importDeploymentTargets env s backup.Data.DeploymentTargets tenantID
          backup.FullBackup .RESTORE_MODE_SKIP).store.jobs e.ID = true
      rw [t3]
      exact pj e he)
  obtain ⟨h0, h1, h2, h3, h4, lh, hl, hk⟩ := importDeploymentHistory_skip_result env
    (afterJobs env backup tenantID .RESTORE_MODE_SKIP s).store
    backup.Data.DeploymentHistory tenantID backup.FullBackup hget
    (fun e he => by
      show hasID DeploymentHistory.ID
        (importDeploymentJobs env
          (afterConfigurations env backup tenantID .RESTORE_MODE_SKIP s).store
          backup.Data.DeploymentJobs tenantID backup.FullBackup
          .RESTORE_MODE_SKIP).store.history e.ID = true
      rw [j4]
      show hasID DeploymentHistory.ID
        (importTargetConfigurations env
          (afterTargets env backup tenantID .RESTORE_MODE_SKIP s).store
          backup.Data.TargetConfigurations tenantID backup.FullBackup
          .RESTORE_MODE_SKIP).store.history e.ID = true
      rw [c4]
      show hasID DeploymentHistory.ID
        (importDeploymentTargets env s backup.Data.DeploymentTargets tenantID
          backup.FullBackup .RESTORE_MODE_SKIP).store.history e.ID = true
      rw [t4]
      exact ph e he)
  refine ⟨t0, c0, j0, h0, ?_, ?_, ?_, ?_, ⟨lt ++ lc ++ lj ++ lh, ?_, ?_⟩⟩
  · exact h1.trans (j1.trans (c1.trans t1))
  · exact h2.trans (j2.trans (c2.trans t2))
  · exact h3.trans (j3.trans (c3.trans t3))
  · exact h4.trans (j4.trans (c4.trans t4))
  · show (importDeploymentHistory env _ _ _ _ _).store.log = _
    rw [hl]
    show (importDeploymentJobs env _ _ _ _ _).store.log ++ lh = _
    rw [jl]
    show (importTargetConfigurations env _ _ _ _ _).store.log ++ lj ++ lh = _
    rw [cl]
    show (importDeploymentTargets env _ _ _ _ _).store.log ++ lc ++ lj ++ lh = _
    rw [tl]
    simp [List.append_assoc]
  · intro op hop
    simp only [List.mem_append] at hop
    rcases hop with ((h | h) | h) | h
    · exact tk op h
    · exact ck op h
    · exact jk op h
    · exact hk op h

/-- A pass in overwrite mode over a store that already holds the identifier of
every item that decodes, when the lookups work and the store accepts every
update: every kind updates its decodable items. -/
theorem stages_overwrite_again (env : Env) (backup : backupData) (tenantID : Nat) (s : Store)
    (hget : ∀ n, env.getFails n = false) (hupd : ∀ n, env.updateFails n = false)
    (pt : ∀ e ∈ decodedItems backup.Data.DeploymentTargets,
      hasID DeploymentTarget.ID s.targets e.ID = true)
    (pc : ∀ e ∈ decodedItems backup.Data.TargetConfigurations,
      hasID TargetConfiguration.ID s.configs e.ID = true)
    (pj : ∀ e ∈ decodedItems backup.Data.DeploymentJobs,
      hasID DeploymentJob.ID s.jobs e.ID = true)
    (ph : ∀ e ∈ decodedItems backup.Data.DeploymentHistory,
      hasID DeploymentHistory.ID s.history e.ID = true) :
    ((afterTargets env backup tenantID .RESTORE_MODE_OVERWRITE s).result
      = { EntityType := "deploymentTargets", Total := backup.Data.DeploymentTargets.length,
          Created := 0, Updated := (decodedItems backup.Data.DeploymentTargets).length,
          Skipped := 0, Failed := undecodableCount backup.Data.DeploymentTargets } ∧
     (afterTargets env backup tenantID .RESTORE_MODE_OVERWRITE s).warnings.length
      = undecodableCount backup.Data.DeploymentTargets) ∧
    ((afterConfigurations env backup tenantID .RESTORE_MODE_OVERWRITE s).result
      = { EntityType := "targetConfigurations",
          Total := backup.Data.TargetConfigurations.length, Created := 0,
          Updated := (decodedItems backup.Data.TargetConfigurations).length, Skipped := 0,
          Failed := undecodableCount backup.Data.TargetConfigurations } ∧
     (afterConfigurations env backup tenantID .RESTORE_MODE_OVERWRITE s).warnings.length
      = undecodableCount backup.Data.TargetConfigurations) ∧
    ((afterJobs env backup tenantID .RESTORE_MODE_OVERWRITE s).result
      = { EntityType := "deploymentJobs", Total := backup.Data.DeploymentJobs.length,
          Created := 0, Updated := (decodedItems backup.Data.DeploymentJobs).length,
          Skipped := 0, Failed := undecodableCount backup.Data.DeploymentJobs } ∧
     (afterJobs env backup tenantID .RESTORE_MODE_OVERWRITE s).warnings.length
      = undecodableCount backup.Data.DeploymentJobs) ∧
    ((afterHistory env backup tenantID .RESTORE_MODE_OVERWRITE s).result
      = { EntityType := "deploymentHistory", Total := backup.Data.DeploymentHistory.length,
          Created := 0, Updated := (decodedItems backup.Data.DeploymentHistory).length,
          Skipped := 0, Failed := undecodableCount backup.Data.DeploymentHistory } ∧
     (afterHistory env backup tenantID .RESTORE_MODE_OVERWRITE s).warnings.length
      = undecodableCount backup.Data.DeploymentHistory) := by
  obtain ⟨_, _, _, g4, g5, g6⟩ := stages_tables env backup tenantID .RESTORE_MODE_OVERWRITE s
  refine ⟨?_, ?_, ?_, ?_⟩
  · exact importDeploymentTargets_overwrite_result env s _ tenantID _ hget hupd pt
  · exact importTargetConfigurations_overwrite_result env _ _ tenantID _ hget hupd
      (fun e he => by rw [g4]; exact pc e he)
  · exact importDeploymentJobs_overwrite_result env _ _ tenantID _ hget hupd
      (fun e he => by rw [g5]; exact pj e he)
  · exact importDeploymentHistory_overwrite_result env _ _ tenantID _ hget hupd
      (fun e he => by rw [g6]; exact ph e he)

theorem mem_resultEntry (count : Nat) (st : ImportState) (h : 0 < count) :
    st.result ∈ resultEntry count st := by
  unfold resultEntry
  have hne : ¬ count = 0 := by omega
  simp [hne]

/-! ## Import: idempotence under skip -/

/-- C12 (amended). Idempotence under skip.  For every envelope that passes the
structural checks, on a store whose lookups work and which accepts every
create, restored twice with mode = skip: for every kind that holds N > 0 items
which all decode, with pairwise distinct identifiers none of which is in the
store, the first pass reports total = N, created = N, skipped = 0 and the
second pass reports created = 0, skipped = N, both with updated = failed = 0;
and the second pass leaves the four tables exactly as the first pass left them,
issuing lookups only. -/
theorem ImportBackup_skip_twice (env : Env) (caller : Caller) (backup : backupData) (s : Store)
    (hm : backup.Module = "deployer") (hv : backup.Version = "1.0")
    (hauth : backup.FullBackup = true → caller.IsPlatformAdmin = true)
    (hget : ∀ n, env.getFails n = false) (hcr : ∀ n, env.createFails n = false) :
    ∃ resp1 resp2,
      (ImportBackup env caller ⟨.ok backup, .RESTORE_MODE_SKIP⟩ s).1 = .ok resp1 ∧
      (ImportBackup env caller ⟨.ok backup, .RESTORE_MODE_SKIP⟩
        (ImportBackup env caller ⟨.ok backup, .RESTORE_MODE_SKIP⟩ s).2).1 = .ok resp2 ∧
      (0 < backup.Data.DeploymentTargets.length →
        undecodableCount backup.Data.DeploymentTargets = 0 →
        ((decodedItems backup.Data.DeploymentTargets).map DeploymentTarget.ID).Nodup →
        (∀ e ∈ decodedItems backup.Data.DeploymentTargets, hasID DeploymentTarget.ID s.targets e.ID = false) →
        EntityImportResult.mk "deploymentTargets" backup.Data.DeploymentTargets.length backup.Data.DeploymentTargets.length 0 0 0
          ∈ resp1.Results ∧
        EntityImportResult.mk "deploymentTargets" backup.Data.DeploymentTargets.length 0 0 backup.Data.DeploymentTargets.length 0
          ∈ resp2.Results) ∧
      (0 < backup.Data.TargetConfigurations.length →
        undecodableCount backup.Data.TargetConfigurations = 0 →
        ((decodedItems backup.Data.TargetConfigurations).map TargetConfiguration.ID).Nodup →
        (∀ e ∈ decodedItems backup.Data.TargetConfigurations, hasID TargetConfiguration.ID s.configs e.ID = false) →
        EntityImportResult.mk "targetConfigurations" backup.Data.TargetConfigurations.length backup.Data.TargetConfigurations.length 0 0 0
          ∈ resp1.Results ∧
        EntityImportResult.mk "targetConfigurations" backup.Data.TargetConfigurations.length 0 0 backup.Data.TargetConfigurations.length 0
          ∈ resp2.Results) ∧
      (0 < backup.Data.DeploymentJobs.length →
        undecodableCount backup.Data.DeploymentJobs = 0 →
        ((decodedItems backup.Data.DeploymentJobs).map DeploymentJob.ID).Nodup →
        (∀ e ∈ decodedItems backup.Data.DeploymentJobs, hasID DeploymentJob.ID s.jobs e.ID = false) →
        EntityImportResult.mk "deploymentJobs" backup.Data.DeploymentJobs.length backup.Data.DeploymentJobs.length 0 0 0
          ∈ resp1.Results ∧
        EntityImportResult.mk "deploymentJobs" backup.Data.DeploymentJobs.length 0 0 backup.Data.DeploymentJobs.length 0
          ∈ resp2.Results) ∧
      (0 < backup.Data.DeploymentHistory.length →
        undecodableCount backup.Data.DeploymentHistory = 0 →
        ((decodedItems backup.Data.DeploymentHistory).map DeploymentHistory.ID).Nodup →
        (∀ e ∈ decodedItems backup.Data.DeploymentHistory, hasID DeploymentHistory.ID s.history e.ID = false) →
        EntityImportResult.mk "deploymentHistory" backup.Data.DeploymentHistory.length backup.Data.DeploymentHistory.length 0 0 0
          ∈ resp1.Results ∧
        EntityImportResult.mk "deploymentHistory" backup.Data.DeploymentHistory.length 0 0 backup.Data.DeploymentHistory.length 0
          ∈ resp2.Results) ∧
      (ImportBackup env caller ⟨.ok backup, .RESTORE_MODE_SKIP⟩
        (ImportBackup env caller ⟨.ok backup, .RESTORE_MODE_SKIP⟩ s).2).2.targets
        = (ImportBackup env caller ⟨.ok backup, .RESTORE_MODE_SKIP⟩ s).2.targets ∧
      (ImportBackup env caller ⟨.ok backup, .RESTORE_MODE_SKIP⟩
        (ImportBackup env caller ⟨.ok backup, .RESTORE_MODE_SKIP⟩ s).2).2.configs
        = (ImportBackup env caller ⟨.ok backup, .RESTORE_MODE_SKIP⟩ s).2.configs ∧
      (ImportBackup env caller ⟨.ok backup, .RESTORE_MODE_SKIP⟩
        (ImportBackup env caller ⟨.ok backup, .RESTORE_MODE_SKIP⟩ s).2).2.jobs
        = (ImportBackup env caller ⟨.ok backup, .RESTORE_MODE_SKIP⟩ s).2.jobs ∧
      (ImportBackup env caller ⟨.ok backup, .RESTORE_MODE_SKIP⟩
        (ImportBackup env caller ⟨.ok backup, .RESTORE_MODE_SKIP⟩ s).2).2.history
        = (ImportBackup env caller ⟨.ok backup, .RESTORE_MODE_SKIP⟩ s).2.history ∧
      (∃ l, (ImportBackup env caller ⟨.ok backup, .RESTORE_MODE_SKIP⟩
          (ImportBackup env caller ⟨.ok backup, .RESTORE_MODE_SKIP⟩ s).2).2.log
          = (ImportBackup env caller ⟨.ok backup, .RESTORE_MODE_SKIP⟩ s).2.log ++ l ∧
        ∀ op ∈ l, op.access = Access.get) := by
  have e1 := ImportBackup_stages env caller backup .RESTORE_MODE_SKIP s hm hv hauth
  have hS : (ImportBackup env caller ⟨.ok backup, .RESTORE_MODE_SKIP⟩ s).2
      = (afterHistory env backup (importTenant caller backup) .RESTORE_MODE_SKIP s).store := by
    rw [e1]
  rw [hS]
  rw [ImportBackup_stages env caller backup .RESTORE_MODE_SKIP
    (afterHistory env backup (importTenant caller backup) .RESTORE_MODE_SKIP s).store hm hv hauth,
    e1]
  have F := stages_fresh env backup (importTenant caller backup) .RESTORE_MODE_SKIP s hcr
  have P := stages_present env backup (importTenant caller backup) .RESTORE_MODE_SKIP s hcr
  have S := stages_skip_again env backup (importTenant caller backup)
    (afterHistory env backup (importTenant caller backup) .RESTORE_MODE_SKIP s).store hget
    P.1 P.2.1 P.2.2.1 P.2.2.2
  refine ⟨_, _, rfl, rfl, ?_, ?_, ?_, ?_, S.2.2.2.2.1, S.2.2.2.2.2.1, S.2.2.2.2.2.2.1,
    S.2.2.2.2.2.2.2.1, S.2.2.2.2.2.2.2.2⟩
  · intro hpos hdec hnd habs
    have r1 := (F.1 hdec hnd habs).1
    have r2 := S.1
    have hlen := decodedItems_length backup.Data.DeploymentTargets
    rw [hdec] at r2 hlen
    rw [show (decodedItems backup.Data.DeploymentTargets).length = backup.Data.DeploymentTargets.length by omega] at r2
    have m1 := mem_resultEntry backup.Data.DeploymentTargets.length
      (afterTargets env backup (importTenant caller backup) .RESTORE_MODE_SKIP s) hpos
    have m2 := mem_resultEntry backup.Data.DeploymentTargets.length
      (afterTargets env backup (importTenant caller backup) .RESTORE_MODE_SKIP
        (afterHistory env backup (importTenant caller backup) .RESTORE_MODE_SKIP s).store) hpos
    rw [r1] at m1
    rw [r2] at m2
    refine ⟨?_, ?_⟩
    · simp only [List.mem_append]
      exact Or.inl (Or.inl (Or.inl m1))
    · simp only [List.mem_append]
      exact Or.inl (Or.inl (Or.inl m2))
  · intro hpos hdec hnd habs
    have r1 := (F.2.1 hdec hnd habs).1
    have r2 := S.2.1
    have hlen := decodedItems_length backup.Data.TargetConfigurations
    rw [hdec] at r2 hlen
    rw [show (decodedItems backup.Data.TargetConfigurations).length = backup.Data.TargetConfigurations.length by omega] at r2
    have m1 := mem_resultEntry backup.Data.TargetConfigurations.length
      (afterConfigurations env backup (importTenant caller backup) .RESTORE_MODE_SKIP s) hpos
    have m2 := mem_resultEntry backup.Data.TargetConfigurations.length
      (afterConfigurations env backup (importTenant caller backup) .RESTORE_MODE_SKIP
        (afterHistory env backup (importTenant caller backup) .RESTORE_MODE_SKIP s).store) hpos
    rw [r1] at m1
    rw [r2] at m2
    refine ⟨?_, ?_⟩
    · simp only [List.mem_append]
      exact Or.inl (Or.inl (Or.inr m1))
    · simp only [List.mem_append]
      exact Or.inl (Or.inl (Or.inr m2))
  · intro hpos hdec hnd habs
    have r1 := (F.2.2.1 hdec hnd habs).1
    have r2 := S.2.2.1
    have hlen := decodedItems_length backup.Data.DeploymentJobs
    rw [hdec] at r2 hlen
    rw [show (decodedItems backup.Data.DeploymentJobs).length = backup.Data.DeploymentJobs.length by omega] at r2
    have m1 := mem_resultEntry backup.Data.DeploymentJobs.length
      (afterJobs env backup (importTenant caller backup) .RESTORE_MODE_SKIP s) hpos
    have m2 := mem_resultEntry backup.Data.DeploymentJobs.length
      (afterJobs env backup (importTenant caller backup) .RESTORE_MODE_SKIP
        (afterHistory env backup (importTenant caller backup) .RESTORE_MODE_SKIP s).store) hpos
    rw [r1] at m1
    rw [r2] at m2
    refine ⟨?_, ?_⟩
    · simp only [List.mem_append]
      exact Or.inl (Or.inr m1)
    · simp only [List.mem_append]
      exact Or.inl (Or.inr m2)
  · intro hpos hdec hnd habs
    have r1 := (F.2.2.2 hdec hnd habs).1
    have r2 := S.2.2.2.1
    have hlen := decodedItems_length backup.Data.DeploymentHistory
    rw [hdec] at r2 hlen
    rw [show (decodedItems backup.Data.DeploymentHistory).length = backup.Data.DeploymentHistory.length by omega] at r2
    have m1 := mem_resultEntry backup.Data.DeploymentHistory.length
      (afterHistory env backup (importTenant caller backup) .RESTORE_MODE_SKIP s) hpos
    have m2 := mem_resultEntry backup.Data.DeploymentHistory.length
      (afterHistory env backup (importTenant caller backup) .RESTORE_MODE_SKIP
        (afterHistory env backup (importTenant caller backup) .RESTORE_MODE_SKIP s).store) hpos
    rw [r1] at m1
    rw [r2] at m2
    refine ⟨?_, ?_⟩
    · simp only [List.mem_append]
      exact Or.inr m1
    · simp only [List.mem_append]
      exact Or.inr m2

/-- Witness of C12: tenant 1 restores twice, in skip mode, an envelope with two
targets and one job into the empty store. -/
theorem ImportBackup_skip_twice_witness :
    ∃ resp1 resp2,
      (ImportBackup okEnv ⟨1, false⟩ ⟨.ok smallBackup, .RESTORE_MODE_SKIP⟩ emptyStore).1
        = .ok resp1 ∧
      (ImportBackup okEnv ⟨1, false⟩ ⟨.ok smallBackup, .RESTORE_MODE_SKIP⟩
        (ImportBackup okEnv ⟨1, false⟩ ⟨.ok smallBackup, .RESTORE_MODE_SKIP⟩ emptyStore).2).1
        = .ok resp2 ∧
      EntityImportResult.mk "deploymentTargets" 2 2 0 0 0 ∈ resp1.Results ∧
      EntityImportResult.mk "deploymentTargets" 2 0 0 2 0 ∈ resp2.Results := by
  obtain ⟨resp1, resp2, h1, h2, ht, _⟩ := ImportBackup_skip_twice okEnv ⟨1, false⟩ smallBackup
    emptyStore rfl rfl (fun h => nomatch h) (fun _ => rfl) (fun _ => rfl)
  have hk := ht (by decide) rfl (by decide) (by decide)
  exact ⟨resp1, resp2, h1, h2, hk.1, hk.2⟩

/-- C12 as stated fails: the envelope holds N = 2 well-formed targets, neither
identifier is in the store, but both carry the same identifier; the first pass
in skip mode creates one and skips the other. -/
theorem ImportBackup_skip_duplicate_identifiers :
    undecodableCount duplicateTargetBackup.Data.DeploymentTargets = 0 ∧
    (∀ e ∈ decodedItems duplicateTargetBackup.Data.DeploymentTargets,
      hasID DeploymentTarget.ID emptyStore.targets e.ID = false) ∧
    (ImportBackup okEnv ⟨1, false⟩ ⟨.ok duplicateTargetBackup, .RESTORE_MODE_SKIP⟩
      emptyStore).1
      = .ok (ImportBackupResponse.mk true
          [EntityImportResult.mk "deploymentTargets" 2 1 0 1 0] []) :=
  ⟨rfl, by decide, rfl⟩

/-! ## Round trip: export, restore into an empty store, restore again -/

theorem decodedItems_map_ok {α : Type} (ents : List α) :
    decodedItems (ents.map Except.ok : List (RawMessage α)) = ents ∧
    undecodableCount (ents.map Except.ok : List (RawMessage α)) = 0 := by
  induction ents with
  | nil => exact ⟨rfl, rfl⟩
  | cons e rest ih =>
    obtain ⟨h1, h2⟩ := ih
    refine ⟨?_, ?_⟩
    · simp only [decodedItems] at h1
      simp [decodedItems, h1]
    · simp only [undecodableCount] at h2
      simp [undecodableCount, h2]

/-- The items of an exported collection all decode, and they carry pairwise
distinct identifiers when the table they were read from does. -/
theorem exported_items {α κ : Type} [DecidableEq κ] (key : α → κ) (rows ents : List α)
    (out : List (RawMessage α)) (hout : out = ents.map Except.ok) (hsub : ents.Sublist rows)
    (hnd : (rows.map key).Nodup) :
    undecodableCount out = 0 ∧ ((decodedItems out).map key).Nodup ∧
    (decodedItems out).length = out.length := by
  subst hout
  obtain ⟨h1, h2⟩ := decodedItems_map_ok ents
  refine ⟨h2, ?_, ?_⟩
  · rw [h1]
    exact List.Nodup.sublist (List.Sublist.map key hsub) hnd
  · rw [h1, List.length_map]

theorem exportDeploymentTargets_shape (env : Env) (s : Store) (tenantID : Nat) (full : Bool)
    (out : List (RawMessage DeploymentTarget)) (h : exportDeploymentTargets env s tenantID full = .ok out) :
    ∃ ents : List _, out = List.map Except.ok ents ∧ List.Sublist ents s.targets := by
  unfold exportDeploymentTargets at h
  simp only [marshalEntities] at h
  split at h
  · cases h
  · refine ⟨_, marshalEntitiesFrom_ok _ _ _ _ h, ?_⟩
    split
    · exact List.filter_sublist _
    · exact List.Sublist.refl _

theorem exportTargetConfigurations_shape (env : Env) (s : Store) (tenantID : Nat) (full : Bool)
    (out : List (RawMessage TargetConfiguration)) (h : exportTargetConfigurations env s tenantID full = .ok out) :
    ∃ ents : List _, out = List.map Except.ok ents ∧ List.Sublist ents s.configs := by
  unfold exportTargetConfigurations at h
  simp only [marshalEntities] at h
  split at h
  · cases h
  · refine ⟨_, marshalEntitiesFrom_ok _ _ _ _ h, ?_⟩
    split
    · exact List.filter_sublist _
    · exact List.Sublist.refl _

theorem exportDeploymentJobs_shape (env : Env) (s : Store) (tenantID : Nat) (full : Bool)
    (out : List (RawMessage DeploymentJob)) (h : exportDeploymentJobs env s tenantID full = .ok out) :
    ∃ ents : List _, out = List.map Except.ok ents ∧ List.Sublist ents s.jobs := by
  unfold exportDeploymentJobs at h
  simp only [marshalEntities] at h
  split at h
  · cases h
  · refine ⟨_, marshalEntitiesFrom_ok _ _ _ _ h, ?_⟩
    split
    · exact List.filter_sublist _
    · exact List.Sublist.refl _

theorem exportDeploymentHistory_shape (env : Env) (s : Store) (tenantID : Nat) (full : Bool)
    (out : List (RawMessage DeploymentHistory)) (h : exportDeploymentHistory env s tenantID full = .ok out) :
    ∃ ents : List _, out = List.map Except.ok ents ∧ List.Sublist ents s.history := by
  unfold exportDeploymentHistory at h
  simp only [marshalEntities] at h
  split at h
  · cases h
  · refine ⟨_, marshalEntitiesFrom_ok _ _ _ _ h, ?_⟩
    split
    · exact List.filter_sublist _
    · exact List.Sublist.refl _

theorem ExportBackup_header (env : Env) (caller : Caller) (req : ExportBackupRequest)
    (now : Nat) (s : Store) (resp : ExportBackupResponse)
    (h : ExportBackup env caller req now s = .ok resp) :
    resp.Data.Module = "deployer" ∧ resp.Data.Version = "1.0" ∧
    resp.EntityCounts =
      [("deploymentTargets", resp.Data.Data.DeploymentTargets.length),
       ("targetConfigurations", resp.Data.Data.TargetConfigurations.length),
       ("deploymentJobs", resp.Data.Data.DeploymentJobs.length),
       ("deploymentHistory", resp.Data.Data.DeploymentHistory.length)] := by
  unfold ExportBackup at h
  simp only at h
  split at h
  · cases h
  · split at h
    · cases h
    · split at h
      · cases h
      · split at h
        · cases h
        · simp only [Except.ok.injEq] at h
          subst h
          exact ⟨rfl, rfl, rfl⟩

theorem exportScope_full (caller : Caller) (req : ExportBackupRequest)
    (h : (exportScope caller req).2 = true) : caller.IsPlatformAdmin = true := by
  unfold exportScope at h
  cases ha : caller.IsPlatformAdmin with
  | true => rfl
  | false =>
    rw [ha] at h
    cases hr : req.TenantId with
    | none => simp [hr] at h
    | some r =>
      by_cases h0 : r = 0
      · simp [hr, h0] at h
      · simp [hr, h0] at h

theorem resultEntry_eq (count : Nat) (st : ImportState) (r : EntityImportResult)
    (h : st.result = r) : resultEntry count st = if count = 0 then [] else [r] := by
  unfold resultEntry
  rw [h]

/-- C11. Round trip.  For every store with unique identifiers and every caller
and request whose export returns an envelope: restoring that envelope in
overwrite mode, as the same caller (or any caller who is a platform admin if
the exporter is), into a store with empty tables whose lookups, creates and
updates succeed returns, for every kind with records, total = created = the
number of records of that kind exported (the entity count of the export) and
updated = skipped = failed = 0, with no warning; restoring the same envelope a
second time returns, for every kind with records, updated = that same number
and created = skipped = failed = 0, with no warning. -/
theorem export_restore_roundtrip (envE envI : Env) (exporter importer : Caller)
    (req : ExportBackupRequest) (now : Nat) (s s0 : Store) (resp : ExportBackupResponse)
    (huniq : s.uniqueIDs)
    (hexp : ExportBackup envE exporter req now s = .ok resp)
    (hadm : exporter.IsPlatformAdmin = true → importer.IsPlatformAdmin = true)
    (hget : ∀ n, envI.getFails n = false) (hcr : ∀ n, envI.createFails n = false)
    (hupd : ∀ n, envI.updateFails n = false)
    (hempty : s0.targets = [] ∧ s0.configs = [] ∧ s0.jobs = [] ∧ s0.history = []) :
    resp.EntityCounts =
      [("deploymentTargets", resp.Data.Data.DeploymentTargets.length),
       ("targetConfigurations", resp.Data.Data.TargetConfigurations.length),
       ("deploymentJobs", resp.Data.Data.DeploymentJobs.length),
       ("deploymentHistory", resp.Data.Data.DeploymentHistory.length)] ∧
    (ImportBackup envI importer ⟨.ok resp.Data, .RESTORE_MODE_OVERWRITE⟩ s0).1
      = .ok (ImportBackupResponse.mk true
          ((if resp.Data.Data.DeploymentTargets.length = 0 then []
            else [EntityImportResult.mk "deploymentTargets"
              resp.Data.Data.DeploymentTargets.length
              resp.Data.Data.DeploymentTargets.length 0 0 0])
           ++ (if resp.Data.Data.TargetConfigurations.length = 0 then []
            else [EntityImportResult.mk "targetConfigurations"
              resp.Data.Data.TargetConfigurations.length
              resp.Data.Data.TargetConfigurations.length 0 0 0])
           ++ (if resp.Data.Data.DeploymentJobs.length = 0 then []
            else [EntityImportResult.mk "deploymentJobs"
              resp.Data.Data.DeploymentJobs.length
              resp.Data.Data.DeploymentJobs.length 0 0 0])
           ++ (if resp.Data.Data.DeploymentHistory.length = 0 then []
            else [EntityImportResult.mk "deploymentHistory"
              resp.Data.Data.DeploymentHistory.length
              resp.Data.Data.DeploymentHistory.length 0 0 0]))
          []) ∧
    (ImportBackup envI importer ⟨.ok resp.Data, .RESTORE_MODE_OVERWRITE⟩
      (ImportBackup envI importer ⟨.ok resp.Data, .RESTORE_MODE_OVERWRITE⟩ s0).2).1
      = .ok (ImportBackupResponse.mk true
          ((if resp.Data.Data.DeploymentTargets.length = 0 then []
            else [EntityImportResult.mk "deploymentTargets"
              resp.Data.Data.DeploymentTargets.length 0
              resp.Data.Data.DeploymentTargets.length 0 0])
           ++ (if resp.Data.Data.TargetConfigurations.length = 0 then []
            else [EntityImportResult.mk "targetConfigurations"
              resp.Data.Data.TargetConfigurations.length 0
              resp.Data.Data.TargetConfigurations.length 0 0])
           ++ (if resp.Data.Data.DeploymentJobs.length = 0 then []
            else [EntityImportResult.mk "deploymentJobs"
              resp.Data.Data.DeploymentJobs.length 0
              resp.Data.Data.DeploymentJobs.length 0 0])
           ++ (if resp.Data.Data.DeploymentHistory.length = 0 then []
            else [EntityImportResult.mk "deploymentHistory"
              resp.Data.Data.DeploymentHistory.length 0
              resp.Data.Data.DeploymentHistory.length 0 0]))
          []) := by
  obtain ⟨hm, hv, hcounts⟩ := ExportBackup_header envE exporter req now s resp hexp
  obtain ⟨_, _, hfull, xt, xc, xj, xh⟩ := ExportBackup_ok envE exporter req now s resp hexp
  have hauth : resp.Data.FullBackup = true → importer.IsPlatformAdmin = true := by
    intro hf
    rw [hfull] at hf
    exact hadm (exportScope_full exporter req hf)
  obtain ⟨et, ot, st⟩ := exportDeploymentTargets_shape envE s _ _ _ xt
  obtain ⟨ec, oc, sc⟩ := exportTargetConfigurations_shape envE s _ _ _ xc
  obtain ⟨ej, oj, sj⟩ := exportDeploymentJobs_shape envE s _ _ _ xj
  obtain ⟨eh, oh, sh⟩ := exportDeploymentHistory_shape envE s _ _ _ xh
  obtain ⟨dt, nt, lt⟩ := exported_items DeploymentTarget.ID _ et _ ot st huniq.1
  obtain ⟨dc, nc, lc⟩ := exported_items TargetConfiguration.ID _ ec _ oc sc huniq.2.1
  obtain ⟨dj, nj, lj⟩ := exported_items DeploymentJob.ID _ ej _ oj sj huniq.2.2.1
  obtain ⟨dh, nh, lh⟩ := exported_items DeploymentHistory.ID _ eh _ oh sh huniq.2.2.2
  obtain ⟨z1, z2, z3, z4⟩ := hempty
  have F := stages_fresh envI resp.Data (importTenant importer resp.Data)
    .RESTORE_MODE_OVERWRITE s0 hcr
  obtain ⟨ft, wt⟩ := F.1 dt nt (fun e _ => by rw [z1]; rfl)
  obtain ⟨fc, wc⟩ := F.2.1 dc nc (fun e _ => by rw [z2]; rfl)
  obtain ⟨fj, wj⟩ := F.2.2.1 dj nj (fun e _ => by rw [z3]; rfl)
  obtain ⟨fh, wh⟩ := F.2.2.2 dh nh (fun e _ => by rw [z4]; rfl)
  have P := stages_present envI resp.Data (importTenant importer resp.Data)
    .RESTORE_MODE_OVERWRITE s0 hcr
  have O := stages_overwrite_again envI resp.Data (importTenant importer resp.Data)
    (afterHistory envI resp.Data (importTenant importer resp.Data)
      .RESTORE_MODE_OVERWRITE s0).store hget hupd P.1 P.2.1 P.2.2.1 P.2.2.2
  obtain ⟨⟨ut, vt⟩, ⟨uc, vc⟩, ⟨uj, vj⟩, ⟨uh, vh⟩⟩ := O
  rw [dt, lt] at ut
  rw [dc, lc] at uc
  rw [dj, lj] at uj
  rw [dh, lh] at uh
  rw [dt] at vt
  rw [dc] at vc
  rw [dj] at vj
  rw [dh] at vh
  have e1 := ImportBackup_stages envI importer resp.Data .RESTORE_MODE_OVERWRITE s0 hm hv hauth
  have hS : (ImportBackup envI importer ⟨.ok resp.Data, .RESTORE_MODE_OVERWRITE⟩ s0).2
      = (afterHistory envI resp.Data (importTenant importer resp.Data)
          .RESTORE_MODE_OVERWRITE s0).store := by
    rw [e1]
  rw [hS]
  rw [ImportBackup_stages envI importer resp.Data .RESTORE_MODE_OVERWRITE
    (afterHistory envI resp.Data (importTenant importer resp.Data)
      .RESTORE_MODE_OVERWRITE s0).store hm hv hauth, e1]
  refine ⟨hcounts, ?_, ?_⟩
  · rw [resultEntry_eq _ _ _ ft, resultEntry_eq _ _ _ fc, resultEntry_eq _ _ _ fj,
      resultEntry_eq _ _ _ fh, wt, wc, wj, wh]
    rfl
  · rw [resultEntry_eq _ _ _ ut, resultEntry_eq _ _ _ uc, resultEntry_eq _ _ _ uj,
      resultEntry_eq _ _ _ uh, List.eq_nil_of_length_eq_zero vt,
      List.eq_nil_of_length_eq_zero vc, List.eq_nil_of_length_eq_zero vj,
      List.eq_nil_of_length_eq_zero vh]
    rfl

/-- Witness of C11: tenant 1 exports its data from the two-tenant store and
restores the envelope twice, in overwrite mode, into the empty store. -/
theorem export_restore_roundtrip_witness :
    ∃ resp, ExportBackup okEnv ⟨1, false⟩ ⟨none⟩ 0 twoTenantStore = .ok resp ∧
      resp.EntityCounts = [("deploymentTargets", 1), ("targetConfigurations", 1),
        ("deploymentJobs", 1), ("deploymentHistory", 1)] ∧
      (ImportBackup okEnv ⟨1, false⟩ ⟨.ok resp.Data, .RESTORE_MODE_OVERWRITE⟩ emptyStore).1
        = .ok (ImportBackupResponse.mk true
            [EntityImportResult.mk "deploymentTargets" 1 1 0 0 0,
              EntityImportResult.mk "targetConfigurations" 1 1 0 0 0,
              EntityImportResult.mk "deploymentJobs" 1 1 0 0 0,
              EntityImportResult.mk "deploymentHistory" 1 1 0 0 0] []) ∧
      (ImportBackup okEnv ⟨1, false⟩ ⟨.ok resp.Data, .RESTORE_MODE_OVERWRITE⟩
        (ImportBackup okEnv ⟨1, false⟩ ⟨.ok resp.Data, .RESTORE_MODE_OVERWRITE⟩
          emptyStore).2).1
        = .ok (ImportBackupResponse.mk true
            [EntityImportResult.mk "deploymentTargets" 1 0 1 0 0,
              EntityImportResult.mk "targetConfigurations" 1 0 1 0 0,
              EntityImportResult.mk "deploymentJobs" 1 0 1 0 0,
              EntityImportResult.mk "deploymentHistory" 1 0 1 0 0] []) := by
  obtain ⟨resp, hresp⟩ := ExportBackup_total okEnv ⟨1, false⟩ ⟨none⟩ 0 twoTenantStore
    (fun _ => rfl) (fun _ _ => rfl)
  have hval : ExportBackup okEnv ⟨1, false⟩ ⟨none⟩ 0 twoTenantStore
      = .ok (ExportBackupResponse.mk
          (mkBackup "deployer" "1.0" 1 false
            { DeploymentTargets := [.ok (mkTarget "t1" (some 1) "one")]
              TargetConfigurations := [.ok (mkConfig "c1" (some 1) "one")]
              DeploymentJobs := [.ok (mkJob "j1" (some 1) (some "t1"))]
              DeploymentHistory := [.ok (mkHistory 1 "j1")] })
          "deployer" "1.0" 0 1
          [("deploymentTargets", 1), ("targetConfigurations", 1), ("deploymentJobs", 1),
            ("deploymentHistory", 1)]) := rfl
  have hr := export_restore_roundtrip okEnv okEnv ⟨1, false⟩ ⟨1, false⟩ ⟨none⟩ 0
    twoTenantStore emptyStore resp (by unfold Store.uniqueIDs; decide) hresp (fun h => h)
    (fun _ => rfl) (fun _ => rfl) (fun _ => rfl) ⟨rfl, rfl, rfl, rfl⟩
  rw [hval] at hresp
  have hrv := Except.ok.inj hresp
  subst hrv
  exact ⟨_, hval, hr.1, hr.2.1, hr.2.2⟩

end Deployer
